import Mathlib

/-!
Verification of the connormason/dotfiles repository: shallow embeddings of
`library/osx_pmset.py`, `library/configure_network_interfaces.py`, the
`style`/`unstyle`/`retry_on_failure` helpers of `run.py`, and
`scripts/installers/install_hatch.py`'s `download_installer`, together with
theorems settling the frozen claims about them.
-/

namespace Dotfiles

/-! ### Python string primitives

Helpers mirroring the Python string operations the repository uses.  Command
outputs in this codebase are `\n`-separated ASCII text, so `str.splitlines`
is modelled as splitting on `'\n'`.
-/

/-- Python `\s` / `str.strip()` whitespace characters. -/
def isPyWS (c : Char) : Bool :=
  c = ' ' || c = '\t' || c = '\n' || c = '\r' || c = '\x0c' || c = '\x0b'

/-- Python `\w` word characters (ASCII inputs). -/
def isWordChar (c : Char) : Bool :=
  c.isAlphanum || c = '_'

/-- Drop leading characters satisfying `p` (Python `lstrip`-style). -/
def dropLeading (p : Char → Bool) : List Char → List Char
  | [] => []
  | c :: cs => if p c then dropLeading p cs else c :: cs

/-- Python `str.strip()` (no arguments): strip whitespace from both ends. -/
def pyStrip (s : String) : String :=
  ((dropLeading isPyWS ((dropLeading isPyWS s.toList).reverse)).reverse).asString

/-- Python `str.lstrip()` (no arguments). -/
def pyLstrip (s : String) : String :=
  (dropLeading isPyWS s.toList).asString

/-- `String.splitOn` for a single-character separator, over character
lists. -/
def splitOnChar (sep : Char) (cs : List Char) : List (List Char) :=
  cs.foldr (fun c acc =>
    match acc with
    | [] => [[c]]
    | a :: rest => if c = sep then [] :: a :: rest else (c :: a) :: rest) [[]]

/-- `s.split(sep)` for a one-character separator. -/
def splitStr (sep : Char) (s : String) : List String :=
  (splitOnChar sep s.toList).map List.asString

/-- `", ".join(l)`-style joining. -/
def strJoinSep (sep : String) : List String → String
  | [] => ""
  | [x] => x
  | x :: y :: rest => x ++ sep ++ strJoinSep sep (y :: rest)

/-- Python `str.splitlines()` for `\n`-separated text. -/
def pySplitlines (s : String) : List String :=
  if s.toList.isEmpty then []
  else if s.toList.getLast? = some '\n' then (splitStr '\n' s).dropLast
  else splitStr '\n' s

/-- Substring test on character lists (Python `in` for strings). -/
def containsSubAux (sub : List Char) : List Char → Bool
  | [] => sub.isEmpty
  | c :: cs => sub.isPrefixOf (c :: cs) || containsSubAux sub cs

/-- Python `sub in s`. -/
def strContainsSub (s sub : String) : Bool :=
  containsSubAux sub.toList s.toList

/-- Digits of a decimal numeral to a natural number (all characters must be digits). -/
def digitsToNat (ds : List Char) : Option Nat :=
  if ds.isEmpty || !ds.all Char.isDigit then none
  else some (ds.foldl (fun a c => a * 10 + (c.toNat - 48)) 0)

/-- Python `int(s)` on a string: optional surrounding whitespace, optional sign,
decimal digits; `none` models the `ValueError`. -/
def pyToInt (s : String) : Option Int :=
  match (pyStrip s).toList with
  | '-' :: ds => (digitsToNat ds).map (fun n => -(n : Int))
  | '+' :: ds => (digitsToNat ds).map (fun n => (n : Int))
  | ds => (digitsToNat ds).map (fun n => (n : Int))

/-- Decidable equality of `Except` values (used to evaluate the embedded
functions on concrete inputs). -/
instance {ε α : Type} [DecidableEq ε] [DecidableEq α] : DecidableEq (Except ε α)
  | .error a, .error b =>
    if h : a = b then .isTrue (by rw [h]) else .isFalse (fun hc => h (by injection hc))
  | .error _, .ok _ => .isFalse (fun hc => Except.noConfusion hc)
  | .ok _, .error _ => .isFalse (fun hc => Except.noConfusion hc)
  | .ok a, .ok b =>
    if h : a = b then .isTrue (by rw [h]) else .isFalse (fun hc => h (by injection hc))

/-! ### Python dict (string-keyed, insertion ordered) -/

/-- Lookup in an association list modelling a Python dict. -/
def dictLookup {α : Type} : List (String × α) → String → Option α
  | [], _ => none
  | (k2, v) :: rest, k => if k2 = k then some v else dictLookup rest k

/-- Python `d[k] = v`: update the existing binding in place, else append. -/
def dictInsert {α : Type} : List (String × α) → String → α → List (String × α)
  | [], k, v => [(k, v)]
  | (k2, v2) :: rest, k, v =>
    if k2 = k then (k, v) :: rest else (k2, v2) :: dictInsert rest k v

/-- Decimal digits of a positive natural number (most significant first);
the first argument is fuel. -/
def natDigitsAux : ℕ → ℕ → List Char
  | 0, _ => []
  | fuel + 1, n =>
    if n = 0 then [] else natDigitsAux fuel (n / 10) ++ [Char.ofNat (48 + n % 10)]

/-- Python `str(n)` for a natural number. -/
def natRepr (n : ℕ) : String :=
  if n = 0 then "0" else (natDigitsAux n n).asString

/-- Python `str(i)` for an integer. -/
def intRepr (i : ℤ) : String :=
  if i < 0 then "-" ++ natRepr i.natAbs else natRepr i.toNat

/-! ### `library/osx_pmset.py` -/

/-- `PMSET_SECTION_REGEX = re.compile(r'^(?P<section>.+):$')`, used with
`.match` on a single line: the line must end in `':'` with at least one
character before it; the greedy group is the line with the final `':'`
removed. -/
def matchPmsetSection (line : String) : Option String :=
  if line.toList.getLast? = some ':' && line.toList.length ≥ 2 && !(strContainsSub line "\n") then
    some line.toList.dropLast.asString
  else
    none

/-- `PMSET_KEY_VAL_REGEX = re.compile(r'^ (?P<key>\w+)\s+(?P<val>.+)$')`, used
with `.match` on a single line: one literal space, a nonempty word-character
run, at least one whitespace character, then a nonempty remainder.  When the
line ends in whitespace the regex backtracks so that `val` is the final
whitespace character. -/
def matchPmsetKeyVal (line : String) : Option (String × String) :=
  match line.toList with
  | ' ' :: rest =>
    let key := rest.takeWhile isWordChar
    let after := rest.drop key.length
    if key.isEmpty then none
    else
      let ws := after.takeWhile isPyWS
      let rem := after.drop ws.length
      if ws.isEmpty then none
      else if rem.isEmpty then
        match ws.getLast? with
        | some c => if ws.length ≥ 2 then some (key.asString, [c].asString) else none
        | none => none
      else some (key.asString, rem.asString)
  | _ => none

/-- Loop body of `parse_pmset_output`: blank lines and lines mentioning
`Sleep On Power Button` are skipped; a section header starts a new section;
key/value lines are stored under the current section. -/
def parsePmsetLines :
    List String → Option String → List (String × List (String × String)) →
      List (String × List (String × String))
  | [], _, acc => acc
  | line :: rest, cur, acc =>
    if pyStrip line = "" || strContainsSub line "Sleep On Power Button" then
      parsePmsetLines rest cur acc
    else
      match matchPmsetSection line with
      | some sec => parsePmsetLines rest (some sec) acc
      | none =>
        match cur with
        | some sec =>
          match matchPmsetKeyVal line with
          | some (k, v) =>
            let d := (dictLookup acc sec).getD []
            parsePmsetLines rest cur (dictInsert acc sec (dictInsert d k v))
          | none => parsePmsetLines rest cur acc
        | none => parsePmsetLines rest cur acc

/-- `parse_pmset_output` from `library/osx_pmset.py`. -/
def parse_pmset_output (output : String) : List (String × List (String × String)) :=
  parsePmsetLines (pySplitlines output) none []

/-- A desired parameter value in the `on_battery` / `on_charger` dicts
(`None` entries are modelled as `Option.none` at the use site). -/
inductive PVal where
  | vint (n : Int)
  | vstr (s : String)
deriving DecidableEq, Repr

/-- Python `str(v)` for a parameter value. -/
def pvalStr : PVal → String
  | .vint n => intRepr n
  | .vstr s => s

/-- Errors of the pmset module run: `fail_json` carries the message; the
others model uncaught Python exceptions. -/
inductive PmErr where
  | keyError
  | valueError
deriving DecidableEq, Repr

/-- A pending `pmset` write command `['pmset', mode_flag, param, value]`. -/
structure PmCmd where
  modeFlag : String
  param : String
  value : PVal
deriving DecidableEq, Repr

/-- Accumulated module result state of the pmset run: pending commands and the
`diff.before` / `diff.after` strings. -/
structure PmAcc where
  cmds : List PmCmd
  before : String
  after : String
deriving DecidableEq, Repr

/-- Inner loop of `run_module` over one block (`on_battery` or `on_charger`):
skip `None` values, `fail_json` when the parameter is absent from the parsed
current values, convert the current value with `int()` when the desired value
is an int, and record a diff line and a command when the values differ.
A `fail_json` error carries the accumulated result at that point. -/
def pmsetBlockGo (blockName modeFlag : String) (current : List (String × String)) :
    List (String × Option PVal) → PmAcc → Except (Except PmErr (String × PmAcc)) PmAcc
  | [], acc => .ok acc
  | (_, none) :: rest, acc => pmsetBlockGo blockName modeFlag current rest acc
  | (param, some v) :: rest, acc =>
    match dictLookup current param with
    | none =>
      .error (.ok (param ++ " is not present in pmset output. " ++
        "Run pmset -g custom to see the list of valid parameters", acc))
    | some origStr =>
      let origAndDiffers : Except PmErr (String × Bool) :=
        match v with
        | .vint n =>
          match pyToInt origStr with
          | some m => .ok (intRepr m, decide (m ≠ n))
          | none => .error .valueError
        | .vstr s => .ok (origStr, decide (origStr ≠ s))
      match origAndDiffers with
      | .error e => .error (.error e)
      | .ok (origDisp, differs) =>
        if differs then
          pmsetBlockGo blockName modeFlag current rest
            ⟨acc.cmds ++ [⟨modeFlag, param, v⟩],
             acc.before ++ blockName ++ "." ++ param ++ "=" ++ origDisp ++ "\n",
             acc.after ++ blockName ++ "." ++ param ++ "=" ++ pvalStr v ++ "\n"⟩
        else
          pmsetBlockGo blockName modeFlag current rest acc

/-- Final module result reported by `exit_json` / `fail_json`. -/
structure PmResult where
  changed : Bool
  diffBefore : String
  diffAfter : String
deriving DecidableEq, Repr

/-- How the pmset module run ends: a normal exit (with the list of executed
`pmset` write commands) or a `fail_json` exit (no write command executed). -/
inductive PmExit where
  | exited (r : PmResult) (executed : List (List String))
  | failed (msg : String) (r : PmResult)
deriving DecidableEq, Repr

/-- `run_module` from `library/osx_pmset.py`, as a function of the stdout of
`pmset -g custom`, the two parameter dicts and the check-mode flag.  A
`.error` models an uncaught Python exception (`KeyError` when a section is
missing, `ValueError` when `int()` fails on a current value). -/
def pmset_run_module (stdout : String) (on_battery on_charger : List (String × Option PVal))
    (check_mode : Bool) : Except PmErr PmExit :=
  let output := parse_pmset_output stdout
  match dictLookup output "Battery Power" with
  | none => .error .keyError
  | some bat =>
    match dictLookup output "AC Power" with
    | none => .error .keyError
    | some ac =>
      match pmsetBlockGo "on_battery" "-b" bat on_battery ⟨[], "", ""⟩ with
      | .error (.error e) => .error e
      | .error (.ok (msg, acc)) => .ok (.failed msg ⟨false, acc.before, acc.after⟩)
      | .ok acc1 =>
        match pmsetBlockGo "on_charger" "-c" ac on_charger acc1 with
        | .error (.error e) => .error e
        | .error (.ok (msg, acc)) => .ok (.failed msg ⟨false, acc.before, acc.after⟩)
        | .ok acc2 =>
          let r : PmResult := ⟨decide (acc2.cmds ≠ []), acc2.before, acc2.after⟩
          if check_mode then .ok (.exited r [])
          else .ok (.exited r (acc2.cmds.map
            (fun c => ["pmset", c.modeFlag, c.param, pvalStr c.value])))

/-! ### `run.py`: `retry_on_failure`

The decorator wraps a function and retries it with exponential backoff.  The
wrapped call at attempt `k` (1-indexed) is modelled by `f k`; the model
returns the number of calls made, the list of sleep durations issued (in
order), and the outcome.  A run with `max_attempts = 0` returns Python
`None`, modelled by `.ok none`; otherwise a success is `.ok (some v)`. -/

/-- Loop body of the wrapper in `retry_on_failure`: `attempt` is the current
1-indexed attempt and `rem` the number of attempts remaining (including this
one).  A failed attempt with attempts remaining sleeps
`delay * backoff ** (attempt - 1)`. -/
def retryLoop {α ε : Type} (f : ℕ → Except ε α) (delay backoff : ℚ) :
    ℕ → ℕ → ℕ × List ℚ × Except ε (Option α)
  | _, 0 => (0, [], .ok none)
  | attempt, rem + 1 =>
    match f attempt with
    | .ok v => (1, [], .ok (some v))
    | .error e =>
      if rem = 0 then (1, [], .error e)
      else
        let r := retryLoop f delay backoff (attempt + 1) rem
        (r.1 + 1, delay * backoff ^ (attempt - 1) :: r.2.1, r.2.2)

/-- `retry_on_failure(max_attempts, delay, backoff)` applied to a function
whose attempt outcomes are given by `f`. -/
def retry_on_failure {α ε : Type} (max_attempts : ℕ) (delay backoff : ℚ)
    (f : ℕ → Except ε α) : ℕ × List ℚ × Except ε (Option α) :=
  retryLoop f delay backoff 1 max_attempts

/-! ### `scripts/installers/install_hatch.py`: `download_installer` -/

/-- Loop body of `download_installer`: before attempt `attempt ≥ 2` the code
sleeps `RETRY_DELAY_SECONDS * (2 ** (attempt - 2))`; a successful download
returns `True`, and the final failed attempt returns `False`. -/
def downloadLoop (f : ℕ → Bool) (retryDelay : ℕ) : ℕ → ℕ → ℕ × List ℕ × Bool
  | _, 0 => (0, [], false)
  | attempt, rem + 1 =>
    let ws : List ℕ := if attempt > 1 then [retryDelay * 2 ^ (attempt - 2)] else []
    if f attempt then (1, ws, true)
    else if rem = 0 then (1, ws, false)
    else
      let r := downloadLoop f retryDelay (attempt + 1) rem
      (r.1 + 1, ws ++ r.2.1, r.2.2)

/-- `download_installer` with `DOWNLOAD_RETRIES = downloadRetries` and
`RETRY_DELAY_SECONDS = retryDelay`; attempt `k` succeeds when `f k = true`. -/
def download_installer (downloadRetries retryDelay : ℕ) (f : ℕ → Bool) :
    ℕ × List ℕ × Bool :=
  downloadLoop f retryDelay 1 downloadRetries

/-! ### `run.py`: `style` and `unstyle` -/

/-- A color argument of `style`: `StyleColor = Union[int, tuple[int, int, int], str]`. -/
inductive StyleColor where
  | named (s : String)
  | c256 (n : ℤ)
  | rgb (r g b : ℤ)
deriving DecidableEq, Repr

/-- The `_ansi_colors` table in `style`. -/
def ansiColors : List (String × ℤ) :=
  [("black", 30), ("bright_black", 90),
   ("red", 31), ("bright_red", 91),
   ("green", 32), ("bright_green", 92),
   ("yellow", 33), ("bright_yellow", 93),
   ("blue", 34), ("bright_blue", 94),
   ("magenta", 35), ("bright_magenta", 95),
   ("cyan", 36), ("bright_cyan", 96),
   ("white", 37), ("bright_white", 97),
   ("reset", 39)]

/-- `_interpret_color` from `style`; `.error` models the `KeyError` that
`style` turns into a `TypeError` for an unknown color name. -/
def interpretColor (c : StyleColor) (offset : ℤ) : Except Unit String :=
  match c with
  | .c256 n => .ok (intRepr (38 + offset) ++ ";5;" ++ intRepr n)
  | .rgb r g b => .ok (intRepr (38 + offset) ++ ";2;" ++ intRepr r ++ ";" ++
      intRepr g ++ ";" ++ intRepr b)
  | .named s =>
    match dictLookup ansiColors s with
    | some v => .ok (intRepr (v + offset))
    | none => .error ()

/-- Python truthiness of a `fg`/`bg` argument (`if fg:`): `None`, the empty
string and the integer `0` are falsy; a tuple is always truthy. -/
def colorTruthy : Option StyleColor → Bool
  | none => false
  | some (.named s) => !s.toList.isEmpty
  | some (.c256 n) => n ≠ 0
  | some (.rgb _ _ _) => true

/-- The keyword arguments of `style`. -/
structure StyleOpts where
  fg : Option StyleColor
  bg : Option StyleColor
  bold : Option Bool
  dim : Option Bool
  underline : Option Bool
  overline : Option Bool
  italic : Option Bool
  blink : Option Bool
  reverse : Option Bool
  strikethrough : Option Bool
  reset : Bool
deriving DecidableEq, Repr

/-- An ANSI escape `'\033[' + code + 'm'` as a character list. -/
def escBit (code : String) : List Char :=
  '\x1b' :: '[' :: code.toList ++ ['m']

/-- The escape emitted for a truthy `fg`/`bg` argument. -/
def colorBits (c? : Option StyleColor) (offset : ℤ) : Except Unit (List (List Char)) :=
  if colorTruthy c? then
    match c? with
    | some c => (interpretColor c offset).map (fun s => [escBit s])
    | none => .ok []
  else .ok []

/-- The escape emitted for a `bool | None` attribute argument (`None` emits
nothing; `True`/`False` emit the on/off code). -/
def boolBit (b : Option Bool) (onCode offCode : ℕ) : List (List Char)
  :=
  match b with
  | none => []
  | some tt => [escBit (natRepr (if tt then onCode else offCode))]

/-- `style` from `run.py`, over character lists: the emitted escapes in
source order, then the text, then the reset-all escape unless
`reset=False`. -/
def styleList (text : List Char) (o : StyleOpts) : Except Unit (List Char) := do
  let fgb ← colorBits o.fg 0
  let bgb ← colorBits o.bg 10
  let bits := fgb ++ bgb ++
    boolBit o.bold 1 22 ++ boolBit o.dim 2 22 ++ boolBit o.underline 4 24 ++
    boolBit o.overline 53 55 ++ boolBit o.italic 3 23 ++ boolBit o.blink 5 25 ++
    boolBit o.reverse 7 27 ++ boolBit o.strikethrough 9 29
  let core := bits.foldr (· ++ ·) [] ++ text
  .ok (if o.reset then core ++ escBit "0" else core)

/-- `style` from `run.py` (string level). -/
def style (text : String) (o : StyleOpts) : Except Unit String :=
  (styleList text.toList o).map List.asString

/-- The character class `[;?0-9]` of the `unstyle` regex. -/
def isAnsiClassChar (c : Char) : Bool :=
  c = ';' || c = '?' || ('0' ≤ c && c ≤ '9')

/-- The character class `[a-zA-Z]` of the `unstyle` regex. -/
def isAsciiLetter (c : Char) : Bool :=
  ('a' ≤ c && c ≤ 'z') || ('A' ≤ c && c ≤ 'Z')

/-- After `'\033['`, consume `[;?0-9]*` then one `[a-zA-Z]`, returning the
remainder; the two classes are disjoint, so the greedy match needs no
backtracking. -/
def consumeAnsiClass : List Char → Option (List Char)
  | [] => none
  | c :: rest =>
    if isAnsiClassChar c then consumeAnsiClass rest
    else if isAsciiLetter c then some rest
    else none

/-- Match the `unstyle` regex `\033\[[;?0-9]*[a-zA-Z]` at the head of the
list, returning the remainder after the match. -/
def matchEsc : List Char → Option (List Char)
  | '\x1b' :: '[' :: rest => consumeAnsiClass rest
  | _ => none

/-- `consumeAnsiClass` consumes at least one character. -/
theorem consumeAnsiClass_length :
    ∀ cs out, consumeAnsiClass cs = some out → out.length < cs.length := by
  intro cs
  induction cs with
  | nil => intro out h; simp [consumeAnsiClass] at h
  | cons c rest ih =>
    intro out h
    simp only [consumeAnsiClass] at h
    by_cases hc : isAnsiClassChar c
    · simp [hc] at h
      exact Nat.lt_trans (ih out h) (Nat.lt_succ_self _)
    · by_cases hl : isAsciiLetter c
      · simp [hc, hl] at h
        simp [← h]
      · simp [hc, hl] at h

/-- A match of the `unstyle` regex consumes at least one character. -/
theorem matchEsc_length :
    ∀ cs out, matchEsc cs = some out → out.length < cs.length := by
  intro cs out h
  unfold matchEsc at h
  split at h
  · have := consumeAnsiClass_length _ _ h
    simp only [List.length_cons]
    omega
  · exact absurd h (by simp)

/-- `re.sub(r'\033\[[;?0-9]*[a-zA-Z]', '', text)`: scan left to right,
removing each non-overlapping leftmost match.  The fuel is at least the
input length; a match consumes at least one character
(`matchEsc_length`), so the result is fuel-independent beyond that. -/
def unstyleAuxF : ℕ → List Char → List Char
  | 0, cs => cs
  | _ + 1, [] => []
  | fuel + 1, c :: rest =>
    match matchEsc (c :: rest) with
    | some rest2 => unstyleAuxF fuel rest2
    | none => c :: unstyleAuxF fuel rest

/-- `unstyle` from `run.py`. -/
def unstyle (s : String) : String :=
  (unstyleAuxF s.toList.length s.toList).asString

/-- `true` when no suffix of the list starts with a match of the `unstyle`
regex, i.e. the text contains no ANSI escape sequence. -/
def noAnsiIn : List Char → Bool
  | [] => true
  | c :: rest => (matchEsc (c :: rest)).isNone && noAnsiIn rest

/-- The text contains no substring matching the ANSI escape regex. -/
def noAnsi (s : String) : Bool :=
  noAnsiIn s.toList

/-- Validity of a color argument for the amended round-trip claim: when the
argument is truthy, a named color must be in the table and numeric components
must be non-negative (a negative component renders with a `'-'`, which the
`unstyle` regex does not accept). -/
def validColorArg : Option StyleColor → Bool
  | none => true
  | some (.named s) => s.toList.isEmpty || (dictLookup ansiColors s).isSome
  | some (.c256 n) => decide (0 ≤ n)
  | some (.rgb r g b) => decide (0 ≤ r) && decide (0 ≤ g) && decide (0 ≤ b)

/-! ### `library/configure_network_interfaces.py`: parsed types and regexes

Each regex of the source file is embedded as an explicit matcher with the
exact semantics of the Python pattern on the inputs it is applied to (the
character classes involved never contain `'\n'` or the characters of the
following literal, so greedy matching needs no backtracking; this is noted
where it matters).
-/

/-- Errors raised by the network-interfaces module: `ConfigurationError` and
the uncaught Python exceptions the code can raise. -/
inductive NetErr where
  | configurationError (msg : String)
  | keyError
  | indexError
deriving DecidableEq, Repr

/-- An apostrophe, kept out of string literals. -/
def apos : String := [Char.ofNat 39].asString

/-- Representation of an entry in `networksetup -listallhardwareports`. -/
structure HardwarePortEntry where
  name : String
  device : String
  address : String
deriving DecidableEq, Repr

/-- A media configuration.  The boolean fields are `Option Bool` because the
module also builds one of these from user arguments, where Python `None` can
occur; parsed configurations always carry `some`. -/
structure HardwarePortMediaConfig where
  speed : ℤ
  duplex : String
  flow_control : Option Bool
  energy_efficient_ethernet : Option Bool
deriving DecidableEq, Repr

/-- `Union[HardwarePortMediaConfig, Literal['autoselect']]`. -/
inductive CurrentMedia where
  | autoselect
  | config (c : HardwarePortMediaConfig)
deriving DecidableEq, Repr

/-- Representation of the current/active media configuration of a port. -/
structure CurrentHardwarePortMediaConfig where
  current : CurrentMedia
  active : HardwarePortMediaConfig
deriving DecidableEq, Repr

/-- Representation of the configured/active MTU value of a port. -/
structure CurrentMTUConfig where
  current : ℤ
  active : ℤ
deriving DecidableEq, Repr

/-- Representation of `networksetup -getinfo <service>` output. -/
structure NetworkServiceInfo where
  name : String
  configuration : String
  ip_address : Option String
  subnet_mask : Option String
  router : Option String
  ipv6_configuration : String
  ipv6_address : Option String
  ipv6_router : Option String
  ipv6_prefix_length : Option ℤ
  address : Option String
deriving DecidableEq, Repr

/-- `[\w:]`, the class of MAC-address characters. -/
def isAddrChar (c : Char) : Bool := isWordChar c || c = ':'

/-- `[\d\.]`, the class of IPv4-address characters. -/
def isIpChar (c : Char) : Bool := c.isDigit || c = '.'

/-- `[\/\w]`, the class of the speed-suffix characters in a media string. -/
def isMediaTailChar (c : Char) : Bool := c = '/' || isWordChar c

/-- Match a literal at the head of the input, returning the remainder. -/
def stripLiteral (lit : List Char) (cs : List Char) : Option (List Char) :=
  if lit.isPrefixOf cs then some (cs.drop lit.length) else none

/-- Match `\d+` at the head of the input (greedy; the following context in
every use starts with a non-digit, so no backtracking). -/
def matchDigits (cs : List Char) : Option (ℕ × List Char) :=
  let ds := cs.takeWhile Char.isDigit
  if ds.isEmpty then none
  else (digitsToNat ds).map (fun n => (n, cs.drop ds.length))

/-- One attempt of `HARDWARE_PORTS_REGEX` at the current position:
`Hardware Port: (?P<name>.+)\nDevice: (?P<device>\w+)\nEthernet Address:
(?P<address>[\w:]+)`.  `.` does not match `'\n'`, so the name group runs to
the end of its line; the other groups are greedy class runs. -/
def matchHardwarePort (cs : List Char) : Option (HardwarePortEntry × List Char) :=
  match stripLiteral "Hardware Port: ".toList cs with
  | none => none
  | some r1 =>
    let nm := r1.takeWhile (fun c => c ≠ '\n')
    if nm.isEmpty then none
    else
      match stripLiteral "\nDevice: ".toList (r1.drop nm.length) with
      | none => none
      | some r2 =>
        let dev := r2.takeWhile isWordChar
        if dev.isEmpty then none
        else
          match stripLiteral "\nEthernet Address: ".toList (r2.drop dev.length) with
          | none => none
          | some r3 =>
            let addr := r3.takeWhile isAddrChar
            if addr.isEmpty then none
            else some (⟨nm.asString, dev.asString, addr.asString⟩, r3.drop addr.length)

/-- `HARDWARE_PORTS_REGEX.finditer`: scan left to right, emitting
non-overlapping matches; the fuel is the input length. -/
def finditerHW : ℕ → List Char → List HardwarePortEntry
  | 0, _ => []
  | _ + 1, [] => []
  | fuel + 1, c :: rest =>
    match matchHardwarePort (c :: rest) with
    | some (e, rem) => e :: finditerHW fuel rem
    | none => finditerHW fuel rest

/-- `parse_listhardwarereports`: MAC address → entry, in match order. -/
def parse_listhardwarereports (stdout : String) : List (String × HardwarePortEntry) :=
  (finditerHW stdout.toList.length stdout.toList).foldl
    (fun acc e => dictInsert acc e.address e) []

/-- `MTU_REGEX.match`: `Active MTU: (?P<active>\d+) \(Current Setting:
(?P<current>\d+)\)`, anchored at the start of the output. -/
def parse_getmtu (stdout : String) : Option CurrentMTUConfig :=
  match stripLiteral "Active MTU: ".toList stdout.toList with
  | none => none
  | some r1 =>
    match matchDigits r1 with
    | none => none
    | some (act, r2) =>
      match stripLiteral " (Current Setting: ".toList r2 with
      | none => none
      | some r3 =>
        match matchDigits r3 with
        | none => none
        | some (cur, r4) =>
          match stripLiteral ")".toList r4 with
          | none => none
          | some _ => some ⟨(cur : ℤ), (act : ℤ)⟩

/-- `MTU_RANGE_REGEX.match`: `Valid MTU Range: (?P<min>\d+)-(?P<max>\d+)`,
anchored at the start of the output. -/
def parse_listvalidmturange (stdout : String) : Option (ℤ × ℤ) :=
  match stripLiteral "Valid MTU Range: ".toList stdout.toList with
  | none => none
  | some r1 =>
    match matchDigits r1 with
    | none => none
    | some (lo, r2) =>
      match stripLiteral "-".toList r2 with
      | none => none
      | some r3 =>
        match matchDigits r3 with
        | none => none
        | some (hi, _) => some ((lo : ℤ), (hi : ℤ))

/-- `SPEED_MAPPING`. -/
def speedMapping (n : ℤ) : Option String :=
  if n = 10 then some "10baseT/UTP"
  else if n = 100 then some "100baseTX"
  else if n = 1000 then some "1000baseT"
  else none

/-- `SPEED_REVERSE_MAPPING`. -/
def speedReverse (s : String) : Option ℤ :=
  if s = "10baseT/UTP" then some 10
  else if s = "100baseTX" then some 100
  else if s = "1000baseT" then some 1000
  else none

/-- The media group of `MEDIA_CONFIG_REGEX`: after `' <'`, the greedy `.+`
runs to the end of the line and backtracks to the last `'>'`; the group must
be nonempty. -/
def lastGtSegment (seg : List Char) : Option (List Char) :=
  match seg.reverse.findIdx? (fun c => c = '>') with
  | none => none
  | some k =>
    let mlen := seg.length - 1 - k
    if mlen = 0 then none else some (seg.take mlen)

/-- `parse_media`: `MEDIA_CONFIG_REGEX.match` on
`(?P<speed>\d+baseT[\/\w]*) <(?P<media>.+)>` followed by the
`SPEED_REVERSE_MAPPING[...]` lookup, whose `KeyError` for an unknown speed
string is modelled as `.error`. -/
def parse_media (media_str : String) : Except NetErr (Option HardwarePortMediaConfig) :=
  let cs := media_str.toList
  let ds := cs.takeWhile Char.isDigit
  if ds.isEmpty then .ok none
  else
    match stripLiteral "baseT".toList (cs.drop ds.length) with
    | none => .ok none
    | some r1 =>
      let tl := r1.takeWhile isMediaTailChar
      match stripLiteral " <".toList (r1.drop tl.length) with
      | none => .ok none
      | some r2 =>
        match lastGtSegment (r2.takeWhile (fun c => c ≠ '\n')) with
        | none => .ok none
        | some mediaChars =>
          match speedReverse (ds ++ "baseT".toList ++ tl).asString with
          | none => .error .keyError
          | some spd =>
            let media := (splitStr ',' mediaChars.asString).map pyStrip
            .ok (some ⟨spd,
              if media.contains "half-duplex" then "half-duplex" else "full-duplex",
              some (media.contains "flow-control"),
              some (media.contains "energy-efficient-ethernet")⟩)

/-- Loop of `parse_listvalidmedia` over the output lines; a `KeyError` from
`parse_media` propagates. -/
def parseValidMediaLines : List String → Except NetErr (List HardwarePortMediaConfig)
  | [] => .ok []
  | l :: rest =>
    match parse_media l with
    | .error e => .error e
    | .ok none => parseValidMediaLines rest
    | .ok (some c) => (parseValidMediaLines rest).map (fun cs => c :: cs)

/-- `parse_listvalidmedia`. -/
def parse_listvalidmedia (stdout : String) : Except NetErr (List HardwarePortMediaConfig) :=
  parseValidMediaLines (pySplitlines stdout)

/-- ASCII lowercase of one character (Python `str.lower()` on ASCII text). -/
def asciiLowerChar (c : Char) : Char :=
  if 'A' ≤ c && c ≤ 'Z' then Char.ofNat (c.toNat + 32) else c

/-- Python `str.lower()` on ASCII text. -/
def pyLower (s : String) : String :=
  (s.toList.map asciiLowerChar).asString

/-- `re.search`: try a match attempt at each position, left to right; the
fuel is the input length. -/
def searchAt {α : Type} (tryA : List Char → Option α) : ℕ → List Char → Option α
  | 0, _ => none
  | _ + 1, [] => none
  | fuel + 1, c :: rest =>
    match tryA (c :: rest) with
    | some g => some g
    | none => searchAt tryA fuel rest

/-- `re.search` over a string. -/
def pySearch {α : Type} (tryA : List Char → Option α) (s : String) : Option α :=
  searchAt tryA s.toList.length s.toList

/-- One attempt, at the current position, of a pattern of the form
`(lit1|lit2|...)` followed by a greedy nonempty class run and optionally a
literal `'\n'` (the shape of all the value regexes in
`INTERFACE_INFO_REGEXES`).  Alternatives are tried in order, as `re` does.
The classes never contain `'\n'`, so the greedy run needs no backtracking. -/
def tryLitClassAt (cls : Char → Bool) (needNl : Bool) (cs : List Char) :
    List String → Option String
  | [] => none
  | lit :: more =>
    match stripLiteral lit.toList cs with
    | none => tryLitClassAt cls needNl cs more
    | some r1 =>
      let run := r1.takeWhile cls
      if run.isEmpty then tryLitClassAt cls needNl cs more
      else if needNl then
        match r1.drop run.length with
        | '\n' :: _ => some run.asString
        | _ => tryLitClassAt cls needNl cs more
      else some run.asString

/-- `re.search` of `INTERFACE_INFO_REGEXES['configuration']`, the pattern
`(?P<configuration>.+) Configuration\n`: `.+` cannot cross `'\n'`, so the
match lies inside the first newline-terminated line that ends in
`' Configuration'` and has at least one character before it; the greedy
group is that line with its final `' Configuration'` removed. -/
def goConfigLines : List String → Option String
  | [] => none
  | l :: rest =>
    if " Configuration".toList.isSuffixOf l.toList && l.toList.length > 14 then
      some ((l.toList.take (l.toList.length - 14)).asString)
    else goConfigLines rest

/-- The configuration group found in a `-getinfo` output, if any. -/
def searchConfigurationGroup (stdout : String) : Option String :=
  goConfigLines ((splitStr '\n' stdout).dropLast)

/-- Alternation of literals each of which must be followed by `'\n'`
(`IPv6: (Off|Automatic|Manual)\n`): the alternatives are tried in order and
the regex backtracks into the next alternative when the `'\n'` fails. -/
def tryAltNl (r : List Char) : List String → Option String
  | [] => none
  | lit :: more =>
    if lit.toList.isPrefixOf r then
      match r.drop lit.length with
      | '\n' :: _ => some lit
      | _ => tryAltNl r more
    else tryAltNl r more

/-- One attempt of `INTERFACE_INFO_REGEXES['ipv6_configuration']` at the
current position. -/
def tryIpv6cfgAt (cs : List Char) : Option String :=
  match stripLiteral "IPv6: ".toList cs with
  | none => none
  | some r => tryAltNl r ["Off", "Automatic", "Manual"]

/-- One attempt of `INTERFACE_INFO_REGEXES['ipv6_address']`
(`IPv6 IP address: (?P<address>[\w\:]+)`) at the current position. -/
def tryIpv6AddrAt (cs : List Char) : Option String :=
  tryLitClassAt isAddrChar false cs ["IPv6 IP address: "]

/-- `INTERFACE_CONFIGURATION_MAP`. -/
def INTERFACE_CONFIGURATION_MAP : List (String × String) :=
  [("DHCP", "dhcp"),
   ("Manually Using DHCP Router", "dhcp_with_manual_address"),
   ("Manual", "manual")]

/-- The `m.group(key) if m.group(key).lower() != 'none' else None` filter
applied to every parsed value in `parse_getinfo`. -/
def noneFilter (v? : Option String) : Option String :=
  v?.bind (fun v => if pyLower v = "none" then none else some v)

/-- The filtered configuration group of a `-getinfo` output. -/
def configurationKeyOf (stdout : String) : Option String :=
  noneFilter (searchConfigurationGroup stdout)

/-- `INTERFACE_IPV6_CONFIGURATION_MAP.get(value, 'unknown')`, where a missing
`IPv6:` entry (Python `None`) maps to `'link_local'`. -/
def ipv6ConfigurationMap : Option String → String
  | none => "link_local"
  | some "Off" => "off"
  | some "Automatic" => "automatic"
  | some "Manual" => "manual"
  | some _ => "unknown"

/-- `parse_getinfo` from `library/configure_network_interfaces.py`.

The loop over `INTERFACE_INFO_REGEXES` evaluates every regex before the
configuration check.  The `ipv6_address` pattern names its group `address`,
while the loop calls `m.group('ipv6_address')`: whenever that pattern
matches, the call raises `IndexError` (modelled as `.error .indexError`). -/
def parse_getinfo (name stdout : String) : Except NetErr (Option NetworkServiceInfo) :=
  match pySearch tryIpv6AddrAt stdout with
  | some _ => .error .indexError
  | none =>
    let ip := noneFilter (pySearch (fun cs => tryLitClassAt isIpChar true cs ["IP address: "]) stdout)
    let mask := noneFilter (pySearch (fun cs => tryLitClassAt isIpChar true cs ["Subnet mask: "]) stdout)
    let rtr := noneFilter (pySearch (fun cs => tryLitClassAt isIpChar true cs ["Router: "]) stdout)
    let addr := noneFilter (pySearch
      (fun cs => tryLitClassAt isAddrChar true cs ["Ethernet Address: ", "Wi-Fi ID: "]) stdout)
    let v6cfg := noneFilter (pySearch tryIpv6cfgAt stdout)
    let v6rtr := noneFilter (pySearch
      (fun cs => tryLitClassAt isAddrChar false cs ["IPv6 Router: "]) stdout)
    let v6plen := noneFilter (pySearch
      (fun cs => tryLitClassAt Char.isDigit false cs ["IPv6 Prefix Length: "]) stdout)
    match configurationKeyOf stdout with
    | none => .ok none
    | some key =>
      match dictLookup INTERFACE_CONFIGURATION_MAP key with
      | none => .ok none
      | some cfg =>
        .ok (some
          { name := name
            configuration := cfg
            ip_address := ip
            subnet_mask := mask
            router := rtr
            ipv6_configuration := ipv6ConfigurationMap v6cfg
            ipv6_address := none
            ipv6_router := v6rtr
            ipv6_prefix_length := (v6plen.bind pyToInt)
            address := addr })

/-! ### `library/configure_network_interfaces.py`: module state and commands -/

/-- Python `str.replace(pat, rep)` (all occurrences); fuel is the input
length. -/
def replaceAllAux (pat rep : List Char) : ℕ → List Char → List Char
  | 0, cs => cs
  | _ + 1, [] => []
  | fuel + 1, c :: cs =>
    if pat.isPrefixOf (c :: cs) then rep ++ replaceAllAux pat rep fuel ((c :: cs).drop pat.length)
    else c :: replaceAllAux pat rep fuel cs

/-- Python `s.replace(pat, rep)`. -/
def pyReplace (s pat rep : String) : String :=
  (replaceAllAux pat.toList rep.toList s.toList.length s.toList).asString

/-- The `manual` sub-options of an interface configuration. -/
structure ManualConfig where
  ip_address : String
  subnet_mask : String
  router : Option String
deriving DecidableEq, Repr

/-- The `dhcp_with_manual_address` sub-options. -/
structure DhcpManualConfig where
  ip_address : String
deriving DecidableEq, Repr

/-- The `ipv6.manual` sub-options. -/
structure Ipv6ManualConfig where
  address : String
  prefix_length : ℤ
  router : Option String
deriving DecidableEq, Repr

/-- The `ipv6` sub-options. -/
structure Ipv6Config where
  off : Option Bool
  automatic : Option Bool
  link_local : Option Bool
  manual : Option Ipv6ManualConfig
deriving DecidableEq, Repr

/-- The `hardware` sub-options. -/
structure HardwareConfig where
  speed : Option ℤ
  duplex : Option String
  flow_control : Option Bool
  energy_efficient_ethernet : Option Bool
  mtu : Option ℤ
deriving DecidableEq, Repr

/-- One entry of the `interfaces` module argument. -/
structure InterfaceConfig where
  mac_address : String
  name : Option String
  dhcp : Option Bool
  dhcp_with_manual_address : Option DhcpManualConfig
  manual : Option ManualConfig
  ipv6 : Option Ipv6Config
  dns_servers : Option (List String)
  search_domains : Option (List String)
  hardware : Option HardwareConfig
deriving DecidableEq, Repr

/-- Python truthiness of an `Option Bool` argument (`if x:`). -/
def truthyOB : Option Bool → Bool
  | some b => b
  | none => false

/-- Python truthiness of an `Option String` argument (`if x:`). -/
def truthyOS : Option String → Bool
  | some s => !s.toList.isEmpty
  | none => false

/-- Python truthiness of an `Option ℤ` argument (`if x:`). -/
def truthyOI : Option ℤ → Bool
  | some n => decide (n ≠ 0)
  | none => false

/-- Python `str(x)` for an `Optional[str]` interpolated into an f-string. -/
def optStrRepr : Option String → String
  | some s => s
  | none => "None"

/-- Python `str(x)` for an `Optional[bool]` interpolated into an f-string. -/
def optBoolRepr : Option Bool → String
  | some true => "True"
  | some false => "False"
  | none => "None"

/-- The environment a module run reads: the resolved `networksetup` binary
path and the behaviour of `AnsibleModule.run_command` (full command line →
return code, stdout, stderr). -/
structure World where
  bin : String
  run : String → ℤ × String × String

/-- The mutable state of a `ConfigureNetworkInterfaces` instance: the
`result` dict plus the two caches. -/
structure St where
  changed : Bool
  changelog : List String
  commands_run : List String
  cmd : Option String
  returncode : Option ℤ
  stdout : Option String
  stderr : Option String
  available_hardware_ports : Option (List HardwarePortEntry)
  available_network_services : Option (List (String × NetworkServiceInfo))
  valid_mtu_range_by_port : List (String × (ℤ × ℤ))
  valid_media_by_port : List (String × List HardwarePortMediaConfig)
  cacheHW : Option (List (String × HardwarePortEntry))
  cacheSvc : Option (List (String × NetworkServiceInfo))
deriving DecidableEq, Repr

/-- The initial `result`/cache state built in `__init__`. -/
def initSt : St :=
  ⟨false, [], [], none, none, none, none, none, none, [], [], none, none⟩

/-- `_update_result` for the four keyword arguments the module passes: each
value is stored only when truthy (a nonzero return code, a non-empty
string); afterwards `changed` is set when the changelog is non-empty. -/
def update_result (st : St) (cmd : Option String) (rc : Option ℤ)
    (sout serr : Option String) : St :=
  let st1 := match cmd with
    | some c => if c = "" then st else { st with cmd := some c }
    | none => st
  let st2 := match rc with
    | some r => if r = 0 then st1 else { st1 with returncode := some r }
    | none => st1
  let st3 := match sout with
    | some s => if s = "" then st2 else { st2 with stdout := some s }
    | none => st2
  let st4 := match serr with
    | some s => if s = "" then st3 else { st3 with stderr := some s }
    | none => st3
  if st4.changelog ≠ [] then { st4 with changed := true } else st4

/-- `cmd.lstrip('networksetup')`: strip leading characters drawn from the
character set of `'networksetup'`, applied when the command starts with
`networksetup`. -/
def nsStripCmd (cmd : String) : String :=
  if "networksetup".toList.isPrefixOf cmd.toList then
    pyLstrip (dropLeading (fun c => "networksetup".toList.contains c) cmd.toList).asString
  else cmd

/-- The full command line `sudo {bin} {cmd}` run by `networksetup_cmd`. -/
def nsFull (w : World) (cmd : String) : String :=
  "sudo " ++ w.bin ++ " " ++ nsStripCmd cmd

/-- The stdout the world produces for a full command line. -/
def runStdout (w : World) (full : String) : String :=
  (w.run full).2.1

/-- `networksetup_cmd`: append the full command to `commands_run`, run it,
and on a nonzero return code with `check_rc` update the result and raise
`ConfigurationError`. -/
def networksetup_cmd (w : World) (st : St) (cmd : String) (check_rc : Bool) :
    Except (NetErr × St) ((ℤ × String × String) × St) :=
  let full := nsFull w cmd
  let st1 := { st with commands_run := st.commands_run ++ [full] }
  let (rc, sout, serr) := w.run full
  if rc ≠ 0 ∧ check_rc then
    .error (.configurationError ("Command `networksetup " ++ nsStripCmd cmd ++ "` failed: " ++ serr),
      update_result st1 (some full) (some rc) (some sout) (some serr))
  else
    .ok ((rc, sout, serr), st1)

/-- `get_hardware_ports_by_mac_address`: cached; on a miss, run
`-listallhardwareports`, parse, raise when no port was found, and record
`available_hardware_ports`. -/
def get_hardware_ports_by_mac_address (w : World) (st : St) :
    Except (NetErr × St) (List (String × HardwarePortEntry) × St) :=
  match st.cacheHW with
  | some m => .ok (m, st)
  | none =>
    match networksetup_cmd w st "networksetup -listallhardwareports" true with
    | .error e => .error e
    | .ok ((rc, sout, serr), st1) =>
      let ports := parse_listhardwarereports sout
      if ports.isEmpty then
        .error (.configurationError "No hardware ports found",
          update_result st1 (some "networksetup -listallhardwareports") (some rc) (some sout) (some serr))
      else
        .ok (ports, { st1 with
          available_hardware_ports := some (ports.map Prod.snd),
          cacheHW := some ports })

/-- `get_valid_mtu_range`. -/
def get_valid_mtu_range (w : World) (st : St) (hardware_port : String) :
    Except (NetErr × St) ((ℤ × ℤ) × St) :=
  let cmd := "networksetup -listvalidMTUrange \"" ++ hardware_port ++ "\""
  match networksetup_cmd w st cmd true with
  | .error e => .error e
  | .ok ((rc, sout, serr), st1) =>
    match parse_listvalidmturange sout with
    | some r =>
      .ok (r, { st1 with
        valid_mtu_range_by_port := dictInsert st1.valid_mtu_range_by_port hardware_port r })
    | none =>
      .error (.configurationError
        ("Unable to parse valid MTU range for hardware port \"" ++ hardware_port ++ "\""),
        update_result st1 (some cmd) (some rc) (some sout) (some serr))

/-- `get_port_mtu`. -/
def get_port_mtu (w : World) (st : St) (hardware_port : String) :
    Except (NetErr × St) (CurrentMTUConfig × St) :=
  let cmd := "networksetup -getMTU \"" ++ hardware_port ++ "\""
  match networksetup_cmd w st cmd true with
  | .error e => .error e
  | .ok ((rc, sout, serr), st1) =>
    match parse_getmtu sout with
    | some r => .ok (r, st1)
    | none =>
      .error (.configurationError
        ("Unable to parse current/active MTU values for hardware port \"" ++ hardware_port ++ "\""),
        update_result st1 (some cmd) (some rc) (some sout) (some serr))

/-- How the body of `get_port_media_configuration` fails: `IndexError` from
`lines[0]`/`lines[1]` (result untouched), the `Current:`/`Active:` prefix
check (result updated), or an error raised directly while parsing the two
media strings. -/
inductive GMFail where
  | index
  | badPrefixLines
  | other (e : NetErr)
deriving DecidableEq, Repr

/-- The pure part of `get_port_media_configuration` applied to the command
stdout: check `lines[0]`/`lines[1]`, strip the `Current: `/`Active: `
prefixes, and parse both media strings. -/
def parseGetMediaCore (hardware_port : String) (sout : String) :
    Except GMFail CurrentHardwarePortMediaConfig :=
  match pySplitlines sout with
  | [] => .error .index
  | l0 :: restLines =>
    if "Current: ".toList.isPrefixOf l0.toList then
      match restLines with
      | [] => .error .index
      | l1 :: _ =>
        if "Active: ".toList.isPrefixOf l1.toList then
          let current_str := pyStrip (pyReplace l0 "Current: " "")
          let currentE : Except GMFail CurrentMedia :=
            if current_str = "autoselect" then .ok .autoselect
            else
              match parse_media current_str with
              | .error e => .error (.other e)
              | .ok (some mc) => .ok (.config mc)
              | .ok none => .error (.other (.configurationError
                  ("Unable to parse current media configuration for port \"" ++ hardware_port ++ "\"")))
          match currentE with
          | .error e => .error e
          | .ok current =>
            match parse_media (pyStrip (pyReplace l1 "Active: " "")) with
            | .error e => .error (.other e)
            | .ok (some act) => .ok ⟨current, act⟩
            | .ok none => .error (.other (.configurationError
                ("Unable to parse active media configuration for port \"" ++ hardware_port ++ "\"")))
        else .error .badPrefixLines
    else .error .badPrefixLines

/-- `get_port_media_configuration`. -/
def get_port_media_configuration (w : World) (st : St) (hardware_port : String) :
    Except (NetErr × St) (CurrentHardwarePortMediaConfig × St) :=
  let cmd := "networksetup -getmedia \"" ++ hardware_port ++ "\""
  match networksetup_cmd w st cmd true with
  | .error e => .error e
  | .ok ((rc, sout, serr), st1) =>
    match parseGetMediaCore hardware_port sout with
    | .ok m => .ok (m, st1)
    | .error .index => .error (.indexError, st1)
    | .error .badPrefixLines =>
      .error (.configurationError
        ("Unable to parse media configuration lines for port \"" ++ hardware_port ++ "\""),
        update_result st1 (some cmd) (some rc) (some sout) (some serr))
    | .error (.other e) => .error (e, st1)

/-- `get_valid_port_media_configurations`. -/
def get_valid_port_media_configurations (w : World) (st : St) (hardware_port : String) :
    Except (NetErr × St) (List HardwarePortMediaConfig × St) :=
  match networksetup_cmd w st ("networksetup -listvalidmedia \"" ++ hardware_port ++ "\"") true with
  | .error e => .error e
  | .ok ((_, sout, _), st1) =>
    match parse_listvalidmedia sout with
    | .error e => .error (e, st1)
    | .ok vm =>
      .ok (vm, { st1 with
        valid_media_by_port := dictInsert st1.valid_media_by_port hardware_port vm })

/-- `get_network_service_info`. -/
def get_network_service_info (w : World) (st : St) (service : String)
    (update_result_on_error : Bool) :
    Except (NetErr × St) (NetworkServiceInfo × St) :=
  let cmd := "networksetup -getinfo \"" ++ service ++ "\""
  match networksetup_cmd w st cmd true with
  | .error e => .error e
  | .ok ((rc, sout, serr), st1) =>
    match parse_getinfo service sout with
    | .error e => .error (e, st1)
    | .ok none =>
      .error (.configurationError
        ("Unable to parse network configuration for service \"" ++ service ++ "\""),
        if update_result_on_error then update_result st1 (some cmd) (some rc) (some sout) (some serr)
        else st1)
    | .ok (some info) => .ok (info, st1)

/-- `IGNORED_NETWORK_SERVICE_PREFIXES`. -/
def ignoredServiceNames : List String :=
  ["*", "Chimp", "Kanzi", "Koba", "Thunderbolt Bridge"]

/-- The loop of `get_network_services_by_mac_address` over the service
names: skip ignored names, fetch each service info (`ConfigurationError`s
are swallowed, other exceptions propagate), and key the surviving entries by
MAC address. -/
def svcLoop (w : World) : List String → St → List (String × NetworkServiceInfo) →
    Except (NetErr × St) (List (String × NetworkServiceInfo) × St)
  | [], st, acc => .ok (acc, st)
  | line :: rest, st, acc =>
    let service := pyStrip line
    if ignoredServiceNames.any (fun p => p.toList.isPrefixOf service.toList) then
      svcLoop w rest st acc
    else
      match get_network_service_info w st service false with
      | .error (.configurationError _, st2) => svcLoop w rest st2 acc
      | .error e => .error e
      | .ok (info, st2) =>
        match info.address with
        | some addr => svcLoop w rest st2 (dictInsert acc addr info)
        | none => svcLoop w rest st2 acc

/-- `get_network_services_by_mac_address`: cached; on a miss, list all
network services (dropping the header line) and collect per-service info. -/
def get_network_services_by_mac_address (w : World) (st : St) :
    Except (NetErr × St) (List (String × NetworkServiceInfo) × St) :=
  match st.cacheSvc with
  | some m => .ok (m, st)
  | none =>
    match networksetup_cmd w st "networksetup -listallnetworkservices" true with
    | .error e => .error e
    | .ok ((_, sout, _), st1) =>
      match svcLoop w ((pySplitlines sout).drop 1) st1 [] with
      | .error e => .error e
      | .ok (all, st2) =>
        .ok (all, { st2 with
          available_network_services := some all,
          cacheSvc := some all })

/-- The parse shared by `get_network_service_dns_servers` and
`get_network_service_search_domains`. -/
def dnsFromStdout (sout : String) : List String :=
  if strContainsSub sout ("There aren" ++ apos ++ "t any") then []
  else (pySplitlines sout).map pyStrip

/-- `get_network_service_dns_servers`. -/
def get_network_service_dns_servers (w : World) (st : St) (service : String) :
    Except (NetErr × St) (List String × St) :=
  match networksetup_cmd w st ("networksetup -getdnsservers \"" ++ service ++ "\"") true with
  | .error e => .error e
  | .ok ((_, sout, _), st1) => .ok (dnsFromStdout sout, st1)

/-- `get_network_service_search_domains`. -/
def get_network_service_search_domains (w : World) (st : St) (service : String) :
    Except (NetErr × St) (List String × St) :=
  match networksetup_cmd w st ("networksetup -getsearchdomains \"" ++ service ++ "\"") true with
  | .error e => .error e
  | .ok ((_, sout, _), st1) => .ok (dnsFromStdout sout, st1)

/-! ### `validate_config`, `configure_interface`, `run`, `run_module` -/

/-- `'half-duplex' if duplex in ['half', 'half-duplex'] else 'full-duplex'`
(a Python `None` falls into the `else`). -/
def duplexOf (d : Option String) : String :=
  if d = some "half" ∨ d = some "half-duplex" then "half-duplex" else "full-duplex"

/-- First interface whose MAC address has no hardware port (loop 1 of
`validate_config`). -/
def findMissingMac : List InterfaceConfig → List (String × HardwarePortEntry) → Option String
  | [], _ => none
  | i :: rest, ports =>
    if (dictLookup ports i.mac_address).isNone then some i.mac_address
    else findMissingMac rest ports

/-- `", ".join(ports.keys())`. -/
def availableMacs (ports : List (String × HardwarePortEntry)) : String :=
  strJoinSep ", " (ports.map Prod.fst)

/-- Loop 2 of `validate_config` (hardware validation), carrying the
enumeration index used in the error messages. -/
def validateHWLoop (w : World) (ports : List (String × HardwarePortEntry)) :
    List InterfaceConfig → ℕ → St → Except (NetErr × St) St
  | [], _, st => .ok st
  | iface :: rest, i, st =>
    match iface.hardware with
    | none => validateHWLoop w ports rest (i + 1) st
    | some hw =>
      match dictLookup ports iface.mac_address with
      | none => .error (.keyError, st)
      | some port_info =>
        let mtuStep : Except (NetErr × St) St :=
          if truthyOI hw.mtu then
            match hw.mtu with
            | none => .ok st
            | some mtu =>
              match get_valid_mtu_range w st port_info.name with
              | .error e => .error e
              | .ok ((lo, hi), st1) =>
                if mtu < lo then
                  .error (.configurationError
                    ("MTU setting (" ++ intRepr mtu ++ ") for interface " ++ natRepr i ++
                     " (" ++ port_info.address ++ ") below minimum supported value for hardware port" ++
                     " (supported range: " ++ intRepr lo ++ "-" ++ intRepr hi ++ ")"), st1)
                else if mtu > hi then
                  .error (.configurationError
                    ("MTU setting (" ++ intRepr mtu ++ ") for interface " ++ natRepr i ++
                     " (" ++ port_info.address ++ ") above maximum supported value for hardware port" ++
                     " (supported range: " ++ intRepr lo ++ "-" ++ intRepr hi ++ ")"), st1)
                else .ok st1
          else .ok st
        match mtuStep with
        | .error e => .error e
        | .ok st1 =>
          if truthyOI hw.speed then
            match hw.speed with
            | none => validateHWLoop w ports rest (i + 1) st1
            | some s =>
              match get_valid_port_media_configurations w st1 port_info.name with
              | .error e => .error e
              | .ok (supported, st2) =>
                let mc : HardwarePortMediaConfig :=
                  ⟨s, duplexOf hw.duplex, hw.flow_control, hw.energy_efficient_ethernet⟩
                if supported.contains mc then validateHWLoop w ports rest (i + 1) st2
                else
                  .error (.configurationError
                    ("Provided hardware configuration not supported by interface " ++ natRepr i ++
                     " (" ++ port_info.address ++ "). See `valid_media_by_port` in result for" ++
                     " supported configurations"), st2)
          else validateHWLoop w ports rest (i + 1) st1

/-- `validate_config`. -/
def validate_config (w : World) (ifaces : List InterfaceConfig) (st : St) :
    Except (NetErr × St) St :=
  match get_hardware_ports_by_mac_address w st with
  | .error e => .error e
  | .ok (ports, st1) =>
    match findMissingMac ifaces ports with
    | some mac =>
      .error (.configurationError
        ("No network interface with MAC address \"" ++ mac ++ "\" found. " ++
         "Available MAC addresses: " ++ availableMacs ports), st1)
    | none => validateHWLoop w ports ifaces 0 st1

/-- Append entries to the changelog of the result state. -/
def addLog (st : St) (entries : List String) : St :=
  { st with changelog := st.changelog ++ entries }

/-- The `HardwarePortMediaConfig` f-string interpolation used in the media
changelog entry (Python NamedTuple repr). -/
def mediaConfigRepr (mc : HardwarePortMediaConfig) : String :=
  "HardwarePortMediaConfig(speed=" ++ intRepr mc.speed ++
  ", duplex=" ++ apos ++ mc.duplex ++ apos ++
  ", flow_control=" ++ optBoolRepr mc.flow_control ++
  ", energy_efficient_ethernet=" ++ optBoolRepr mc.energy_efficient_ethernet ++ ")"

/-- The DHCP / DHCP-with-manual-address / manual part of
`configure_interface`: the `networksetup` command runs unconditionally; the
changelog entries are gated on the parsed current service state. -/
def cfgStageMode (w : World) (cfg : InterfaceConfig) (svc : NetworkServiceInfo) (st : St) :
    Except (NetErr × St) St :=
  if truthyOB cfg.dhcp then
    match networksetup_cmd w st ("networksetup -setdhcp \"" ++ svc.name ++ "\"") true with
    | .error e => .error e
    | .ok (_, st1) =>
      .ok (if svc.configuration ≠ "dhcp"
        then addLog st1 ["Set service \"" ++ svc.name ++ "\" to DHCP"] else st1)
  else
    match cfg.dhcp_with_manual_address with
    | some d =>
      match networksetup_cmd w st
          ("networksetup -setmanualwithdhcprouter \"" ++ svc.name ++ "\" \"" ++ d.ip_address ++ "\"") true with
      | .error e => .error e
      | .ok (_, st1) =>
        .ok (if svc.configuration ≠ "dhcp_with_manual_address" ∨ svc.ip_address ≠ some d.ip_address
          then addLog st1 ["Set service \"" ++ svc.name ++ "\" to DHCP w/ manual address \"" ++
            d.ip_address ++ "\""]
          else st1)
    | none =>
      match cfg.manual with
      | some m =>
        let cmd := "networksetup -setmanual \"" ++ svc.name ++ "\" \"" ++ m.ip_address ++
          "\" \"" ++ m.subnet_mask ++ "\"" ++
          (if truthyOS m.router then " " ++ optStrRepr m.router else "")
        match networksetup_cmd w st cmd true with
        | .error e => .error e
        | .ok (_, st1) =>
          .ok (addLog st1 (
            (if svc.configuration ≠ "manual"
              then ["Set service \"" ++ svc.name ++ "\" to manual"] else []) ++
            (if svc.ip_address ≠ some m.ip_address
              then ["Set service \"" ++ svc.name ++ "\" IP address to \"" ++ m.ip_address ++ "\""] else []) ++
            (if svc.subnet_mask ≠ some m.subnet_mask
              then ["Set service \"" ++ svc.name ++ "\" subnet mask to \"" ++ m.subnet_mask ++ "\""] else []) ++
            (if svc.router ≠ m.router
              then ["Set service \"" ++ svc.name ++ "\" router to \"" ++ optStrRepr m.router ++ "\""] else [])))
      | none => .ok st

/-- The IPv6 part of `configure_interface`. -/
def cfgStageIpv6 (w : World) (cfg : InterfaceConfig) (svc : NetworkServiceInfo) (st : St) :
    Except (NetErr × St) St :=
  match cfg.ipv6 with
  | none => .ok st
  | some v6 =>
    if truthyOB v6.off then
      match networksetup_cmd w st ("networksetup -setv6off \"" ++ svc.name ++ "\"") true with
      | .error e => .error e
      | .ok (_, st1) =>
        .ok (if svc.ipv6_configuration ≠ "off"
          then addLog st1 ["Turn IPv6 off for service \"" ++ svc.name ++ "\""] else st1)
    else if truthyOB v6.automatic then
      match networksetup_cmd w st ("networksetup -setv6automatic \"" ++ svc.name ++ "\"") true with
      | .error e => .error e
      | .ok (_, st1) =>
        .ok (if svc.ipv6_configuration ≠ "automatic"
          then addLog st1 ["Set service \"" ++ svc.name ++ "\" to get its IPv6 info automatically"]
          else st1)
    else if truthyOB v6.link_local then
      match networksetup_cmd w st ("networksetup -setv6LinkLocal \"" ++ svc.name ++ "\"") true with
      | .error e => .error e
      | .ok (_, st1) =>
        .ok (if svc.ipv6_configuration ≠ "link_local"
          then addLog st1 ["Set service \"" ++ svc.name ++ "\" to use its IPv6 only for link local"]
          else st1)
    else
      match v6.manual with
      | some m6 =>
        match networksetup_cmd w st
            ("networksetup -setv6manual \"" ++ svc.name ++ "\" \"" ++ m6.address ++ "\" \"" ++
             intRepr m6.prefix_length ++ "\" \"" ++ optStrRepr m6.router ++ "\"") true with
        | .error e => .error e
        | .ok (_, st1) =>
          .ok (addLog st1 (
            (if svc.ipv6_address ≠ some m6.address
              then ["Set service \"" ++ svc.name ++ "\" IPv6 address to \"" ++ m6.address ++ "\""] else []) ++
            (if svc.ipv6_router ≠ m6.router
              then ["Set service \"" ++ svc.name ++ "\" IPv6 router to \"" ++ optStrRepr m6.router ++ "\""]
              else []) ++
            (if svc.ipv6_prefix_length ≠ some m6.prefix_length
              then ["Set service \"" ++ svc.name ++ "\" IPv6 prefix length to \"" ++
                intRepr m6.prefix_length ++ "\""] else [])))
      | none => .ok st

/-- The DNS-servers part of `configure_interface`. -/
def cfgStageDns (w : World) (cfg : InterfaceConfig) (svc : NetworkServiceInfo) (st : St) :
    Except (NetErr × St) St :=
  match cfg.dns_servers with
  | none => .ok st
  | some l =>
    match get_network_service_dns_servers w st svc.name with
    | .error e => .error e
    | .ok (existing, st1) =>
      if l = [] then
        match networksetup_cmd w st1 ("networksetup -setdnsservers \"" ++ svc.name ++ "\" \"Empty\"") true with
        | .error e => .error e
        | .ok (_, st2) =>
          .ok (if existing ≠ []
            then addLog st2 ["Clear DNS servers from service \"" ++ svc.name ++ "\""] else st2)
      else
        let servers_str := strJoinSep " " (l.map (fun s => "\"" ++ s ++ "\""))
        match networksetup_cmd w st1 ("networksetup -setdnsservers \"" ++ svc.name ++ "\" " ++ servers_str) true with
        | .error e => .error e
        | .ok (_, st2) =>
          .ok (if existing.any (fun e => !l.contains e)
            then addLog st2 ["Set service \"" ++ svc.name ++ "\" DNS servers to: " ++ servers_str]
            else st2)

/-- The search-domains part of `configure_interface`. -/
def cfgStageSearch (w : World) (cfg : InterfaceConfig) (svc : NetworkServiceInfo) (st : St) :
    Except (NetErr × St) St :=
  match cfg.search_domains with
  | none => .ok st
  | some l =>
    match get_network_service_search_domains w st svc.name with
    | .error e => .error e
    | .ok (existing, st1) =>
      if l = [] then
        match networksetup_cmd w st1 ("networksetup -setsearchdomains \"" ++ svc.name ++ "\" \"Empty\"") true with
        | .error e => .error e
        | .ok (_, st2) =>
          .ok (if existing ≠ []
            then addLog st2 ["Clear search domains from service \"" ++ svc.name ++ "\""] else st2)
      else
        let domains_str := strJoinSep " " (l.map (fun s => "\"" ++ s ++ "\""))
        match networksetup_cmd w st1 ("networksetup -setsearchdomains \"" ++ svc.name ++ "\" " ++ domains_str) true with
        | .error e => .error e
        | .ok (_, st2) =>
          .ok (if existing.any (fun e => !l.contains e)
            then addLog st2 ["Set service \"" ++ svc.name ++ "\" search domains to: " ++ domains_str]
            else st2)

/-- The media branch of the hardware stage when `speed` is not truthy
(`-setmedia ... autoselect`).  The changelog condition compares
`media.current.speed` (an int) against the Python value of `speed`
(`None` or `0` here), so it can hold even when the current media already is
`autoselect`. -/
def cfgHWAutoselect (w : World) (port : HardwarePortEntry) (speed : Option ℤ)
    (media : CurrentHardwarePortMediaConfig) (st : St) : Except (NetErr × St) St :=
  match networksetup_cmd w st ("networksetup -setmedia \"" ++ port.name ++ "\" autoselect") true with
  | .error e => .error e
  | .ok (_, st1) =>
    let cond :=
      match media.current with
      | .autoselect => true
      | .config c => decide (some c.speed ≠ speed)
    .ok (if cond
      then addLog st1 ["Set port \"" ++ port.name ++ "\" media configuration to \"autoselect\""]
      else st1)

/-- The media half of the hardware stage for a provided `hardware` config:
with a truthy `speed`, `-setmedia` to the requested configuration, else
autoselect. -/
def cfgHWMedia (w : World) (hw : HardwareConfig) (port : HardwarePortEntry)
    (media : CurrentHardwarePortMediaConfig) (st1 : St) : Except (NetErr × St) St :=
  if truthyOI hw.speed then
    match hw.speed with
    | none => .ok st1
    | some s =>
      let mc : HardwarePortMediaConfig :=
        ⟨s, duplexOf hw.duplex, hw.flow_control, hw.energy_efficient_ethernet⟩
      match speedMapping s with
      | none => .error (.keyError, st1)
      | some spdStr =>
        let cmd := "networksetup -setmedia \"" ++ port.name ++ "\" " ++ spdStr ++ " " ++
          mc.duplex ++
          (if truthyOB mc.flow_control then " flow-control" else "") ++
          (if truthyOB mc.energy_efficient_ethernet then " energy-efficient-ethernet" else "")
        match networksetup_cmd w st1 cmd true with
        | .error e => .error e
        | .ok (_, st2) =>
          .ok (if media.current = .autoselect ∨ media.current ≠ .config mc
            then addLog st2 ["Set port \"" ++ port.name ++ "\" media configuration to: " ++
              mediaConfigRepr mc]
            else st2)
  else cfgHWAutoselect w port hw.speed media st1

/-- The MTU half of the hardware stage for a provided `hardware` config:
`-setMTU` to the requested value, or to the 1500 default. -/
def cfgHWMtu (w : World) (hw : HardwareConfig) (port : HardwarePortEntry) (st2 : St) :
    Except (NetErr × St) St :=
  match get_port_mtu w st2 port.name with
  | .error e => .error e
  | .ok (existing_mtu, st3) =>
    if truthyOI hw.mtu then
      match hw.mtu with
      | none => .ok st3
      | some mtu =>
        match networksetup_cmd w st3
            ("networksetup -setMTU \"" ++ port.name ++ "\" " ++ intRepr mtu) true with
        | .error e => .error e
        | .ok (_, st4) =>
          .ok (if existing_mtu.current ≠ mtu
            then addLog st4 ["Set port \"" ++ port.name ++ "\" MTU to " ++ intRepr mtu]
            else st4)
    else
      match networksetup_cmd w st3
          ("networksetup -setMTU \"" ++ port.name ++ "\" 1500") true with
      | .error e => .error e
      | .ok (_, st4) =>
        .ok (if existing_mtu.current ≠ 1500
          then addLog st4 ["Set port \"" ++ port.name ++ "\" MTU to 1500"]
          else st4)

/-- The hardware (media + MTU) part of `configure_interface`.  The
`-getmedia` command runs for every interface; without a `hardware` config
the port is set to autoselect, otherwise media and MTU are configured. -/
def cfgStageHW (w : World) (cfg : InterfaceConfig) (port : HardwarePortEntry) (st : St) :
    Except (NetErr × St) St :=
  match get_port_media_configuration w st port.name with
  | .error e => .error e
  | .ok (media, st1) =>
    match cfg.hardware with
    | none =>
      match networksetup_cmd w st1
          ("networksetup -setMTUAndMediaAutomatically \"" ++ port.name ++ "\"") true with
      | .error e => .error e
      | .ok (_, st2) =>
        .ok (if media.current ≠ .autoselect
          then addLog st2 ["Set port \"" ++ port.name ++ "\" media/MTU configuration to \"autoselect\""]
          else st2)
    | some hw =>
      match cfgHWMedia w hw port media st1 with
      | .error e => .error e
      | .ok st2 => cfgHWMtu w hw port st2

/-- The rename part of `configure_interface` (runs last). -/
def cfgStageRename (w : World) (cfg : InterfaceConfig) (svc : NetworkServiceInfo) (st : St) :
    Except (NetErr × St) St :=
  match cfg.name with
  | none => .ok st
  | some nm =>
    if nm.toList.isEmpty then .ok st
    else
      match networksetup_cmd w st
          ("networksetup -renamenetworkservice \"" ++ svc.name ++ "\" \"" ++ nm ++ "\"") true with
      | .error e => .error e
      | .ok (_, st1) =>
        .ok (if svc.name ≠ nm
          then addLog st1 ["Set service \"" ++ svc.name ++ "\" name to \"" ++ nm ++ "\""]
          else st1)

/-- `configure_interface`: look up the port and service for the MAC address,
then run the six configuration stages in source order. -/
def configure_interface (w : World) (cfg : InterfaceConfig) (st : St) :
    Except (NetErr × St) St :=
  match get_hardware_ports_by_mac_address w st with
  | .error e => .error e
  | .ok (ports, st1) =>
    match dictLookup ports cfg.mac_address with
    | none => .error (.keyError, st1)
    | some port =>
      match get_network_services_by_mac_address w st1 with
      | .error e => .error e
      | .ok (services, st2) =>
        match dictLookup services cfg.mac_address with
        | none => .error (.keyError, st2)
        | some svc =>
          match cfgStageMode w cfg svc st2 with
          | .error e => .error e
          | .ok st3 =>
            match cfgStageIpv6 w cfg svc st3 with
            | .error e => .error e
            | .ok st4 =>
              match cfgStageDns w cfg svc st4 with
              | .error e => .error e
              | .ok st5 =>
                match cfgStageSearch w cfg svc st5 with
                | .error e => .error e
                | .ok st6 =>
                  match cfgStageHW w cfg port st6 with
                  | .error e => .error e
                  | .ok st7 => cfgStageRename w cfg svc st7

/-- The `for interface in self.interfaces` loop of `run`. -/
def runConfigureLoop (w : World) : List InterfaceConfig → St → Except (NetErr × St) St
  | [], st => .ok st
  | i :: rest, st =>
    match configure_interface w i st with
    | .error e => .error e
    | .ok st2 => runConfigureLoop w rest st2

/-- `ConfigureNetworkInterfaces.run`: validate, then configure each
interface in input order. -/
def netRun (w : World) (ifaces : List InterfaceConfig) (st : St) : Except (NetErr × St) St :=
  match validate_config w ifaces st with
  | .error e => .error e
  | .ok st1 => runConfigureLoop w ifaces st1

/-- How the module run ends: `exit_json` or `fail_json`, each carrying the
result state. -/
inductive NetExit where
  | exited (result : St)
  | failed (msg : String) (result : St)
deriving DecidableEq, Repr

/-- `str(e)` for the exceptions the module can raise. -/
def errMsg : NetErr → String
  | .configurationError m => m
  | .keyError => "KeyError"
  | .indexError => "IndexError"

/-- `run_module` of `configure_network_interfaces`: exit immediately in
check mode; otherwise run, and on an exception set `changed` from the
changelog and `fail_json`.  The success path calls `exit_json` with the
result as-is. -/
def net_run_module (w : World) (check_mode : Bool) (ifaces : List InterfaceConfig) : NetExit :=
  if check_mode then .exited initSt
  else
    match netRun w ifaces initSt with
    | .ok st => .exited st
    | .error (e, st) =>
      .failed (errMsg e) (if st.changelog ≠ [] then { st with changed := true } else st)

/-! ### Observers of the world used to state the claims

Each observer is the parse the module applies to the stdout of one
`networksetup` read command; the value a getter returns depends only on the
world, not on the module state. -/

/-- The parsed `-listvalidMTUrange` range for a port. -/
def mtuRangeOf (w : World) (p : String) : Option (ℤ × ℤ) :=
  parse_listvalidmturange (runStdout w (nsFull w ("networksetup -listvalidMTUrange \"" ++ p ++ "\"")))

/-- The parsed `-listvalidmedia` configurations for a port. -/
def validMediaOf (w : World) (p : String) : Except NetErr (List HardwarePortMediaConfig) :=
  parse_listvalidmedia (runStdout w (nsFull w ("networksetup -listvalidmedia \"" ++ p ++ "\"")))

/-- The parsed `-getmedia` configuration for a port. -/
def mediaOf (w : World) (p : String) : Except GMFail CurrentHardwarePortMediaConfig :=
  parseGetMediaCore p (runStdout w (nsFull w ("networksetup -getmedia \"" ++ p ++ "\"")))

/-- The current media of a port, when `-getmedia` parses. -/
def mediaCurrentOf (w : World) (p : String) : Option CurrentMedia :=
  match mediaOf w p with
  | .ok m => some m.current
  | .error _ => none

/-- The parsed `-getMTU` values for a port. -/
def mtuOf (w : World) (p : String) : Option CurrentMTUConfig :=
  parse_getmtu (runStdout w (nsFull w ("networksetup -getMTU \"" ++ p ++ "\"")))

/-- The parsed `-getdnsservers` list for a service. -/
def dnsOf (w : World) (service : String) : List String :=
  dnsFromStdout (runStdout w (nsFull w ("networksetup -getdnsservers \"" ++ service ++ "\"")))

/-- The parsed `-getsearchdomains` list for a service. -/
def searchOf (w : World) (service : String) : List String :=
  dnsFromStdout (runStdout w (nsFull w ("networksetup -getsearchdomains \"" ++ service ++ "\"")))

/-! ### The desired-state match predicate of claim C1 -/

/-- The media configuration the hardware stage drives the port towards. -/
def mediaCurrentDesired (hw : HardwareConfig) : CurrentMedia :=
  if truthyOI hw.speed then
    match hw.speed with
    | some s => .config ⟨s, duplexOf hw.duplex, hw.flow_control, hw.energy_efficient_ethernet⟩
    | none => .autoselect
  else .autoselect

/-- The MTU value the hardware stage drives the port towards. -/
def mtuDesired (hw : HardwareConfig) : ℤ :=
  if truthyOI hw.mtu then (hw.mtu.getD 1500) else 1500

/-- The parsed current service state equals the desired configuration mode
and addresses. -/
def modeMatchB (cfg : InterfaceConfig) (svc : NetworkServiceInfo) : Bool :=
  if truthyOB cfg.dhcp then decide (svc.configuration = "dhcp")
  else
    match cfg.dhcp_with_manual_address with
    | some d =>
      decide (svc.configuration = "dhcp_with_manual_address") &&
      decide (svc.ip_address = some d.ip_address)
    | none =>
      match cfg.manual with
      | some m =>
        decide (svc.configuration = "manual") &&
        decide (svc.ip_address = some m.ip_address) &&
        decide (svc.subnet_mask = some m.subnet_mask) &&
        decide (svc.router = m.router)
      | none => true

/-- The parsed current IPv6 state equals the desired IPv6 configuration. -/
def ipv6MatchB (cfg : InterfaceConfig) (svc : NetworkServiceInfo) : Bool :=
  match cfg.ipv6 with
  | none => true
  | some v6 =>
    if truthyOB v6.off then decide (svc.ipv6_configuration = "off")
    else if truthyOB v6.automatic then decide (svc.ipv6_configuration = "automatic")
    else if truthyOB v6.link_local then decide (svc.ipv6_configuration = "link_local")
    else
      match v6.manual with
      | some m6 =>
        decide (svc.ipv6_address = some m6.address) &&
        decide (svc.ipv6_router = m6.router) &&
        decide (svc.ipv6_prefix_length = some m6.prefix_length)
      | none => true

/-- The parsed current state of the service and port equals the desired
configuration in every configured aspect: mode/addresses, IPv6, DNS servers,
search domains, media, MTU, and name. -/
def desiredMatchesB (w : World) (cfg : InterfaceConfig) (svc : NetworkServiceInfo)
    (port : HardwarePortEntry) : Bool :=
  modeMatchB cfg svc &&
  ipv6MatchB cfg svc &&
  (match cfg.dns_servers with
   | none => true
   | some l => decide (dnsOf w svc.name = l)) &&
  (match cfg.search_domains with
   | none => true
   | some l => decide (searchOf w svc.name = l)) &&
  (match cfg.hardware with
   | none => decide (mediaCurrentOf w port.name = some .autoselect)
   | some hw =>
     decide (mediaCurrentOf w port.name = some (mediaCurrentDesired hw)) &&
     (match mtuOf w port.name with
      | some ex => decide (ex.current = mtuDesired hw)
      | none => false)) &&
  (match cfg.name with
   | none => true
   | some n => if n.toList.isEmpty then true else decide (svc.name = n))

/-- The one branch where `configure_interface` records a changelog entry
even when the current state matches: `hardware` provided without a truthy
`speed` (the condition `media.current == 'autoselect' or
media.current.speed != speed` is then always true). -/
def hwNoSpeedQuirk (cfg : InterfaceConfig) : Bool :=
  match cfg.hardware with
  | some hw => !truthyOI hw.speed
  | none => false

/-! ### Exit observers -/

/-- The result dict carried by either kind of module exit. -/
def exitResult : NetExit → St
  | .exited st => st
  | .failed _ st => st

/-- Whether the module run ended in `fail_json`. -/
def isFailedExit : NetExit → Bool
  | .failed _ _ => true
  | .exited _ => false

/-- The error state of a `networksetup_cmd` call, when it raised. -/
def errSt {α : Type} : Except (NetErr × St) α → Option St
  | .error (_, st) => some st
  | .ok _ => none

/-! ### Concrete fixtures for witnesses and counterexamples -/

/-- A single-port machine. -/
def portEth : HardwarePortEntry := ⟨"Ethernet", "en0", "aa:bb:cc:dd:ee:ff"⟩

/-- `-listallhardwareports` output of the fixture machine. -/
def hwPortsOut : String :=
  "Hardware Port: Ethernet\nDevice: en0\nEthernet Address: aa:bb:cc:dd:ee:ff\n"

/-- `-listallnetworkservices` output of the fixture machine. -/
def svcListOut : String :=
  "An asterisk (*) denotes that a network service is disabled.\nEthernet\n"

/-- `-getinfo` output of a manually configured service. -/
def getinfoManualOut : String :=
  "Manual Configuration\nIP address: 192.168.1.5\nSubnet mask: 255.255.255.0\n" ++
  "Router: 192.168.1.1\nEthernet Address: aa:bb:cc:dd:ee:ff\n"

/-- `-getinfo` output of a DHCP-configured service. -/
def getinfoDhcpOut : String :=
  "DHCP Configuration\nIP address: 192.168.1.5\nSubnet mask: 255.255.255.0\n" ++
  "Router: 192.168.1.1\nEthernet Address: aa:bb:cc:dd:ee:ff\n"

/-- `-getmedia` output of the fixture port. -/
def getmediaOut : String := "Current: autoselect\nActive: 1000baseT <full-duplex>\n"

/-- Fixture command behaviour, parameterised by the `-getinfo` output;
write commands succeed with empty output. -/
def wEthRun (getinfo : String) : String → ℤ × String × String := fun c =>
  if c = "sudo networksetup -listallhardwareports" then (0, hwPortsOut, "")
  else if c = "sudo networksetup -listallnetworkservices" then (0, svcListOut, "")
  else if c = "sudo networksetup -getinfo \"Ethernet\"" then (0, getinfo, "")
  else if c = "sudo networksetup -getmedia \"Ethernet\"" then (0, getmediaOut, "")
  else (0, "", "")

/-- Fixture world whose service is configured manually. -/
def wEth : World := ⟨"networksetup", wEthRun getinfoManualOut⟩

/-- Fixture world whose service is already on DHCP. -/
def wEthDhcp : World := ⟨"networksetup", wEthRun getinfoDhcpOut⟩

/-- An interfaces entry asking for plain DHCP on the fixture port. -/
def cfgDhcpOnly : InterfaceConfig :=
  ⟨"aa:bb:cc:dd:ee:ff", none, some true, none, none, none, none, none, none⟩

/-- An interfaces entry with an unknown MAC address. -/
def cfgBadMac : InterfaceConfig :=
  ⟨"00:00:00:00:00:00", none, some true, none, none, none, none, none, none⟩

/-- The parsed service info of `getinfoDhcpOut`. -/
def svcDhcp : NetworkServiceInfo :=
  ⟨"Ethernet", "dhcp", some "192.168.1.5", some "255.255.255.0", some "192.168.1.1",
   "link_local", none, none, none, some "aa:bb:cc:dd:ee:ff"⟩

/-- A mid-run state whose caches are already populated (as they are when
`configure_interface` runs after `validate_config`). -/
def stCached : St :=
  { initSt with
    cacheHW := some [(portEth.address, portEth)],
    cacheSvc := some [(portEth.address, svcDhcp)] }

/-- The state `configure_interface` produces on the matching fixture. -/
def stC1After : St :=
  (configure_interface wEthDhcp cfgDhcpOnly stCached).toOption.getD initSt

/-- A world where every command fails with empty stdout. -/
def wFailEmptyOut : World := ⟨"networksetup", fun _ => (1, "", "boom")⟩

/-- A world where every command fails with non-empty stdout and stderr. -/
def wFailFullOut : World := ⟨"networksetup", fun _ => (1, "out", "err")⟩

/-- Attempt outcomes for the retry witness: the second attempt succeeds. -/
def fRetryW : ℕ → Except String ℕ := fun k => if k = 2 then .ok 7 else .error "boom"

/-- Attempt outcomes for the download witness: the second attempt succeeds. -/
def gDlW : ℕ → Bool := fun k => decide (k = 2)

/-- Attempt outcomes where every attempt fails. -/
def gDlFail : ℕ → Bool := fun _ => false

/-- `style` options with nothing set (and the default `reset=True`). -/
def optsPlain : StyleOpts :=
  ⟨none, none, none, none, none, none, none, none, none, none, true⟩

/-- `style` options with the 256-color foreground `-1`. -/
def optsNegColor : StyleOpts := { optsPlain with fg := some (.c256 (-1)) }

/-- `pmset -g custom` output of the pmset fixtures. -/
def pmStdout : String :=
  "Battery Power:\n displaysleep  10\n hibernatemode  3\nAC Power:\n displaysleep  5\n"

/-- The stdout used by the C9 counterexample: a parseable configuration plus
an `IPv6 IP address:` line. -/
def c9CexStdout : String := "DHCP Configuration\nIPv6 IP address: fe80\n"

/-- `(configurationKeyOf stdout)` mapped through `INTERFACE_CONFIGURATION_MAP`. -/
def mappedConfigOf (stdout : String) : Option String :=
  (configurationKeyOf stdout).bind (fun k => dictLookup INTERFACE_CONFIGURATION_MAP k)

/-! ### Helper predicates for claim C2 -/

/-- Whether `run_module` of `osx_pmset` computes a write command for
parameter `p` with desired value `v` against the parsed current values:
the current value exists and differs (as integers when the desired value is
an int). -/
def pmDiffersB (cur : List (String × String)) (p : String) (v : PVal) : Bool :=
  match dictLookup cur p with
  | none => false
  | some o =>
    match v with
    | .vint n =>
      match pyToInt o with
      | some m => decide (m ≠ n)
      | none => false
    | .vstr s => decide (o ≠ s)

/-- The parameters of a block are all present in the parsed current values,
with `int()`-convertible current values where the desired value is an int
(rules out the `fail_json` and `ValueError` paths). -/
def pmParamOK (cur : List (String × String)) : String × Option PVal → Bool
  | (_, none) => true
  | (p, some v) =>
    match dictLookup cur p with
    | none => false
    | some o =>
      match v with
      | .vint _ => (pyToInt o).isSome
      | .vstr _ => true

def pmBlockOKb (cur : List (String × String)) (ps : List (String × Option PVal)) : Bool :=
  ps.all (pmParamOK cur)

/-- The commands one block of the `run_module` loop computes: one
`pmset <mode-flag> <param> <value>` per differing non-`None` parameter, in
iteration order. -/
def pmFiltered (modeFlag : String) (cur : List (String × String))
    (ps : List (String × Option PVal)) : List PmCmd :=
  ps.filterMap (fun pv =>
    match pv.2 with
    | some v => if pmDiffersB cur pv.1 v then some ⟨modeFlag, pv.1, v⟩ else none
    | none => none)

/-- `-listvalidMTUrange` output of the hardware fixture. -/
def mtuRangeOut : String := "Valid MTU Range: 1280-1500\n"

/-- `-listvalidmedia` output of the hardware fixture. -/
def validMediaOut : String :=
  "1000baseT <full-duplex,flow-control,energy-efficient-ethernet>\nautoselect\n"

/-- Fixture command behaviour for a machine that also answers the MTU-range
and valid-media queries. -/
def wEthHWRun : String → ℤ × String × String := fun c =>
  if c = "sudo networksetup -listvalidMTUrange \"Ethernet\"" then (0, mtuRangeOut, "")
  else if c = "sudo networksetup -listvalidmedia \"Ethernet\"" then (0, validMediaOut, "")
  else wEthRun getinfoDhcpOut c

/-- Fixture world for the validation claim: DHCP service plus hardware data. -/
def wEthHW : World := ⟨"networksetup", wEthHWRun⟩

/-- The hardware settings the validation fixture requests. -/
def hwCfgV : HardwareConfig := ⟨some 1000, some "full", some true, some true, some 1500⟩

/-- An interfaces entry with hardware settings on the fixture port. -/
def cfgHW : InterfaceConfig :=
  ⟨"aa:bb:cc:dd:ee:ff", none, some true, none, none, none, none, none, some hwCfgV⟩

/-- The state `validate_config` leaves on the hardware fixture. -/
def c5StV : St := (validate_config wEthHW [cfgHW] initSt).toOption.getD initSt

/-- The error `validate_config` raises on the unknown-MAC fixture. -/
def c5Err : NetErr × St :=
  match validate_config wEthHW [cfgBadMac] initSt with
  | .error e => e
  | .ok st => (.keyError, st)

/-- The hardware ports and state `get_hardware_ports_by_mac_address` produces
on the hardware fixture from the initial state. -/
def c5Ports : List (String × HardwarePortEntry) × St :=
  (get_hardware_ports_by_mac_address wEthHW initSt).toOption.getD ([], initSt)

/-- `style` options exercising colors, attribute on/off codes and reset. -/
def optsFull : StyleOpts :=
  ⟨some (.named "red"), some (.c256 5), some true, some false, some true, none,
   some true, none, some false, some true, true⟩

/-- The state grew only by appending commands to `commands_run`: every other
field (changelog included) is unchanged. -/
def extendsCmds (st stB : St) : Prop :=
  ∃ cmds, stB = { st with commands_run := st.commands_run ++ cmds }

/-! ## Theorems -/

/-! ### Generic helper lemmas -/

/-- The full command line is never empty. -/
theorem nsFull_ne_empty (w : World) (cmd : String) : nsFull w cmd ≠ "" := by
  intro h
  have hlen : (nsFull w cmd).length = 0 := by rw [h]; rfl
  rw [nsFull] at hlen
  simp only [String.length_append] at hlen
  have : ("sudo " : String).length = 5 := by decide
  omega

/-- Field content of `update_result` when all four values are passed, the
command string is nonempty and the return code nonzero. -/
theorem update_result_fields (st : St) (c : String) (hc : c ≠ "") (rc : ℤ) (hrc : rc ≠ 0)
    (sout serr : String) :
    (update_result st (some c) (some rc) (some sout) (some serr)).cmd = some c ∧
    (update_result st (some c) (some rc) (some sout) (some serr)).returncode = some rc ∧
    (update_result st (some c) (some rc) (some sout) (some serr)).stdout =
      (if sout = "" then st.stdout else some sout) ∧
    (update_result st (some c) (some rc) (some sout) (some serr)).stderr =
      (if serr = "" then st.stderr else some serr) ∧
    (update_result st (some c) (some rc) (some sout) (some serr)).commands_run = st.commands_run ∧
    (update_result st (some c) (some rc) (some sout) (some serr)).changelog = st.changelog := by
  simp only [update_result, hc, hrc, if_false]
  split_ifs <;> simp_all

/-- `networksetup_cmd` on the success side: the returned triple is the
world's answer and the state only gains the command in `commands_run`. -/
theorem networksetup_cmd_ok {w : World} {st : St} {cmd : String} {check_rc : Bool}
    {t : ℤ × String × String} {st1 : St}
    (h : networksetup_cmd w st cmd check_rc = .ok (t, st1)) :
    t = w.run (nsFull w cmd) ∧
    st1 = { st with commands_run := st.commands_run ++ [nsFull w cmd] } := by
  rcases hw : w.run (nsFull w cmd) with ⟨rc, sout, serr⟩
  simp only [networksetup_cmd, hw] at h
  split at h
  · exact absurd h (by simp)
  · exact ⟨by injection h with h1; injection h1 with h2 h3; exact h2.symm,
          by injection h with h1; injection h1 with h2 h3; exact h3.symm⟩

/-! ### C3 — error handling of `networksetup_cmd` -/

/-- C3 (amended): with `check_rc=True`, a nonzero return code raises
`ConfigurationError` after updating the result with the failing command
string and return code — and with stdout/stderr only when those are
non-empty — while a zero return code returns the `(rc, stdout, stderr)`
tuple without raising. -/
theorem c3_networksetup_cmd_check_rc (w : World) (st : St) (cmd : String)
    (rc : ℤ) (sout serr : String)
    (hrun : w.run (nsFull w cmd) = (rc, sout, serr)) :
    (rc ≠ 0 → ∃ st2,
      networksetup_cmd w st cmd true =
        .error (.configurationError
          ("Command `networksetup " ++ nsStripCmd cmd ++ "` failed: " ++ serr), st2) ∧
      st2.cmd = some (nsFull w cmd) ∧
      st2.returncode = some rc ∧
      st2.stdout = (if sout = "" then st.stdout else some sout) ∧
      st2.stderr = (if serr = "" then st.stderr else some serr) ∧
      st2.commands_run = st.commands_run ++ [nsFull w cmd]) ∧
    (rc = 0 → networksetup_cmd w st cmd true =
      .ok ((rc, sout, serr), { st with commands_run := st.commands_run ++ [nsFull w cmd] })) := by
  constructor
  · intro hrc
    refine ⟨update_result { st with commands_run := st.commands_run ++ [nsFull w cmd] }
      (some (nsFull w cmd)) (some rc) (some sout) (some serr), ?_, ?_, ?_, ?_, ?_, ?_⟩
    · simp only [networksetup_cmd, hrun]
      simp [hrc]
    all_goals
      have h := update_result_fields { st with commands_run := st.commands_run ++ [nsFull w cmd] }
        (nsFull w cmd) (nsFull_ne_empty w cmd) rc hrc sout serr
      simp_all
  · intro hrc
    simp only [networksetup_cmd, hrun]
    simp [hrc]

/-- Witness for C3: a concrete failing command, with its result fields. -/
theorem c3_witness :
    ∃ st2,
      networksetup_cmd wFailFullOut initSt "networksetup -setdhcp \"Ethernet\"" true =
        .error (.configurationError
          ("Command `networksetup " ++ nsStripCmd "networksetup -setdhcp \"Ethernet\"" ++
           "` failed: " ++ "err"), st2) ∧
      st2.cmd = some (nsFull wFailFullOut "networksetup -setdhcp \"Ethernet\"") ∧
      st2.returncode = some 1 ∧
      st2.stdout = (if "out" = "" then initSt.stdout else some "out") ∧
      st2.stderr = (if "err" = "" then initSt.stderr else some "err") ∧
      st2.commands_run = initSt.commands_run ++ [nsFull wFailFullOut "networksetup -setdhcp \"Ethernet\""] :=
  (c3_networksetup_cmd_check_rc wFailFullOut initSt "networksetup -setdhcp \"Ethernet\""
    1 "out" "err" rfl).1 (by decide)

/-- Counterexample for C3 as stated: on a failing command with empty stdout,
the result is not updated with the stdout key (`errSt ... = some none`,
where the claim requires `some (some "")`). -/
theorem c3_counterexample :
    (errSt (networksetup_cmd wFailEmptyOut initSt "networksetup -setdhcp \"Ethernet\"" true)).map
      St.stdout = some none ∧
    (wFailEmptyOut.run (nsFull wFailEmptyOut "networksetup -setdhcp \"Ethernet\"")).1 ≠ 0 := by
  exact ⟨by decide, by decide⟩

/-! ### C6 — `changed` versus `changelog` on exit -/

/-- C6 is violated by the code: on a successful run that changes state
(service moves from manual to DHCP), `exit_json` reports `changed = False`
together with a non-empty changelog, because the success path never updates
`changed`. -/
theorem c6_changed_flag_bug :
    isFailedExit (net_run_module wEth false [cfgDhcpOnly]) = false ∧
    (exitResult (net_run_module wEth false [cfgDhcpOnly])).changed = false ∧
    (exitResult (net_run_module wEth false [cfgDhcpOnly])).changelog =
      ["Set service \"Ethernet\" to DHCP"] := by
  refine ⟨by decide, by decide, by decide⟩

/-! ### C10 — check mode -/

/-- C10: in check mode, `configure_network_interfaces` exits immediately
with the pristine result (changed `False`, empty changelog, no command run),
and `osx_pmset` exits with the computed diff but executes no write
command. -/
theorem c10_check_mode (w : World) (ifaces : List InterfaceConfig)
    (stdout : String) (on_battery on_charger : List (String × Option PVal)) :
    net_run_module w true ifaces = .exited initSt ∧
    (∀ r ex, pmset_run_module stdout on_battery on_charger true = .ok (.exited r ex) → ex = []) := by
  constructor
  · rfl
  · intro r ex h
    simp only [pmset_run_module] at h
    split at h
    · simp at h
    · split at h
      · simp at h
      · split at h
        · simp at h
        · simp at h
        · split at h
          · simp at h
          · simp at h
          · simp only [if_true] at h
            injection h with h1
            injection h1 with h2 h3
            exact h3.symm

/-- Witness for C10 at a concrete world and concrete pmset arguments. -/
theorem c10_witness :
    net_run_module wEth true [cfgDhcpOnly] = .exited initSt ∧
    pmset_run_module pmStdout [("displaysleep", some (.vint 3))] [] true =
      .ok (.exited ⟨true, "on_battery.displaysleep=10\n", "on_battery.displaysleep=3\n"⟩ []) := by
  refine ⟨(c10_check_mode wEth [cfgDhcpOnly] pmStdout
    [("displaysleep", some (.vint 3))] []).1, by rfl⟩

/-! ### C1 — idempotence of `configure_interface` -/

/-- Counterexample to C1 as stated: on an interface whose parsed current
state equals the desired configuration in every aspect, the state-changing
`-setdhcp` subcommand (and `-setMTUAndMediaAutomatically`) are still
invoked. -/
theorem c1_counterexample :
    desiredMatchesB wEthDhcp cfgDhcpOnly svcDhcp portEth = true ∧
    stCached.cacheSvc = some [(portEth.address, svcDhcp)] ∧
    configure_interface wEthDhcp cfgDhcpOnly stCached = .ok stC1After ∧
    stC1After.commands_run.contains "sudo networksetup -setdhcp \"Ethernet\"" = true := by
  exact ⟨by decide, by decide, by decide, by decide⟩

/-! ### C9 — `parse_getinfo` -/

/-- Counterexample to C9 as stated: a stdout containing a
`DHCP Configuration` line (so the claim requires a parsed
`NetworkServiceInfo`) on which `parse_getinfo` instead raises `IndexError`,
because the `ipv6_address` regex group is named `address` while the loop
asks for `m.group('ipv6_address')`. -/
theorem c9_counterexample :
    parse_getinfo "Ethernet" c9CexStdout = .error .indexError ∧
    searchConfigurationGroup c9CexStdout = some "DHCP" := by
  exact ⟨by decide, by decide⟩

/-! ### C8 — `style`/`unstyle` round trip -/

/-- Counterexample to C8 as stated: the text `"x"` contains no ANSI escape
sequence, but with the 256-color foreground `-1` the escape `style` emits
contains a `'-'`, which the `unstyle` regex does not match, so the round
trip fails. -/
theorem c8_counterexample :
    noAnsi "x" = true ∧
    (style "x" optsNegColor).map unstyle = .ok "\x1b[38;5;-1mx" := by
  exact ⟨by decide, by decide⟩

/-! ### C4 — exponential backoff -/

/-- Prepending the wait of the current attempt to the waits of the window
starting one attempt later (retry wrapper shape). -/
theorem retryWaits_cons (d b : ℚ) (attempt m : ℕ) :
    d * b ^ (attempt - 1) ::
      List.map (fun i => d * b ^ (attempt + 1 + i - 1)) (List.range m) =
    List.map (fun i => d * b ^ (attempt + i - 1)) (List.range (m + 1)) := by
  rw [List.range_succ_eq_map, List.map_cons, List.map_map]
  refine congrArg₂ List.cons ?_ ?_
  · exact congrArg (fun e => d * b ^ e) (by omega)
  · apply List.map_congr_left
    intro i _
    show d * b ^ (attempt + 1 + i - 1) = d * b ^ (attempt + Nat.succ i - 1)
    exact congrArg (fun e => d * b ^ e) (by omega)

/-- Prepending the wait of the current attempt to the waits of the window
starting one attempt later (download loop shape). -/
theorem dlWaits_cons (d attempt m : ℕ) :
    d * 2 ^ (attempt - 2) ::
      List.map (fun i => d * 2 ^ (attempt + 1 + i - 2)) (List.range m) =
    List.map (fun i => d * 2 ^ (attempt + i - 2)) (List.range (m + 1)) := by
  rw [List.range_succ_eq_map, List.map_cons, List.map_map]
  refine congrArg₂ List.cons ?_ ?_
  · exact congrArg (fun e => d * 2 ^ e) (by omega)
  · apply List.map_congr_left
    intro i _
    show d * 2 ^ (attempt + 1 + i - 2) = d * 2 ^ (attempt + Nat.succ i - 2)
    exact congrArg (fun e => d * 2 ^ e) (by omega)

/-- One step of the retry loop on a successful attempt. -/
theorem retryLoop_step_ok {α ε : Type} {f : ℕ → Except ε α} (d b : ℚ)
    {attempt : ℕ} {v : α} (n : ℕ) (hf : f attempt = .ok v) :
    retryLoop f d b attempt (n + 1) = (1, [], .ok (some v)) := by
  simp only [retryLoop, hf]

/-- One step of the retry loop on the last failed attempt. -/
theorem retryLoop_step_lastErr {α ε : Type} {f : ℕ → Except ε α} (d b : ℚ)
    {attempt : ℕ} {e : ε} (hf : f attempt = .error e) :
    retryLoop f d b attempt 1 = (1, [], .error e) := by
  simp only [retryLoop, hf]
  simp

/-- One step of the retry loop on a failed attempt with attempts left:
sleep `delay * backoff ** (attempt - 1)` and recurse. -/
theorem retryLoop_step_err {α ε : Type} {f : ℕ → Except ε α} (d b : ℚ)
    {attempt n : ℕ} {e : ε} (hf : f attempt = .error e) (hn : n ≠ 0) :
    retryLoop f d b attempt (n + 1) =
      ((retryLoop f d b (attempt + 1) n).1 + 1,
       d * b ^ (attempt - 1) :: (retryLoop f d b (attempt + 1) n).2.1,
       (retryLoop f d b (attempt + 1) n).2.2) := by
  simp only [retryLoop, hf]
  rw [if_neg hn]

/-- The retry loop makes at most `rem` calls. -/
theorem retryLoop_calls_le {α ε : Type} (f : ℕ → Except ε α) (d b : ℚ) :
    ∀ rem attempt, (retryLoop f d b attempt rem).1 ≤ rem := by
  intro rem
  induction rem with
  | zero => intro attempt; simp [retryLoop]
  | succ n ih =>
    intro attempt
    cases hf : f attempt with
    | ok v => rw [retryLoop_step_ok d b n hf]; simp
    | error e =>
      by_cases hn : n = 0
      · subst hn
        rw [retryLoop_step_lastErr d b hf]
      · rw [retryLoop_step_err d b hf hn]
        simpa using Nat.succ_le_succ (ih (attempt + 1))

/-- Success case of the retry loop: the first succeeding attempt `k` in the
window ends the loop, after `k - attempt` backoff waits. -/
theorem retryLoop_success {α ε : Type} (f : ℕ → Except ε α) (d b : ℚ) :
    ∀ rem attempt k v, 1 ≤ attempt → attempt ≤ k → k ≤ attempt + rem - 1 →
      (∀ j, attempt ≤ j → j < k → (f j).isOk = false) → f k = .ok v →
      retryLoop f d b attempt rem =
        (k - attempt + 1,
         (List.range (k - attempt)).map (fun i => d * b ^ (attempt + i - 1)),
         .ok (some v)) := by
  intro rem
  induction rem with
  | zero =>
    intro attempt k v h1 h2 h3 _ _
    omega
  | succ n ih =>
    intro attempt k v h1 h2 h3 hfail hk
    by_cases hka : k = attempt
    · subst hka
      rw [retryLoop_step_ok d b n hk]
      simp
    · have hlt : attempt < k := by omega
      have hfa : (f attempt).isOk = false := hfail attempt le_rfl hlt
      cases hf : f attempt with
      | ok v2 => rw [hf] at hfa; simp [Except.isOk, Except.toBool] at hfa
      | error e =>
        have hn : n ≠ 0 := by omega
        rw [retryLoop_step_err d b hf hn]
        have ihr := ih (attempt + 1) k v (by omega) (by omega) (by omega)
          (fun j hj1 hj2 => hfail j (by omega) hj2) hk
        rw [ihr]
        refine Prod.ext (by simp; omega) (Prod.ext ?_ (by simp))
        show d * b ^ (attempt - 1) ::
            List.map (fun i => d * b ^ (attempt + 1 + i - 1)) (List.range (k - (attempt + 1))) =
          List.map (fun i => d * b ^ (attempt + i - 1)) (List.range (k - attempt))
        have hk1 : k - attempt = (k - (attempt + 1)) + 1 := by omega
        rw [hk1]
        exact retryWaits_cons d b attempt (k - (attempt + 1))

/-- All-fail case of the retry loop: every attempt in the window fails, the
loop makes all `rem` calls with `rem - 1` backoff waits, and re-raises the
last exception. -/
theorem retryLoop_allfail {α ε : Type} (f : ℕ → Except ε α) (d b : ℚ) :
    ∀ rem attempt e, 1 ≤ rem → 1 ≤ attempt →
      (∀ j, attempt ≤ j → j ≤ attempt + rem - 1 → (f j).isOk = false) →
      f (attempt + rem - 1) = .error e →
      retryLoop f d b attempt rem =
        (rem, (List.range (rem - 1)).map (fun i => d * b ^ (attempt + i - 1)), .error e) := by
  intro rem
  induction rem with
  | zero => intro attempt e h1; omega
  | succ n ih =>
    intro attempt e _ h2 hfail hlast
    cases n with
    | zero =>
      have h0 : attempt + 1 - 1 = attempt := by omega
      rw [h0] at hlast
      rw [retryLoop_step_lastErr d b hlast]
      simp
    | succ m =>
      have hfa : (f attempt).isOk = false := hfail attempt le_rfl (by omega)
      cases hf : f attempt with
      | ok v2 => rw [hf] at hfa; simp [Except.isOk, Except.toBool] at hfa
      | error e0 =>
        rw [retryLoop_step_err d b hf (by omega : ¬ (m + 1) = 0)]
        have ihr := ih (attempt + 1) e (by omega) (by omega)
          (fun j hj1 hj2 => hfail j (by omega) (by omega))
          (by have h5 : attempt + 1 + (m + 1) - 1 = attempt + (m + 1 + 1) - 1 := by omega
              rw [h5]; exact hlast)
        rw [ihr]
        refine Prod.ext (by simp) (Prod.ext ?_ (by simp))
        show d * b ^ (attempt - 1) ::
            List.map (fun i => d * b ^ (attempt + 1 + i - 1)) (List.range (m + 1 - 1)) =
          List.map (fun i => d * b ^ (attempt + i - 1)) (List.range (m + 1 + 1 - 1))
        have h6 : m + 1 - 1 = m := by omega
        have h7 : m + 1 + 1 - 1 = m + 1 := by omega
        rw [h6, h7]
        exact retryWaits_cons d b attempt m

/-- One step of the download loop on a successful attempt `> 1`. -/
theorem downloadLoop_step_ok {f : ℕ → Bool} (d : ℕ) {attempt : ℕ} (n : ℕ)
    (hf : f attempt = true) (hgt : attempt > 1) :
    downloadLoop f d attempt (n + 1) = (1, [d * 2 ^ (attempt - 2)], true) := by
  simp only [downloadLoop, hf, if_pos hgt]
  simp

/-- One step of the download loop on a successful first attempt. -/
theorem downloadLoop_step_ok1 {f : ℕ → Bool} (d : ℕ) (n : ℕ) (hf : f 1 = true) :
    downloadLoop f d 1 (n + 1) = (1, [], true) := by
  simp only [downloadLoop, hf]
  rw [if_neg (by omega : ¬ (1:ℕ) > 1)]
  simp

/-- One step of the download loop on the last failed attempt (`> 1`). -/
theorem downloadLoop_step_lastfail {f : ℕ → Bool} (d : ℕ) {attempt : ℕ}
    (hf : f attempt = false) (hgt : attempt > 1) :
    downloadLoop f d attempt 1 = (1, [d * 2 ^ (attempt - 2)], false) := by
  simp only [downloadLoop, hf, if_pos hgt]
  rw [if_neg (by simp)]
  simp

/-- One step of the download loop when the only attempt is the first and it
fails. -/
theorem downloadLoop_step_lastfail1 {f : ℕ → Bool} (d : ℕ) (hf : f 1 = false) :
    downloadLoop f d 1 1 = (1, [], false) := by
  simp only [downloadLoop, hf]
  rw [if_neg (by omega : ¬ (1:ℕ) > 1)]
  rw [if_neg (by simp)]
  simp

/-- One step of the download loop on a failed attempt `> 1` with attempts
left: sleep `d * 2 ** (attempt - 2)` and recurse. -/
theorem downloadLoop_step_fail {f : ℕ → Bool} (d : ℕ) {attempt n : ℕ}
    (hf : f attempt = false) (hn : n ≠ 0) (hgt : attempt > 1) :
    downloadLoop f d attempt (n + 1) =
      ((downloadLoop f d (attempt + 1) n).1 + 1,
       d * 2 ^ (attempt - 2) :: (downloadLoop f d (attempt + 1) n).2.1,
       (downloadLoop f d (attempt + 1) n).2.2) := by
  simp only [downloadLoop, hf, if_pos hgt]
  rw [if_neg (by simp), if_neg hn]
  simp [List.singleton_append]

/-- One step of the download loop on a failed first attempt with attempts
left: no sleep before the first attempt. -/
theorem downloadLoop_step_fail1 {f : ℕ → Bool} (d : ℕ) {n : ℕ}
    (hf : f 1 = false) (hn : n ≠ 0) :
    downloadLoop f d 1 (n + 1) =
      ((downloadLoop f d 2 n).1 + 1,
       (downloadLoop f d 2 n).2.1,
       (downloadLoop f d 2 n).2.2) := by
  simp only [downloadLoop, hf]
  rw [if_neg (by omega : ¬ (1:ℕ) > 1)]
  rw [if_neg (by simp), if_neg hn]
  simp [List.nil_append]

/-- The download loop makes at most `rem` attempts. -/
theorem downloadLoop_calls_le (f : ℕ → Bool) (d : ℕ) :
    ∀ rem attempt, (downloadLoop f d attempt rem).1 ≤ rem := by
  intro rem
  induction rem with
  | zero => intro attempt; simp [downloadLoop]
  | succ n ih =>
    intro attempt
    simp only [downloadLoop]
    split
    · simp
    · split
      · simp
      · simpa using Nat.succ_le_succ (ih (attempt + 1))

/-- Success case of the download loop from an attempt `≥ 2`: a wait of
`d * 2 ^ (a - 2)` precedes every attempt `a` in the window. -/
theorem downloadLoop_success (f : ℕ → Bool) (d : ℕ) :
    ∀ rem attempt k, 2 ≤ attempt → attempt ≤ k → k ≤ attempt + rem - 1 →
      (∀ j, attempt ≤ j → j < k → f j = false) → f k = true →
      downloadLoop f d attempt rem =
        (k - attempt + 1,
         (List.range (k - attempt + 1)).map (fun i => d * 2 ^ (attempt + i - 2)),
         true) := by
  intro rem
  induction rem with
  | zero => intro attempt k h1 h2 h3 _ _; omega
  | succ n ih =>
    intro attempt k h1 h2 h3 hfail hk
    have hgt : attempt > 1 := by omega
    by_cases hka : k = attempt
    · subst hka
      rw [downloadLoop_step_ok d n hk hgt]
      simp [List.range_succ_eq_map]
    · have hlt : attempt < k := by omega
      have hfa : f attempt = false := hfail attempt le_rfl hlt
      have hn : n ≠ 0 := by omega
      rw [downloadLoop_step_fail d hfa hn hgt]
      have ihr := ih (attempt + 1) k (by omega) (by omega) (by omega)
        (fun j hj1 hj2 => hfail j (by omega) hj2) hk
      rw [ihr]
      refine Prod.ext (by simp; omega) (Prod.ext ?_ (by simp))
      show d * 2 ^ (attempt - 2) ::
          List.map (fun i => d * 2 ^ (attempt + 1 + i - 2)) (List.range (k - (attempt + 1) + 1)) =
        List.map (fun i => d * 2 ^ (attempt + i - 2)) (List.range (k - attempt + 1))
      have h8 : k - attempt + 1 = (k - (attempt + 1) + 1) + 1 := by omega
      rw [h8]
      exact dlWaits_cons d attempt (k - (attempt + 1) + 1)

/-- All-fail case of the download loop from an attempt `≥ 2`. -/
theorem downloadLoop_allfail (f : ℕ → Bool) (d : ℕ) :
    ∀ rem attempt, 2 ≤ attempt → 1 ≤ rem →
      (∀ j, attempt ≤ j → j ≤ attempt + rem - 1 → f j = false) →
      downloadLoop f d attempt rem =
        (rem, (List.range rem).map (fun i => d * 2 ^ (attempt + i - 2)), false) := by
  intro rem
  induction rem with
  | zero => intro attempt _ h1; omega
  | succ n ih =>
    intro attempt h1 _ hfail
    have hgt : attempt > 1 := by omega
    have hfa : f attempt = false := hfail attempt le_rfl (by omega)
    cases n with
    | zero =>
      rw [downloadLoop_step_lastfail d hfa hgt]
      simp [List.range_succ_eq_map]
    | succ m =>
      rw [downloadLoop_step_fail d hfa (by omega : ¬ (m + 1) = 0) hgt]
      have ihr := ih (attempt + 1) (by omega) (by omega)
        (fun j hj1 hj2 => hfail j (by omega) (by omega))
      rw [ihr]
      refine Prod.ext (by simp) (Prod.ext ?_ (by simp))
      show d * 2 ^ (attempt - 2) ::
          List.map (fun i => d * 2 ^ (attempt + 1 + i - 2)) (List.range (m + 1)) =
        List.map (fun i => d * 2 ^ (attempt + i - 2)) (List.range (m + 1 + 1))
      exact dlWaits_cons d attempt (m + 1)

/-- C4: `retry_on_failure(max_attempts, delay, backoff)` calls the wrapped
function at most `max_attempts` times, sleeps `delay * backoff ** (k - 1)`
after each failed attempt `k < max_attempts` (the `i`-th recorded wait is
`delay * backoff ^ i`), returns the first successful attempt's value, and
re-raises the last exception after the final failure; `download_installer`
makes at most `DOWNLOAD_RETRIES` attempts, sleeps
`RETRY_DELAY_SECONDS * 2 ** (k - 2)` before each attempt `k ≥ 2`, returns
`True` on the first success and `False` after the final failure. -/
theorem c4_retry_exponential_backoff {α ε : Type} (f : ℕ → Except ε α) (g : ℕ → Bool)
    (delay backoff : ℚ) (d m n : ℕ) (hm : 1 ≤ m) (hn : 1 ≤ n) :
    ((retry_on_failure m delay backoff f).1 ≤ m) ∧
    (∀ k v, 1 ≤ k → k ≤ m → (∀ j, 1 ≤ j → j < k → (f j).isOk = false) → f k = .ok v →
      retry_on_failure m delay backoff f =
        (k, (List.range (k - 1)).map (fun i => delay * backoff ^ i), .ok (some v))) ∧
    (∀ e, (∀ j, 1 ≤ j → j ≤ m → (f j).isOk = false) → f m = .error e →
      retry_on_failure m delay backoff f =
        (m, (List.range (m - 1)).map (fun i => delay * backoff ^ i), .error e)) ∧
    ((download_installer n d g).1 ≤ n) ∧
    (∀ k, 1 ≤ k → k ≤ n → (∀ j, 1 ≤ j → j < k → g j = false) → g k = true →
      download_installer n d g = (k, (List.range (k - 1)).map (fun i => d * 2 ^ i), true)) ∧
    ((∀ j, 1 ≤ j → j ≤ n → g j = false) →
      download_installer n d g = (n, (List.range (n - 1)).map (fun i => d * 2 ^ i), false)) := by
  refine ⟨retryLoop_calls_le f delay backoff m 1, ?_, ?_, downloadLoop_calls_le g d n 1, ?_, ?_⟩
  · intro k v hk1 hkm hfail hok
    have h := retryLoop_success f delay backoff m 1 k v le_rfl hk1 (by omega) hfail hok
    rw [retry_on_failure, h]
    have h1 : k - 1 + 1 = k := by omega
    rw [h1]
    refine Prod.ext rfl (Prod.ext ?_ rfl)
    apply List.map_congr_left
    intro i _
    exact congrArg (fun e => delay * backoff ^ e) (by omega)
  · intro e hfail hlast
    have h := retryLoop_allfail f delay backoff m 1 e hm le_rfl
      (fun j hj1 hj2 => hfail j hj1 (by omega))
      (by have h3 : 1 + m - 1 = m := by omega
          rw [h3]; exact hlast)
    rw [retry_on_failure, h]
    refine Prod.ext rfl (Prod.ext ?_ rfl)
    apply List.map_congr_left
    intro i _
    exact congrArg (fun e => delay * backoff ^ e) (by omega)
  · intro k hk1 hkn hfail hok
    obtain ⟨n', rfl⟩ : ∃ n', n = n' + 1 := ⟨n - 1, by omega⟩
    by_cases hk : k = 1
    · subst hk
      rw [download_installer, downloadLoop_step_ok1 d n' hok]
      simp
    · have hg1 : g 1 = false := hfail 1 le_rfl (by omega)
      have hn'0 : n' ≠ 0 := by omega
      rw [download_installer, downloadLoop_step_fail1 d hg1 hn'0]
      have ihr := downloadLoop_success g d n' 2 k le_rfl (by omega) (by omega)
        (fun j hj1 hj2 => hfail j (by omega) hj2) hok
      rw [ihr]
      refine Prod.ext (by simp; omega) (Prod.ext ?_ (by simp))
      show List.map (fun i => d * 2 ^ (2 + i - 2)) (List.range (k - 2 + 1)) =
        List.map (fun i => d * 2 ^ i) (List.range (k - 1))
      have hk2 : k - 2 + 1 = k - 1 := by omega
      rw [hk2]
      apply List.map_congr_left
      intro i _
      exact congrArg (fun e => d * 2 ^ e) (by omega)
  · intro hfail
    obtain ⟨n', rfl⟩ : ∃ n', n = n' + 1 := ⟨n - 1, by omega⟩
    have hg1 : g 1 = false := hfail 1 le_rfl (by omega)
    cases hn2 : n' with
    | zero =>
      subst hn2
      rw [download_installer, downloadLoop_step_lastfail1 d hg1]
      simp
    | succ m' =>
      subst hn2
      rw [download_installer, downloadLoop_step_fail1 d hg1 (by omega : ¬ (m' + 1) = 0)]
      have ihr := downloadLoop_allfail g d (m' + 1) 2 le_rfl (by omega)
        (fun j hj1 hj2 => hfail j (by omega) (by omega))
      rw [ihr]
      refine Prod.ext (by simp) (Prod.ext ?_ (by simp))
      show List.map (fun i => d * 2 ^ (2 + i - 2)) (List.range (m' + 1)) =
        List.map (fun i => d * 2 ^ i) (List.range (m' + 1 + 1 - 1))
      have h9 : m' + 1 + 1 - 1 = m' + 1 := by omega
      rw [h9]
      apply List.map_congr_left
      intro i _
      exact congrArg (fun e => d * 2 ^ e) (by omega)

/-- Witness for C4 at concrete attempt outcomes. -/
theorem c4_witness :
    retry_on_failure 3 2 3 fRetryW = (2, [2], .ok (some 7)) ∧
    download_installer 3 2 gDlW = (2, [2], true) ∧
    download_installer 3 2 gDlFail = (3, [2, 4], false) := by
  have h := c4_retry_exponential_backoff fRetryW gDlW 2 3 2 3 3 (by omega) (by omega)
  have hr := h.2.1 2 7 (by omega) (by omega)
    (by intro j hj1 hj2
        have : j = 1 := by omega
        subst this
        rfl) rfl
  have hd := h.2.2.2.2.1 2 (by omega) (by omega)
    (by intro j hj1 hj2
        have : j = 1 := by omega
        subst this
        rfl) rfl
  have h2 := c4_retry_exponential_backoff fRetryW gDlFail 2 3 2 3 3 (by omega) (by omega)
  have hf := h2.2.2.2.2.2 (fun j _ _ => rfl)
  refine ⟨hr.trans ?_, hd.trans ?_, hf.trans ?_⟩
  · norm_num [Prod.ext_iff, List.range_succ]
  · norm_num [Prod.ext_iff, List.range_succ]
  · norm_num [Prod.ext_iff, List.range_succ]

/-! ### C7 — cached getters -/

/-- C7: both listing getters are cached.  A call with a populated cache
returns the cached MAC-keyed mapping with the state unchanged (in
particular, `commands_run` unchanged — no `networksetup` invocation), and
after any successful call, a repeated call returns the same mapping and the
identical state. -/
theorem c7_cached_getters (w : World) (st : St) :
    (∀ m, st.cacheHW = some m → get_hardware_ports_by_mac_address w st = .ok (m, st)) ∧
    (∀ m st1, get_hardware_ports_by_mac_address w st = .ok (m, st1) →
      get_hardware_ports_by_mac_address w st1 = .ok (m, st1)) ∧
    (∀ m, st.cacheSvc = some m → get_network_services_by_mac_address w st = .ok (m, st)) ∧
    (∀ m st1, get_network_services_by_mac_address w st = .ok (m, st1) →
      get_network_services_by_mac_address w st1 = .ok (m, st1)) := by
  refine ⟨?_, ?_, ?_, ?_⟩
  · intro m hm
    simp only [get_hardware_ports_by_mac_address, hm]
  · intro m st1 h
    cases hc : st.cacheHW with
    | some m0 =>
      simp only [get_hardware_ports_by_mac_address, hc] at h
      injection h with h1
      rw [Prod.mk.injEq] at h1
      obtain ⟨rfl, rfl⟩ := h1
      simp only [get_hardware_ports_by_mac_address, hc]
    | none =>
      simp only [get_hardware_ports_by_mac_address, hc] at h
      split at h
      · exact absurd h (by simp)
      · split at h
        · exact absurd h (by simp)
        · injection h with h1
          rw [Prod.mk.injEq] at h1
          obtain ⟨rfl, rfl⟩ := h1
          simp only [get_hardware_ports_by_mac_address]
  · intro m hm
    simp only [get_network_services_by_mac_address, hm]
  · intro m st1 h
    cases hc : st.cacheSvc with
    | some m0 =>
      simp only [get_network_services_by_mac_address, hc] at h
      injection h with h1
      rw [Prod.mk.injEq] at h1
      obtain ⟨rfl, rfl⟩ := h1
      simp only [get_network_services_by_mac_address, hc]
    | none =>
      simp only [get_network_services_by_mac_address, hc] at h
      split at h
      · exact absurd h (by simp)
      · split at h
        · exact absurd h (by simp)
        · injection h with h1
          rw [Prod.mk.injEq] at h1
          obtain ⟨rfl, rfl⟩ := h1
          simp only [get_network_services_by_mac_address]

/-- Witness for C7 on a concrete cached state. -/
theorem c7_witness :
    get_hardware_ports_by_mac_address wEth stCached =
      .ok ([(portEth.address, portEth)], stCached) ∧
    get_network_services_by_mac_address wEth stCached =
      .ok ([(portEth.address, svcDhcp)], stCached) :=
  ⟨(c7_cached_getters wEth stCached).1 [(portEth.address, portEth)] rfl,
   (c7_cached_getters wEth stCached).2.2.1 [(portEth.address, svcDhcp)] rfl⟩

/-! ### C2 — the pmset diff -/

/-- Every command computed by a block carries that block's mode flag. -/
theorem pmFiltered_flag (modeFlag : String) (cur : List (String × String)) :
    ∀ ps, ∀ c ∈ pmFiltered modeFlag cur ps, c.modeFlag = modeFlag := by
  intro ps c hc
  rw [pmFiltered, List.mem_filterMap] at hc
  obtain ⟨pv, _, hpv⟩ := hc
  split at hpv
  · split at hpv
    · injection hpv with h
      rw [← h]
    · exact absurd hpv (by simp)
  · exact absurd hpv (by simp)

/-- A block's command for parameter `p` with value `v` exists exactly when
`(p, v)` is a requested non-`None` parameter whose current value differs. -/
theorem pmFiltered_mem (modeFlag : String) (cur : List (String × String)) :
    ∀ ps (p : String) (v : PVal),
      ((⟨modeFlag, p, v⟩ : PmCmd) ∈ pmFiltered modeFlag cur ps ↔
        ((p, some v) ∈ ps ∧ pmDiffersB cur p v = true)) := by
  intro ps
  induction ps with
  | nil => intro p v; simp [pmFiltered]
  | cons pv rest ih =>
    intro p v
    obtain ⟨q, w?⟩ := pv
    cases w? with
    | none =>
      simp only [pmFiltered, List.filterMap_cons, List.mem_cons]
      constructor
      · intro h
        have hh := (ih p v).1 (by simpa [pmFiltered] using h)
        exact ⟨Or.inr hh.1, hh.2⟩
      · intro ⟨h1, h2⟩
        rcases h1 with h1 | h1
        · exact absurd h1 (by simp)
        · simpa [pmFiltered] using (ih p v).2 ⟨h1, h2⟩
    | some w =>
      by_cases hd : pmDiffersB cur q w = true
      · simp only [pmFiltered, List.filterMap_cons, hd, if_true, List.mem_cons]
        constructor
        · intro h
          rcases h with h | h
          · injection h with h1 h2 h3
            exact ⟨Or.inl (by rw [h2, h3]), by rw [h2, h3]; exact hd⟩
          · have hh := (ih p v).1 (by simpa [pmFiltered] using h)
            exact ⟨Or.inr hh.1, hh.2⟩
        · intro ⟨h1, h2⟩
          rcases h1 with h1 | h1
          · injection h1 with hq hv
            injection hv with hv
            exact Or.inl (by rw [hq, hv])
          · exact Or.inr (by simpa [pmFiltered] using (ih p v).2 ⟨h1, h2⟩)
      · simp only [pmFiltered, List.filterMap_cons, hd, if_false, List.mem_cons]
        constructor
        · intro h
          have hh := (ih p v).1 (by simpa [pmFiltered] using h)
          exact ⟨Or.inr hh.1, hh.2⟩
        · intro ⟨h1, h2⟩
          rcases h1 with h1 | h1
          · injection h1 with hq hv
            injection hv with hv
            subst hq
            subst hv
            exact absurd h2 hd
          · simpa [pmFiltered] using (ih p v).2 ⟨h1, h2⟩

/-- The block loop of `run_module` under a well-formed block: no failure,
commands appended in order, diff strings extended. -/
theorem pmsetBlockGo_ok (blockName modeFlag : String) (cur : List (String × String)) :
    ∀ ps acc, pmBlockOKb cur ps = true →
      ∃ bef aft, pmsetBlockGo blockName modeFlag cur ps acc =
        .ok ⟨acc.cmds ++ pmFiltered modeFlag cur ps, acc.before ++ bef, acc.after ++ aft⟩ := by
  intro ps
  induction ps with
  | nil =>
    intro acc _
    exact ⟨"", "", by simp [pmsetBlockGo, pmFiltered]⟩
  | cons pv rest ih =>
    intro acc hok
    obtain ⟨p, v?⟩ := pv
    rw [pmBlockOKb, List.all_cons, Bool.and_eq_true] at hok
    obtain ⟨hhead, htail⟩ := hok
    cases v? with
    | none =>
      simpa [pmsetBlockGo, pmFiltered, List.filterMap_cons] using ih acc htail
    | some v =>
      cases ho : dictLookup cur p with
      | none => simp [pmParamOK, ho] at hhead
      | some o =>
        cases v with
        | vint n =>
          simp only [pmParamOK, ho] at hhead
          cases hi : pyToInt o with
          | none => rw [hi] at hhead; simp at hhead
          | some mInt =>
            have hdiff : pmDiffersB cur p (.vint n) = (decide (mInt ≠ n)) := by
              simp [pmDiffersB, ho, hi]
            by_cases hne : mInt = n
            · subst hne
              obtain ⟨bef, aft, hrec⟩ := ih acc htail
              refine ⟨bef, aft, ?_⟩
              simp only [pmsetBlockGo, ho, hi]
              rw [if_neg (by simp)]
              rw [hrec]
              simp [pmFiltered, List.filterMap_cons, hdiff]
            · have hdt : pmDiffersB cur p (.vint n) = true := by simp [hdiff, hne]
              obtain ⟨bef, aft, hrec⟩ := ih
                ⟨acc.cmds ++ [⟨modeFlag, p, .vint n⟩],
                 acc.before ++ blockName ++ "." ++ p ++ "=" ++ intRepr mInt ++ "\n",
                 acc.after ++ blockName ++ "." ++ p ++ "=" ++ pvalStr (.vint n) ++ "\n"⟩ htail
              refine ⟨blockName ++ "." ++ p ++ "=" ++ intRepr mInt ++ "\n" ++ bef,
                blockName ++ "." ++ p ++ "=" ++ pvalStr (.vint n) ++ "\n" ++ aft, ?_⟩
              simp only [pmsetBlockGo, ho, hi]
              rw [if_pos (by simp [hne])]
              rw [hrec]
              simp [pmFiltered, List.filterMap_cons, hdt, String.append_assoc]
        | vstr s =>
          simp only [pmParamOK, ho] at hhead
          have hdiff : pmDiffersB cur p (.vstr s) = (decide (o ≠ s)) := by
            simp [pmDiffersB, ho]
          by_cases hne : o = s
          · subst hne
            obtain ⟨bef, aft, hrec⟩ := ih acc htail
            refine ⟨bef, aft, ?_⟩
            simp only [pmsetBlockGo, ho]
            rw [if_neg (by simp)]
            rw [hrec]
            simp [pmFiltered, List.filterMap_cons, hdiff]
          · have hdt : pmDiffersB cur p (.vstr s) = true := by simp [hdiff, hne]
            obtain ⟨bef, aft, hrec⟩ := ih
              ⟨acc.cmds ++ [⟨modeFlag, p, .vstr s⟩],
               acc.before ++ blockName ++ "." ++ p ++ "=" ++ o ++ "\n",
               acc.after ++ blockName ++ "." ++ p ++ "=" ++ pvalStr (.vstr s) ++ "\n"⟩ htail
            refine ⟨blockName ++ "." ++ p ++ "=" ++ o ++ "\n" ++ bef,
              blockName ++ "." ++ p ++ "=" ++ pvalStr (.vstr s) ++ "\n" ++ aft, ?_⟩
            simp only [pmsetBlockGo, ho]
            rw [if_pos (by simp [hne])]
            rw [hrec]
            simp [pmFiltered, List.filterMap_cons, hdt, String.append_assoc]

/-- C2: for well-formed blocks, `osx_pmset.run_module` exits normally,
executes one `pmset <mode-flag> <param> <value>` write per requested
non-`None` parameter whose (int-compared, when the desired value is an int)
current value differs — exactly those — and reports `changed = True` exactly
when at least one such command was computed. -/
theorem c2_pmset_diff (stdout : String) (ob oc : List (String × Option PVal))
    (bat ac : List (String × String))
    (hbat : dictLookup (parse_pmset_output stdout) "Battery Power" = some bat)
    (hac : dictLookup (parse_pmset_output stdout) "AC Power" = some ac)
    (hob : pmBlockOKb bat ob = true) (hoc : pmBlockOKb ac oc = true) :
    ∃ r ex,
      pmset_run_module stdout ob oc false = .ok (.exited r ex) ∧
      ex = (pmFiltered "-b" bat ob ++ pmFiltered "-c" ac oc).map
        (fun (c : PmCmd) => ["pmset", c.modeFlag, c.param, pvalStr c.value]) ∧
      (∀ p v, ((⟨"-b", p, v⟩ : PmCmd) ∈ pmFiltered "-b" bat ob ++ pmFiltered "-c" ac oc) ↔
        ((p, some v) ∈ ob ∧ pmDiffersB bat p v = true)) ∧
      (∀ p v, ((⟨"-c", p, v⟩ : PmCmd) ∈ pmFiltered "-b" bat ob ++ pmFiltered "-c" ac oc) ↔
        ((p, some v) ∈ oc ∧ pmDiffersB ac p v = true)) ∧
      (∀ r2 ex2, pmset_run_module stdout ob oc false = .ok (.exited r2 ex2) →
        (r2.changed = true ↔ pmFiltered "-b" bat ob ++ pmFiltered "-c" ac oc ≠ [])) := by
  obtain ⟨b1, a1, h1⟩ := pmsetBlockGo_ok "on_battery" "-b" bat ob ⟨[], "", ""⟩ hob
  obtain ⟨b2, a2, h2⟩ := pmsetBlockGo_ok "on_charger" "-c" ac oc
    ⟨[] ++ pmFiltered "-b" bat ob, "" ++ b1, "" ++ a1⟩ hoc
  have hrun : pmset_run_module stdout ob oc false =
      .ok (.exited
        ⟨decide (¬(([] ++ pmFiltered "-b" bat ob) ++ pmFiltered "-c" ac oc = [])),
         ("" ++ b1) ++ b2, ("" ++ a1) ++ a2⟩
        ((([] ++ pmFiltered "-b" bat ob) ++ pmFiltered "-c" ac oc).map
          (fun (c : PmCmd) => ["pmset", c.modeFlag, c.param, pvalStr c.value]))) := by
    simp only [pmset_run_module, hbat, hac, h1, h2]
    rw [if_neg (by simp)]
  refine ⟨_, _, hrun, by simp, ?_, ?_, ?_⟩
  · intro p v
    rw [List.mem_append]
    constructor
    · intro h
      rcases h with h | h
      · exact (pmFiltered_mem "-b" bat ob p v).1 h
      · have hf := pmFiltered_flag "-c" ac oc ⟨"-b", p, v⟩ h
        have hbc : ("-b" : String) = "-c" := hf
        exact absurd hbc (by decide)
    · intro h
      exact Or.inl ((pmFiltered_mem "-b" bat ob p v).2 h)
  · intro p v
    rw [List.mem_append]
    constructor
    · intro h
      rcases h with h | h
      · have hf := pmFiltered_flag "-b" bat ob ⟨"-c", p, v⟩ h
        have hbc : ("-c" : String) = "-b" := hf
        exact absurd hbc (by decide)
      · exact (pmFiltered_mem "-c" ac oc p v).1 h
    · intro h
      exact Or.inr ((pmFiltered_mem "-c" ac oc p v).2 h)
  · intro r2 ex2 h2run
    rw [hrun] at h2run
    injection h2run with h3
    injection h3 with h4 h5
    rw [← h4]
    simp
    tauto

/-- Witness for C2 at a concrete `pmset -g custom` output and parameter
dicts (an already-correct battery value, a differing battery value, and a
differing charger value). -/
theorem c2_witness :
    ∃ r ex,
      pmset_run_module pmStdout
        [("displaysleep", some (PVal.vint 10)), ("hibernatemode", some (PVal.vint 7))]
        [("displaysleep", some (PVal.vint 3))] false = .ok (.exited r ex) ∧
      ex = (pmFiltered "-b" [("displaysleep", "10"), ("hibernatemode", "3")]
              [("displaysleep", some (PVal.vint 10)), ("hibernatemode", some (PVal.vint 7))] ++
            pmFiltered "-c" [("displaysleep", "5")]
              [("displaysleep", some (PVal.vint 3))]).map
        (fun (c : PmCmd) => ["pmset", c.modeFlag, c.param, pvalStr c.value]) ∧
      (∀ p v, ((⟨"-b", p, v⟩ : PmCmd) ∈
          pmFiltered "-b" [("displaysleep", "10"), ("hibernatemode", "3")]
            [("displaysleep", some (PVal.vint 10)), ("hibernatemode", some (PVal.vint 7))] ++
          pmFiltered "-c" [("displaysleep", "5")] [("displaysleep", some (PVal.vint 3))]) ↔
        ((p, some v) ∈
            [("displaysleep", some (PVal.vint 10)), ("hibernatemode", some (PVal.vint 7))] ∧
          pmDiffersB [("displaysleep", "10"), ("hibernatemode", "3")] p v = true)) ∧
      (∀ p v, ((⟨"-c", p, v⟩ : PmCmd) ∈
          pmFiltered "-b" [("displaysleep", "10"), ("hibernatemode", "3")]
            [("displaysleep", some (PVal.vint 10)), ("hibernatemode", some (PVal.vint 7))] ++
          pmFiltered "-c" [("displaysleep", "5")] [("displaysleep", some (PVal.vint 3))]) ↔
        ((p, some v) ∈ [("displaysleep", some (PVal.vint 3))] ∧
          pmDiffersB [("displaysleep", "5")] p v = true)) ∧
      (∀ r2 ex2,
        pmset_run_module pmStdout
          [("displaysleep", some (PVal.vint 10)), ("hibernatemode", some (PVal.vint 7))]
          [("displaysleep", some (PVal.vint 3))] false = .ok (.exited r2 ex2) →
        (r2.changed = true ↔
          pmFiltered "-b" [("displaysleep", "10"), ("hibernatemode", "3")]
            [("displaysleep", some (PVal.vint 10)), ("hibernatemode", some (PVal.vint 7))] ++
          pmFiltered "-c" [("displaysleep", "5")] [("displaysleep", some (PVal.vint 3))] ≠ [])) :=
  c2_pmset_diff pmStdout
    [("displaysleep", some (PVal.vint 10)), ("hibernatemode", some (PVal.vint 7))]
    [("displaysleep", some (PVal.vint 3))]
    [("displaysleep", "10"), ("hibernatemode", "3")] [("displaysleep", "5")]
    (by decide) (by decide) (by decide) (by decide)

/-- A matched alternative is one of the alternation's literals. -/
theorem tryAltNl_mem : ∀ (lits : List String) (r : List Char) (v : String),
    tryAltNl r lits = some v → v ∈ lits := by
  intro lits
  induction lits with
  | nil => intro r v h; simp [tryAltNl] at h
  | cons lit more ih =>
    intro r v h
    simp only [tryAltNl] at h
    split at h
    · split at h
      · injection h with h1
        exact h1 ▸ List.mem_cons_self _ _
      · exact List.mem_cons_of_mem _ (ih r v h)
    · exact List.mem_cons_of_mem _ (ih r v h)

/-- A successful `re.search` stems from a successful attempt at some
position. -/
theorem searchAt_some {α : Type} (tryA : List Char → Option α) :
    ∀ (fuel : ℕ) (cs : List Char) (v : α),
      searchAt tryA fuel cs = some v → ∃ cs2, tryA cs2 = some v := by
  intro fuel
  induction fuel with
  | zero => intro cs v h; simp [searchAt] at h
  | succ f ih =>
    intro cs v h
    cases cs with
    | nil => simp [searchAt] at h
    | cons c rest =>
      simp only [searchAt] at h
      split at h
      · exact ⟨c :: rest, by rw [‹tryA (c :: rest) = some _›]; injection h with h1; rw [h1]⟩
      · exact ih rest v h

/-- The `ipv6_configuration` field always lands in the four mapped values
(`'unknown'` is unreachable because the regex group is restricted to
`Off|Automatic|Manual`). -/
theorem ipv6cfg_values (stdout : String) :
    ipv6ConfigurationMap (noneFilter (pySearch tryIpv6cfgAt stdout)) ∈
      (["off", "automatic", "manual", "link_local"] : List String) := by
  cases hs : pySearch tryIpv6cfgAt stdout with
  | none => simp [noneFilter, ipv6ConfigurationMap]
  | some v =>
    rw [pySearch] at hs
    obtain ⟨cs2, ht⟩ := searchAt_some tryIpv6cfgAt _ _ _ hs
    have hv : v ∈ (["Off", "Automatic", "Manual"] : List String) := by
      rw [tryIpv6cfgAt] at ht
      split at ht
      · exact absurd ht (by simp)
      · exact tryAltNl_mem _ _ _ ht
    simp only [List.mem_cons, List.not_mem_nil, or_false] at hv
    rcases hv with rfl | rfl | rfl <;> decide

/-- C9 (amended): whenever the stdout contains a match of
`IPv6 IP address: [\w:]+`, `parse_getinfo` raises `IndexError` (group name
mismatch).  On stdouts without such a match it returns `None` exactly when
the configuration group — the first newline-terminated line ending in
`' Configuration'`, greedily stripped of that suffix, filtered by
`.lower() != 'none'` — is absent or not a key of
`INTERFACE_CONFIGURATION_MAP`; otherwise it returns a `NetworkServiceInfo`
whose `configuration` is the mapped value and whose `ipv6_configuration` is
one of `'off'`, `'automatic'`, `'manual'`, `'link_local'`. -/
theorem c9_parse_getinfo (name stdout : String)
    (hniv6 : pySearch tryIpv6AddrAt stdout = none) :
    (parse_getinfo name stdout = .ok none ↔ mappedConfigOf stdout = none) ∧
    (∀ info, parse_getinfo name stdout = .ok (some info) →
      mappedConfigOf stdout = some info.configuration ∧
      info.ipv6_configuration ∈ (["off", "automatic", "manual", "link_local"] : List String)) := by
  cases hc : configurationKeyOf stdout with
  | none =>
    constructor
    · simp [parse_getinfo, hniv6, hc, mappedConfigOf]
    · intro info hinfo
      simp [parse_getinfo, hniv6, hc] at hinfo
  | some key =>
    cases hm : dictLookup INTERFACE_CONFIGURATION_MAP key with
    | none =>
      constructor
      · simp [parse_getinfo, hniv6, hc, hm, mappedConfigOf]
      · intro info hinfo
        simp [parse_getinfo, hniv6, hc, hm] at hinfo
    | some cfgv =>
      constructor
      · simp [parse_getinfo, hniv6, hc, hm, mappedConfigOf]
      · intro info hinfo
        simp only [parse_getinfo, hniv6, hc, hm] at hinfo
        injection hinfo with h1
        injection h1 with h2
        have hcfg : info.configuration = cfgv := by rw [← h2]
        constructor
        · rw [mappedConfigOf, hc]
          show dictLookup INTERFACE_CONFIGURATION_MAP key = some info.configuration
          rw [hm, hcfg]
        · rw [← h2]
          exact ipv6cfg_values stdout

set_option maxRecDepth 4000 in
/-- Witness for C9 (amended) at a concrete parseable `-getinfo` output. -/
theorem c9_witness :
    (parse_getinfo "Ethernet" getinfoDhcpOut = .ok none ↔
      mappedConfigOf getinfoDhcpOut = none) ∧
    (∀ info, parse_getinfo "Ethernet" getinfoDhcpOut = .ok (some info) →
      mappedConfigOf getinfoDhcpOut = some info.configuration ∧
      info.ipv6_configuration ∈ (["off", "automatic", "manual", "link_local"] : List String)) :=
  c9_parse_getinfo "Ethernet" getinfoDhcpOut (by decide)

/-! ### C5 — validate before configure -/

/-- A successful `get_valid_mtu_range` returns the parsed range of the
world's `-listvalidMTUrange` output. -/
theorem get_valid_mtu_range_obs {w : World} {st : St} {p : String} {r : ℤ × ℤ} {st' : St}
    (h : get_valid_mtu_range w st p = .ok (r, st')) : mtuRangeOf w p = some r := by
  simp only [get_valid_mtu_range] at h
  split at h
  · exact absurd h (by simp)
  · rename_i x t st1 heq
    obtain ⟨ht, _⟩ := networksetup_cmd_ok heq
    split at h
    · rename_i r0 hparse
      injection h with h1
      rw [Prod.mk.injEq] at h1
      obtain ⟨rfl, _⟩ := h1
      rw [mtuRangeOf, runStdout, ← ht]
      exact hparse
    · exact absurd h (by simp)

/-- A successful `get_valid_port_media_configurations` returns the parsed
media list of the world's `-listvalidmedia` output. -/
theorem get_valid_media_obs {w : World} {st : St} {p : String}
    {sup : List HardwarePortMediaConfig} {st' : St}
    (h : get_valid_port_media_configurations w st p = .ok (sup, st')) :
    validMediaOf w p = .ok sup := by
  simp only [get_valid_port_media_configurations] at h
  split at h
  · exact absurd h (by simp)
  · rename_i x t st1 heq
    obtain ⟨ht, _⟩ := networksetup_cmd_ok heq
    split at h
    · exact absurd h (by simp)
    · rename_i vm hparse
      injection h with h1
      rw [Prod.mk.injEq] at h1
      obtain ⟨rfl, _⟩ := h1
      rw [validMediaOf, runStdout, ← ht]
      exact hparse

/-- `findMissingMac` returns `none` exactly when every interface's MAC
address has a hardware port. -/
theorem findMissingMac_eq_none :
    ∀ (ifaces : List InterfaceConfig) (ports : List (String × HardwarePortEntry)),
      findMissingMac ifaces ports = none ↔
        ∀ cfg ∈ ifaces, (dictLookup ports cfg.mac_address).isSome := by
  intro ifaces
  induction ifaces with
  | nil => intro ports; simp [findMissingMac]
  | cons iface rest ih =>
    intro ports
    simp only [findMissingMac]
    by_cases hp : (dictLookup ports iface.mac_address).isNone
    · rw [if_pos hp]
      simp only [List.mem_cons]
      constructor
      · intro h; exact absurd h (by simp)
      · intro h
        have := h iface (Or.inl rfl)
        rw [Option.isNone_iff_eq_none] at hp
        rw [hp] at this
        simp at this
    · rw [if_neg hp]
      rw [ih ports]
      simp only [List.mem_cons]
      constructor
      · intro h cfg hcfg
        rcases hcfg with rfl | hcfg
        · rw [Option.isSome_iff_ne_none]
          intro hnone
          exact hp (by rw [hnone]; rfl)
        · exact h cfg hcfg
      · intro h cfg hcfg
        exact h cfg (Or.inr hcfg)

set_option maxRecDepth 4000 in
/-- Inversion of one step of the hardware-validation loop: the head
interface's hardware settings were validated against the world, and the loop
continues on the tail. -/
theorem validateHWLoop_cons_ok {w : World} {ports : List (String × HardwarePortEntry)}
    {iface : InterfaceConfig} {rest : List InterfaceConfig} {i : ℕ} {st st' : St}
    (hok : validateHWLoop w ports (iface :: rest) i st = .ok st') :
    ∃ stMid, validateHWLoop w ports rest (i + 1) stMid = .ok st' ∧
      (∀ hw, iface.hardware = some hw →
        ∃ port, dictLookup ports iface.mac_address = some port ∧
        (∀ mtu, hw.mtu = some mtu → mtu ≠ 0 →
          ∃ lo hi, mtuRangeOf w port.name = some (lo, hi) ∧ lo ≤ mtu ∧ mtu ≤ hi) ∧
        (∀ s, hw.speed = some s → s ≠ 0 →
          ∃ sup, validMediaOf w port.name = .ok sup ∧
            sup.contains
              ⟨s, duplexOf hw.duplex, hw.flow_control, hw.energy_efficient_ethernet⟩ = true)) := by
  cases hhw : iface.hardware with
  | none =>
    simp only [validateHWLoop, hhw] at hok
    exact ⟨st, hok, fun hw h => absurd h (by simp [hhw])⟩
  | some hw0 =>
    simp only [validateHWLoop, hhw] at hok
    cases hport : dictLookup ports iface.mac_address with
    | none =>
      simp only [hport] at hok
      exact absurd hok (by simp)
    | some port =>
      simp only [hport] at hok
      by_cases htm : truthyOI hw0.mtu = true
      · cases hmtu : hw0.mtu with
        | none => rw [hmtu] at htm; simp [truthyOI] at htm
        | some mtu =>
          have hmne : mtu ≠ 0 := by
            rw [hmtu] at htm; simpa [truthyOI] using htm
          have htm2 : truthyOI (some mtu) = true := by rw [← hmtu]; exact htm
          simp only [hmtu, htm2, if_true] at hok
          cases hr : get_valid_mtu_range w st port.name with
          | error e => simp [hr] at hok
          | ok val =>
            obtain ⟨⟨lo, hi⟩, st1⟩ := val
            simp only [hr] at hok
            by_cases hlt : mtu < lo
            · simp [hlt] at hok
            · by_cases hgt : mtu > hi
              · simp [hlt, hgt] at hok
              · simp only [if_neg hlt, if_neg hgt] at hok
                have hrange := get_valid_mtu_range_obs hr
                -- continue with the speed step from st1
                by_cases hts : truthyOI hw0.speed = true
                · cases hsp : hw0.speed with
                  | none => rw [hsp] at hts; simp [truthyOI] at hts
                  | some s =>
                    have hsne : s ≠ 0 := by
                      rw [hsp] at hts; simpa [truthyOI] using hts
                    have hts2 : truthyOI (some s) = true := by rw [← hsp]; exact hts
                    simp only [hsp, hts2, if_true] at hok
                    cases hmres : get_valid_port_media_configurations w st1 port.name with
                    | error e => simp [hmres] at hok
                    | ok val2 =>
                      obtain ⟨sup, st2⟩ := val2
                      simp only [hmres] at hok
                      by_cases hct : sup.contains
                          ⟨s, duplexOf hw0.duplex, hw0.flow_control,
                           hw0.energy_efficient_ethernet⟩ = true
                      · simp only [if_pos hct] at hok
                        refine ⟨st2, hok, fun hw h => ?_⟩
                        injection h with h
                        subst h
                        refine ⟨port, rfl, ?_, ?_⟩
                        · intro mtu2 hm2 _
                          rw [hmtu] at hm2
                          injection hm2 with hm2
                          subst hm2
                          exact ⟨lo, hi, hrange, by omega, by omega⟩
                        · intro s2 hs2 _
                          rw [hsp] at hs2
                          injection hs2 with hs2
                          subst hs2
                          exact ⟨sup, get_valid_media_obs hmres, hct⟩
                      · simp only [if_neg hct] at hok
                        exact absurd hok (by simp)
                · simp only [if_neg hts] at hok
                  refine ⟨st1, hok, fun hw h => ?_⟩
                  injection h with h
                  subst h
                  refine ⟨port, rfl, ?_, ?_⟩
                  · intro mtu2 hm2 _
                    rw [hmtu] at hm2
                    injection hm2 with hm2
                    subst hm2
                    exact ⟨lo, hi, hrange, by omega, by omega⟩
                  · intro s2 hs2 hs2ne
                    exact absurd (by rw [hs2]; simp [truthyOI, hs2ne] : truthyOI hw0.speed = true) hts
      · simp only [if_neg htm] at hok
        by_cases hts : truthyOI hw0.speed = true
        · cases hsp : hw0.speed with
          | none => rw [hsp] at hts; simp [truthyOI] at hts
          | some s =>
            have hsne : s ≠ 0 := by
              rw [hsp] at hts; simpa [truthyOI] using hts
            have hts2 : truthyOI (some s) = true := by rw [← hsp]; exact hts
            simp only [hsp, hts2, if_true] at hok
            cases hmres : get_valid_port_media_configurations w st port.name with
            | error e => simp [hmres] at hok
            | ok val2 =>
              obtain ⟨sup, st2⟩ := val2
              simp only [hmres] at hok
              by_cases hct : sup.contains
                  ⟨s, duplexOf hw0.duplex, hw0.flow_control,
                   hw0.energy_efficient_ethernet⟩ = true
              · simp only [if_pos hct] at hok
                refine ⟨st2, hok, fun hw h => ?_⟩
                injection h with h
                subst h
                refine ⟨port, rfl, ?_, ?_⟩
                · intro mtu2 hm2 hm2ne
                  exact absurd (by rw [hm2]; simp [truthyOI, hm2ne] : truthyOI hw0.mtu = true) htm
                · intro s2 hs2 _
                  rw [hsp] at hs2
                  injection hs2 with hs2
                  subst hs2
                  exact ⟨sup, get_valid_media_obs hmres, hct⟩
              · simp only [if_neg hct] at hok
                exact absurd hok (by simp)
        · simp only [if_neg hts] at hok
          refine ⟨st, hok, fun hw h => ?_⟩
          injection h with h
          subst h
          refine ⟨port, rfl, ?_, ?_⟩
          · intro mtu2 hm2 hm2ne
            exact absurd (by rw [hm2]; simp [truthyOI, hm2ne] : truthyOI hw0.mtu = true) htm
          · intro s2 hs2 hs2ne
            exact absurd (by rw [hs2]; simp [truthyOI, hs2ne] : truthyOI hw0.speed = true) hts

/-- Over the whole hardware-validation loop, success means every interface
with hardware settings had its port found, its MTU inside the valid range,
and its media combination supported. -/
theorem validateHWLoop_ok {w : World} {ports : List (String × HardwarePortEntry)} :
    ∀ (ifaces : List InterfaceConfig) (i : ℕ) (st st' : St),
      validateHWLoop w ports ifaces i st = .ok st' →
      ∀ cfg ∈ ifaces, ∀ hw, cfg.hardware = some hw →
        ∃ port, dictLookup ports cfg.mac_address = some port ∧
        (∀ mtu, hw.mtu = some mtu → mtu ≠ 0 →
          ∃ lo hi, mtuRangeOf w port.name = some (lo, hi) ∧ lo ≤ mtu ∧ mtu ≤ hi) ∧
        (∀ s, hw.speed = some s → s ≠ 0 →
          ∃ sup, validMediaOf w port.name = .ok sup ∧
            sup.contains ⟨s, duplexOf hw.duplex, hw.flow_control,
              hw.energy_efficient_ethernet⟩ = true) := by
  intro ifaces
  induction ifaces with
  | nil => intro i st st' _ cfg hcfg; exact absurd hcfg (by simp)
  | cons iface rest ih =>
    intro i st st' hok cfg hcfg
    obtain ⟨stMid, hrest, hhead⟩ := validateHWLoop_cons_ok hok
    rcases List.mem_cons.mp hcfg with rfl | hcfg2
    · exact hhead
    · exact ih (i + 1) stMid st' hrest cfg hcfg2

/-- **C5.** `ConfigureNetworkInterfaces.run` validates before it configures:
a `validate_config` error propagates out of `run` unchanged, so no interface
is configured; a successful validation hands its state to the configure
loop, which processes the interfaces in input-list order; validation raises
a `ConfigurationError` whenever some interface MAC address has no hardware
port; and when validation succeeds, every interface with hardware settings
has a port, any requested MTU lies within the port valid range, and any
requested speed/duplex/flow-control/EEE combination is in the port
supported-media list. -/
theorem c5_validate_before_configure :
    (∀ (w : World) (ifaces : List InterfaceConfig) (st : St) (e : NetErr × St),
      validate_config w ifaces st = .error e → netRun w ifaces st = .error e) ∧
    (∀ (w : World) (ifaces : List InterfaceConfig) (st st1 : St),
      validate_config w ifaces st = .ok st1 →
        netRun w ifaces st = runConfigureLoop w ifaces st1) ∧
    (∀ (w : World) (ifaces : List InterfaceConfig) (st st1 : St)
        (ports : List (String × HardwarePortEntry)),
      get_hardware_ports_by_mac_address w st = .ok (ports, st1) →
      (∃ cfg ∈ ifaces, dictLookup ports cfg.mac_address = none) →
      ∃ msg, validate_config w ifaces st = .error (.configurationError msg, st1)) ∧
    (∀ (w : World) (ifaces : List InterfaceConfig) (st st1 : St),
      validate_config w ifaces st = .ok st1 →
      ∀ cfg ∈ ifaces, ∀ hw, cfg.hardware = some hw →
        ∃ ports stA, get_hardware_ports_by_mac_address w st = .ok (ports, stA) ∧
        ∃ port, dictLookup ports cfg.mac_address = some port ∧
        (∀ mtu, hw.mtu = some mtu → mtu ≠ 0 →
          ∃ lo hi, mtuRangeOf w port.name = some (lo, hi) ∧ lo ≤ mtu ∧ mtu ≤ hi) ∧
        (∀ s, hw.speed = some s → s ≠ 0 →
          ∃ sup, validMediaOf w port.name = .ok sup ∧
            sup.contains ⟨s, duplexOf hw.duplex, hw.flow_control,
              hw.energy_efficient_ethernet⟩ = true)) := by
  refine ⟨?_, ?_, ?_, ?_⟩
  · intro w ifaces st e h
    simp only [netRun, h]
  · intro w ifaces st st1 h
    simp only [netRun, h]
  · intro w ifaces st st1 ports hports hmem
    obtain ⟨cfg, hcfg, hnone⟩ := hmem
    have hne : findMissingMac ifaces ports ≠ none := by
      intro h0
      have hall := (findMissingMac_eq_none ifaces ports).mp h0 cfg hcfg
      rw [hnone] at hall
      simp at hall
    cases hm : findMissingMac ifaces ports with
    | none => exact absurd hm hne
    | some mac =>
      refine ⟨"No network interface with MAC address \"" ++ mac ++
        "\" found. " ++ "Available MAC addresses: " ++ availableMacs ports, ?_⟩
      simp only [validate_config, hports, hm]
  · intro w ifaces st st1 h cfg hcfg hw hhw
    cases hports : get_hardware_ports_by_mac_address w st with
    | error e =>
      simp only [validate_config, hports] at h
      exact absurd h (by simp)
    | ok val =>
      obtain ⟨ports, stA⟩ := val
      simp only [validate_config, hports] at h
      cases hm : findMissingMac ifaces ports with
      | some mac =>
        simp only [hm] at h
        exact absurd h (by simp)
      | none =>
        simp only [hm] at h
        exact ⟨ports, stA, rfl, validateHWLoop_ok ifaces 0 stA st1 h cfg hcfg hw hhw⟩

/-- Witness for C5 on the hardware fixture: the unknown-MAC configuration
fails validation and aborts the run, while the valid hardware configuration
passes validation with its MTU in range and its media supported, and the
run proceeds to the configure loop. -/
theorem c5_witness :
    netRun wEthHW [cfgBadMac] initSt = .error c5Err ∧
    netRun wEthHW [cfgHW] initSt = runConfigureLoop wEthHW [cfgHW] c5StV ∧
    (∃ msg, validate_config wEthHW [cfgBadMac] initSt =
      .error (.configurationError msg, c5Ports.2)) ∧
    (∃ ports stA, get_hardware_ports_by_mac_address wEthHW initSt = .ok (ports, stA) ∧
      ∃ port, dictLookup ports cfgHW.mac_address = some port ∧
      (∀ mtu, hwCfgV.mtu = some mtu → mtu ≠ 0 →
        ∃ lo hi, mtuRangeOf wEthHW port.name = some (lo, hi) ∧ lo ≤ mtu ∧ mtu ≤ hi) ∧
      (∀ s, hwCfgV.speed = some s → s ≠ 0 →
        ∃ sup, validMediaOf wEthHW port.name = .ok sup ∧
          sup.contains ⟨s, duplexOf hwCfgV.duplex, hwCfgV.flow_control,
            hwCfgV.energy_efficient_ethernet⟩ = true)) :=
  ⟨c5_validate_before_configure.1 wEthHW [cfgBadMac] initSt c5Err (by rfl),
   c5_validate_before_configure.2.1 wEthHW [cfgHW] initSt c5StV (by rfl),
   c5_validate_before_configure.2.2.1 wEthHW [cfgBadMac] initSt c5Ports.2 c5Ports.1
     (by rfl) ⟨cfgBadMac, by simp, by rfl⟩,
   c5_validate_before_configure.2.2.2 wEthHW [cfgHW] initSt c5StV (by rfl) cfgHW
     (by simp) hwCfgV (by rfl)⟩

/-! ### C8 — the `unstyle` scan over styled text -/

/-- The scan leaves the empty list unchanged at any fuel. -/
theorem unstyleAuxF_nil : ∀ f, unstyleAuxF f [] = [] := by
  intro f
  cases f with
  | zero => rfl
  | succ g => rfl

/-- The scan is fuel-independent once the fuel covers the input length. -/
theorem unstyleAuxF_congr :
    ∀ (f1 f2 : ℕ) (cs : List Char), cs.length ≤ f1 → cs.length ≤ f2 →
      unstyleAuxF f1 cs = unstyleAuxF f2 cs := by
  intro f1
  induction f1 with
  | zero =>
    intro f2 cs h1 _
    have hnil : cs = [] := List.length_eq_zero.mp (Nat.le_zero.mp h1)
    subst hnil
    rw [unstyleAuxF_nil, unstyleAuxF_nil]
  | succ f ih =>
    intro f2 cs h1 h2
    cases cs with
    | nil => rw [unstyleAuxF_nil, unstyleAuxF_nil]
    | cons c rest =>
      cases f2 with
      | zero => simp at h2
      | succ g =>
        cases hm : matchEsc (c :: rest) with
        | some rest2 =>
          have hlen := matchEsc_length _ _ hm
          simp only [unstyleAuxF, hm]
          refine ih g rest2 ?_ ?_
          · simp only [List.length_cons] at h1 hlen; omega
          · simp only [List.length_cons] at h2 hlen; omega
        | none =>
          simp only [unstyleAuxF, hm]
          refine congrArg (List.cons c) (ih g rest ?_ ?_)
          · simp only [List.length_cons] at h1; omega
          · simp only [List.length_cons] at h2; omega

/-- A run of class characters followed by the letter `'m'` matches, leaving
exactly the remainder after the `'m'`. -/
theorem consumeAnsiClass_allClass :
    ∀ (l r : List Char), l.all isAnsiClassChar = true →
      consumeAnsiClass (l ++ 'm' :: r) = some r := by
  intro l
  induction l with
  | nil =>
    intro r _
    rw [List.nil_append]
    show consumeAnsiClass ('m' :: r) = some r
    rw [consumeAnsiClass, if_neg (by decide), if_pos (by decide)]
  | cons c rest ih =>
    intro r hall
    simp only [List.all_cons, Bool.and_eq_true] at hall
    rw [List.cons_append, consumeAnsiClass, if_pos hall.1]
    exact ih r hall.2

/-- An escape emitted by `style` (whose code is made of class characters)
matches the `unstyle` regex, consuming exactly itself. -/
theorem matchEsc_escBit (code : String) (r : List Char)
    (hall : code.toList.all isAnsiClassChar = true) :
    matchEsc (escBit code ++ r) = some r := by
  have h1 : escBit code ++ r = '\x1b' :: '[' :: (code.toList ++ 'm' :: r) := by
    simp [escBit]
  rw [h1]
  show consumeAnsiClass (code.toList ++ 'm' :: r) = some r
  exact consumeAnsiClass_allClass _ _ hall

/-- The scan removes a leading `style` escape in one step. -/
theorem unstyleAuxF_escBit (code : String) (r : List Char) (f : ℕ)
    (hall : code.toList.all isAnsiClassChar = true) :
    unstyleAuxF (f + 1) (escBit code ++ r) = unstyleAuxF f r := by
  have h1 : escBit code ++ r = '\x1b' :: ('[' :: (code.toList ++ 'm' :: r)) := by
    simp [escBit]
  rw [h1]
  simp only [unstyleAuxF]
  rw [show matchEsc ('\x1b' :: '[' :: (code.toList ++ 'm' :: r)) =
    consumeAnsiClass (code.toList ++ 'm' :: r) from rfl]
  rw [consumeAnsiClass_allClass _ _ hall]

/-- A failed class run cannot be rescued by appending text that starts with
`'\x1b'` (neither a class character nor a letter). -/
theorem consumeAnsiClass_append_esc :
    ∀ (cs r : List Char), consumeAnsiClass cs = none →
      consumeAnsiClass (cs ++ '\x1b' :: r) = none := by
  intro cs
  induction cs with
  | nil =>
    intro r _
    rw [List.nil_append]
    show consumeAnsiClass ('\x1b' :: r) = none
    rw [consumeAnsiClass, if_neg (by decide), if_neg (by decide)]
  | cons c rest ih =>
    intro r h
    rw [consumeAnsiClass] at h
    rw [List.cons_append, consumeAnsiClass]
    by_cases hc : isAnsiClassChar c = true
    · rw [if_pos hc] at h ⊢
      exact ih r h
    · by_cases hl : isAsciiLetter c = true
      · rw [if_neg hc, if_pos hl] at h
        exact absurd h (by simp)
      · rw [if_neg hc, if_neg hl]

/-- A position inside escape-free text stays matchless when text starting
with `'\x1b'` is appended after it. -/
theorem matchEsc_append_esc (c : Char) (cs r : List Char)
    (h : matchEsc (c :: cs) = none) :
    matchEsc ((c :: cs) ++ '\x1b' :: r) = none := by
  unfold matchEsc
  split
  · rename_i rest heq
    cases cs with
    | nil =>
      rw [List.cons_append, List.nil_append] at heq
      injection heq with h1 h2
      injection h2 with h3 h4
      exact absurd h3 (by decide)
    | cons d ds =>
      rw [List.cons_append, List.cons_append] at heq
      injection heq with h1 h2
      injection h2 with h3 h4
      subst h1
      subst h3
      subst h4
      have hca : consumeAnsiClass ds = none := h
      exact consumeAnsiClass_append_esc ds r hca
  · rfl

/-- Escape-free text passes through the scan unchanged. -/
theorem unstyleAuxF_noAnsi :
    ∀ (t : List Char) (f : ℕ), noAnsiIn t = true → t.length ≤ f →
      unstyleAuxF f t = t := by
  intro t
  induction t with
  | nil => intro f _ _; exact unstyleAuxF_nil f
  | cons c rest ih =>
    intro f hna hf
    obtain ⟨g, rfl⟩ : ∃ g, f = g + 1 := ⟨f - 1, by simp at hf; omega⟩
    simp only [noAnsiIn, Bool.and_eq_true, Option.isNone_iff_eq_none] at hna
    simp only [unstyleAuxF, hna.1]
    refine congrArg (List.cons c) (ih g hna.2 ?_)
    simp only [List.length_cons] at hf
    omega

/-- Escape-free text followed by the reset escape scans to the text. -/
theorem unstyleAuxF_noAnsi_esc :
    ∀ (t : List Char) (f : ℕ), noAnsiIn t = true → t.length + 4 ≤ f →
      unstyleAuxF f (t ++ escBit "0") = t := by
  intro t
  induction t with
  | nil =>
    intro f _ hf
    obtain ⟨g, rfl⟩ : ∃ g, f = g + 1 := ⟨f - 1, by omega⟩
    rw [List.nil_append]
    have h0 := unstyleAuxF_escBit "0" [] g (by decide)
    rw [List.append_nil] at h0
    rw [h0, unstyleAuxF_nil]
  | cons c rest ih =>
    intro f hna hf
    obtain ⟨g, rfl⟩ : ∃ g, f = g + 1 := ⟨f - 1, by omega⟩
    simp only [noAnsiIn, Bool.and_eq_true, Option.isNone_iff_eq_none] at hna
    have hcross : matchEsc (c :: (rest ++ escBit "0")) = none := by
      have hesc : escBit "0" = '\x1b' :: '[' :: '0' :: 'm' :: [] := by decide
      have := matchEsc_append_esc c rest ('[' :: '0' :: 'm' :: []) hna.1
      rw [List.cons_append] at this
      rw [hesc]
      exact this
    rw [List.cons_append]
    simp only [unstyleAuxF, hcross]
    refine congrArg (List.cons c) (ih g hna.2 ?_)
    simp only [List.length_cons] at hf
    omega

/-- The scan removes a block of `style` escapes, then proceeds on the rest
with just enough fuel. -/
theorem unstyleAuxF_bits :
    ∀ (bs : List (List Char)) (r : List Char) (f : ℕ),
      (∀ b ∈ bs, ∃ code, b = escBit code ∧ code.toList.all isAnsiClassChar = true) →
      (bs.foldr (· ++ ·) [] ++ r).length ≤ f →
      unstyleAuxF f (bs.foldr (· ++ ·) [] ++ r) = unstyleAuxF r.length r := by
  intro bs
  induction bs with
  | nil =>
    intro r f _ hf
    rw [List.foldr_nil, List.nil_append] at hf ⊢
    exact unstyleAuxF_congr f r.length r hf le_rfl
  | cons b rest ih =>
    intro r f hb hf
    obtain ⟨code, rfl, hall⟩ := hb (b) (by simp)
    rw [List.foldr_cons, List.append_assoc] at hf ⊢
    obtain ⟨g, rfl⟩ : ∃ g, f = g + 1 := by
      refine ⟨f - 1, ?_⟩
      simp only [List.length_append, escBit, List.length_cons] at hf
      omega
    rw [unstyleAuxF_escBit code _ g hall]
    refine ih r g (fun x hx => hb x (by simp [hx])) ?_
    simp only [List.length_append, escBit, List.length_cons] at hf ⊢
    omega

/-- Every digit of a decimal representation is in the `[;?0-9]` class. -/
theorem natDigitsAux_all_class :
    ∀ (fuel n : ℕ), (natDigitsAux fuel n).all isAnsiClassChar = true := by
  intro fuel
  induction fuel with
  | zero => intro n; rfl
  | succ f ih =>
    intro n
    rw [natDigitsAux]
    by_cases h : n = 0
    · rw [if_pos h]; rfl
    · rw [if_neg h, List.all_append]
      have hk : n % 10 < 10 := Nat.mod_lt _ (by norm_num)
      have hcl : isAnsiClassChar (Char.ofNat (48 + n % 10)) = true := by
        generalize hg : n % 10 = k at hk
        interval_cases k <;> decide
      simp [ih, hcl]

/-- `str(n)` consists of class characters only. -/
theorem natRepr_all_class (n : ℕ) : (natRepr n).toList.all isAnsiClassChar = true := by
  rw [natRepr]
  by_cases h : n = 0
  · rw [if_pos h]; decide
  · rw [if_neg h]
    exact natDigitsAux_all_class n n

/-- `str(i)` of a non-negative integer consists of class characters only. -/
theorem intRepr_all_class (i : ℤ) (h : 0 ≤ i) :
    (intRepr i).toList.all isAnsiClassChar = true := by
  rw [intRepr, if_neg (by omega)]
  exact natRepr_all_class i.toNat

/-- A dictionary hit is a member of the association list. -/
theorem dictLookup_mem {α : Type} :
    ∀ (l : List (String × α)) (s : String) (v : α),
      dictLookup l s = some v → (s, v) ∈ l := by
  intro l
  induction l with
  | nil => intro s v h; exact absurd h (by simp [dictLookup])
  | cons p rest ih =>
    intro s v h
    obtain ⟨k2, w⟩ := p
    rw [dictLookup] at h
    by_cases hk : k2 = s
    · rw [if_pos hk] at h
      injection h with h
      simp [hk, h]
    · rw [if_neg hk] at h
      exact List.mem_cons_of_mem _ (ih s v h)

/-- `String.toList` distributes over append. -/
theorem strToList_append (a b : String) : (a ++ b).toList = a.toList ++ b.toList := by
  simp [String.toList, String.data_append]

/-- The escapes a valid, truthy color argument makes `style` emit: exactly
one, with a class-only code. -/
theorem colorBits_ok (c? : Option StyleColor) (offset : ℤ) (hoff : 0 ≤ offset)
    (hv : validColorArg c? = true) :
    ∃ bs, colorBits c? offset = .ok bs ∧
      ∀ b ∈ bs, ∃ code, b = escBit code ∧ code.toList.all isAnsiClassChar = true := by
  by_cases ht : colorTruthy c? = true
  case neg =>
    refine ⟨[], ?_, by simp⟩
    rw [colorBits.eq_def, if_neg ht]
  case pos =>
    cases c? with
    | none => exact absurd ht (by simp [colorTruthy])
    | some c =>
      cases c with
      | c256 n =>
        have hn : 0 ≤ n := by simpa [validColorArg] using hv
        refine ⟨[escBit (intRepr (38 + offset) ++ ";5;" ++ intRepr n)], ?_, ?_⟩
        · rw [colorBits, if_pos ht]
          rfl
        · intro x hx
          simp only [List.mem_singleton] at hx
          subst hx
          refine ⟨_, rfl, ?_⟩
          simp only [strToList_append, List.all_append, Bool.and_eq_true]
          exact ⟨⟨intRepr_all_class _ (by omega), by decide⟩, intRepr_all_class _ hn⟩
      | rgb r g b =>
        have hv3 := hv
        simp only [validColorArg, Bool.and_eq_true, decide_eq_true_eq] at hv3
        obtain ⟨⟨h1, h2⟩, h3⟩ := hv3
        refine ⟨[escBit (intRepr (38 + offset) ++ ";2;" ++ intRepr r ++ ";" ++
          intRepr g ++ ";" ++ intRepr b)], ?_, ?_⟩
        · rw [colorBits, if_pos ht]
          rfl
        · intro x hx
          simp only [List.mem_singleton] at hx
          subst hx
          refine ⟨_, rfl, ?_⟩
          simp only [strToList_append, List.all_append, Bool.and_eq_true]
          exact ⟨⟨⟨⟨⟨⟨intRepr_all_class _ (by omega), by decide⟩,
            intRepr_all_class _ h1⟩, by decide⟩, intRepr_all_class _ h2⟩, by decide⟩,
            intRepr_all_class _ h3⟩
      | named s =>
        have hne : ¬s.toList.isEmpty = true := by
          simp only [colorTruthy, Bool.not_eq_true'] at ht
          simp only [ht]
          decide
        have hsome : (dictLookup ansiColors s).isSome = true := by
          have hv2 := hv
          simp only [validColorArg, Bool.or_eq_true] at hv2
          rcases hv2 with hv2 | hv2
          · exact absurd hv2 hne
          · exact hv2
        obtain ⟨v, hvlk⟩ := Option.isSome_iff_exists.mp hsome
        have hmem := dictLookup_mem _ _ _ hvlk
        have hvpos : 0 ≤ v := by
          have hall : ansiColors.all (fun p => decide (0 ≤ p.2)) = true := by decide
          simpa using List.all_eq_true.mp hall _ hmem
        refine ⟨[escBit (intRepr (v + offset))], ?_, ?_⟩
        · rw [colorBits, if_pos ht]
          show (interpretColor (.named s) offset).map (fun c => [escBit c]) = _
          simp only [interpretColor, hvlk]
          rfl
        · intro x hx
          simp only [List.mem_singleton] at hx
          subst hx
          exact ⟨_, rfl, intRepr_all_class _ (by omega)⟩

/-- The escape an attribute argument makes `style` emit has a class-only
code. -/
theorem boolBit_class (b : Option Bool) (onC offC : ℕ) :
    ∀ x ∈ boolBit b onC offC,
      ∃ code, x = escBit code ∧ code.toList.all isAnsiClassChar = true := by
  intro x hx
  cases b with
  | none => simp [boolBit] at hx
  | some tt =>
    simp only [boolBit, List.mem_singleton] at hx
    subst hx
    exact ⟨_, rfl, natRepr_all_class _⟩

/-- `unstyle` on a string built from a character list is the scan on that
list. -/
theorem unstyle_asString (l : List Char) :
    unstyle l.asString = (unstyleAuxF l.length l).asString := rfl

/-- **C8.** Round-trip of `unstyle` after `style`, amended: for text without
ANSI escape sequences and valid color arguments (named colors in the table,
non-negative numeric components — a negative component renders a `'-'`,
which the `unstyle` regex `\\033\\[[;?0-9]*[a-zA-Z]` does not accept, see the
counterexample), `style` succeeds and `unstyle` restores the original text:
it removes exactly the escapes `style` prepended and appended. -/
theorem c8_unstyle_style (text : String) (o : StyleOpts)
    (ht : noAnsi text = true)
    (hfg : validColorArg o.fg = true)
    (hbg : validColorArg o.bg = true) :
    ∃ s, style text o = .ok s ∧ unstyle s = text := by
  obtain ⟨fgb, hfgb, hfgc⟩ := colorBits_ok o.fg 0 (by norm_num) hfg
  obtain ⟨bgb, hbgb, hbgc⟩ := colorBits_ok o.bg 10 (by norm_num) hbg
  set bits := fgb ++ bgb ++
    boolBit o.bold 1 22 ++ boolBit o.dim 2 22 ++ boolBit o.underline 4 24 ++
    boolBit o.overline 53 55 ++ boolBit o.italic 3 23 ++ boolBit o.blink 5 25 ++
    boolBit o.reverse 7 27 ++ boolBit o.strikethrough 9 29 with hbits
  have hgood : ∀ x ∈ bits, ∃ code, x = escBit code ∧
      code.toList.all isAnsiClassChar = true := by
    intro x hx
    rw [hbits] at hx
    simp only [List.mem_append] at hx
    rcases hx with (((((((((hx | hx) | hx) | hx) | hx) | hx) | hx) | hx) | hx) | hx) <;>
      first
        | exact hfgc x hx
        | exact hbgc x hx
        | exact boolBit_class _ _ _ x hx
  have hsl : styleList text.toList o = .ok
      (if o.reset then (bits.foldr (· ++ ·) [] ++ text.toList) ++ escBit "0"
       else bits.foldr (· ++ ·) [] ++ text.toList) := by
    simp only [styleList, hfgb, hbgb, hbits]
    rfl
  have hlen4 : (escBit "0").length = 4 := by decide
  cases hr : o.reset with
  | true =>
    rw [hr, if_pos rfl] at hsl
    refine ⟨((bits.foldr (· ++ ·) [] ++ text.toList) ++ escBit "0").asString, ?_, ?_⟩
    · rw [style, hsl]
      rfl
    · rw [unstyle_asString, List.append_assoc]
      rw [unstyleAuxF_bits bits _ _ hgood le_rfl]
      rw [unstyleAuxF_noAnsi_esc text.toList _ ht
        (by simp only [List.length_append, hlen4]; omega)]
      rfl
  | false =>
    rw [hr, if_neg (by simp)] at hsl
    refine ⟨(bits.foldr (· ++ ·) [] ++ text.toList).asString, ?_, ?_⟩
    · rw [style, hsl]
      rfl
    · rw [unstyle_asString]
      rw [unstyleAuxF_bits bits _ _ hgood le_rfl]
      rw [unstyleAuxF_noAnsi text.toList _ ht le_rfl]
      rfl

/-- Witness for C8: a plain text styled with a full set of valid options
round-trips through `unstyle`. -/
theorem c8_witness :
    noAnsi "hello" = true ∧ validColorArg optsFull.fg = true ∧
    validColorArg optsFull.bg = true ∧
    ∃ s, style "hello" optsFull = .ok s ∧ unstyle s = "hello" :=
  ⟨by decide, by decide, by decide,
   c8_unstyle_style "hello" optsFull (by decide) (by decide) (by decide)⟩

/-! ### C1 — state evolution of the configure stages on a matching state -/

theorem extendsCmds_refl (st : St) : extendsCmds st st :=
  ⟨[], by simp⟩

theorem extendsCmds_trans {st stB stC : St}
    (h1 : extendsCmds st stB) (h2 : extendsCmds stB stC) : extendsCmds st stC := by
  obtain ⟨c1, rfl⟩ := h1
  obtain ⟨c2, rfl⟩ := h2
  exact ⟨c1 ++ c2, by simp⟩

/-- A successful `networksetup_cmd` only appends the command. -/
theorem networksetup_cmd_extends {w : World} {st : St} {cmd : String} {check_rc : Bool}
    {t : ℤ × String × String} {st1 : St}
    (h : networksetup_cmd w st cmd check_rc = .ok (t, st1)) : extendsCmds st st1 :=
  ⟨[nsFull w cmd], (networksetup_cmd_ok h).2⟩

/-- A successful DNS-servers getter returns the world's parsed DNS list. -/
theorem get_dns_obs {w : World} {st : St} {s : String} {l : List String} {st1 : St}
    (h : get_network_service_dns_servers w st s = .ok (l, st1)) :
    l = dnsOf w s ∧ extendsCmds st st1 := by
  simp only [get_network_service_dns_servers] at h
  split at h
  · exact absurd h (by simp)
  · rename_i x t stA heq
    obtain ⟨ht, hst⟩ := networksetup_cmd_ok heq
    injection h with h1
    rw [Prod.mk.injEq] at h1
    obtain ⟨rfl, rfl⟩ := h1
    refine ⟨?_, ⟨_, hst⟩⟩
    rw [dnsOf, runStdout, ← ht]

/-- A successful search-domains getter returns the world's parsed list. -/
theorem get_search_obs {w : World} {st : St} {s : String} {l : List String} {st1 : St}
    (h : get_network_service_search_domains w st s = .ok (l, st1)) :
    l = searchOf w s ∧ extendsCmds st st1 := by
  simp only [get_network_service_search_domains] at h
  split at h
  · exact absurd h (by simp)
  · rename_i x t stA heq
    obtain ⟨ht, hst⟩ := networksetup_cmd_ok heq
    injection h with h1
    rw [Prod.mk.injEq] at h1
    obtain ⟨rfl, rfl⟩ := h1
    refine ⟨?_, ⟨_, hst⟩⟩
    rw [searchOf, runStdout, ← ht]

/-- A successful `get_port_media_configuration` returns the world's parsed
media and only appends the command. -/
theorem get_media_obs {w : World} {st : St} {p : String}
    {m : CurrentHardwarePortMediaConfig} {st1 : St}
    (h : get_port_media_configuration w st p = .ok (m, st1)) :
    mediaOf w p = .ok m ∧ extendsCmds st st1 := by
  simp only [get_port_media_configuration] at h
  split at h
  · exact absurd h (by simp)
  · rename_i x t stA heq
    obtain ⟨ht, hst⟩ := networksetup_cmd_ok heq
    split at h
    · rename_i m0 hparse
      injection h with h1
      rw [Prod.mk.injEq] at h1
      obtain ⟨rfl, rfl⟩ := h1
      refine ⟨?_, ⟨_, hst⟩⟩
      rw [mediaOf, runStdout, ← ht]
      exact hparse
    · exact absurd h (by simp)
    · exact absurd h (by simp)
    · exact absurd h (by simp)

/-- A successful `get_port_mtu` returns the world's parsed MTU values and
only appends the command. -/
theorem get_mtu_obs {w : World} {st : St} {p : String}
    {ex : CurrentMTUConfig} {st1 : St}
    (h : get_port_mtu w st p = .ok (ex, st1)) :
    mtuOf w p = some ex ∧ extendsCmds st st1 := by
  simp only [get_port_mtu] at h
  split at h
  · exact absurd h (by simp)
  · rename_i x t stA heq
    obtain ⟨ht, hst⟩ := networksetup_cmd_ok heq
    split at h
    · rename_i r0 hparse
      injection h with h1
      rw [Prod.mk.injEq] at h1
      obtain ⟨rfl, rfl⟩ := h1
      refine ⟨?_, ⟨_, hst⟩⟩
      rw [mtuOf, runStdout, ← ht]
      exact hparse
    · exact absurd h (by simp)

/-- When the parsed mode/addresses already match, the mode stage runs its
command but logs nothing. -/
theorem cfgStageMode_match {w : World} {cfg : InterfaceConfig} {svc : NetworkServiceInfo}
    {st st' : St} (hm : modeMatchB cfg svc = true)
    (h : cfgStageMode w cfg svc st = .ok st') :
    extendsCmds st st' := by
  by_cases hd : truthyOB cfg.dhcp = true
  · rw [modeMatchB, if_pos hd, decide_eq_true_eq] at hm
    rw [cfgStageMode, if_pos hd] at h
    cases hcmd : networksetup_cmd w st ("networksetup -setdhcp \"" ++ svc.name ++ "\"") true with
    | error e =>
      simp only [hcmd] at h
      exact absurd h (by simp)
    | ok val =>
      obtain ⟨t, st1⟩ := val
      obtain ⟨-, hst1⟩ := networksetup_cmd_ok hcmd
      simp only [hcmd] at h
      rw [hm, if_neg (by simp)] at h
      injection h with h
      exact ⟨_, by rw [← h, hst1]⟩
  · rw [modeMatchB, if_neg hd] at hm
    rw [cfgStageMode, if_neg hd] at h
    cases hdm : cfg.dhcp_with_manual_address with
    | some d =>
      simp only [hdm] at h hm
      simp only [Bool.and_eq_true, decide_eq_true_eq] at hm
      obtain ⟨hc, hip⟩ := hm
      cases hcmd : networksetup_cmd w st
          ("networksetup -setmanualwithdhcprouter \"" ++ svc.name ++ "\" \"" ++
           d.ip_address ++ "\"") true with
      | error e =>
        simp only [hcmd] at h
        exact absurd h (by simp)
      | ok val =>
        obtain ⟨t, st1⟩ := val
        obtain ⟨-, hst1⟩ := networksetup_cmd_ok hcmd
        simp only [hcmd] at h
        rw [hc, hip, if_neg (by simp)] at h
        injection h with h
        exact ⟨_, by rw [← h, hst1]⟩
    | none =>
      simp only [hdm] at h hm
      cases hman : cfg.manual with
      | some m =>
        simp only [hman] at h hm
        simp only [Bool.and_eq_true, decide_eq_true_eq] at hm
        obtain ⟨⟨⟨hc, hip⟩, hsm⟩, hr⟩ := hm
        cases hcmd : networksetup_cmd w st ("networksetup -setmanual \"" ++ svc.name ++
            "\" \"" ++ m.ip_address ++ "\" \"" ++ m.subnet_mask ++ "\"" ++
            (if truthyOS m.router then " " ++ optStrRepr m.router else "")) true with
        | error e =>
        simp only [hcmd] at h
        exact absurd h (by simp)
        | ok val =>
          obtain ⟨t, st1⟩ := val
          obtain ⟨-, hst1⟩ := networksetup_cmd_ok hcmd
          simp only [hcmd] at h
          rw [hc, hip, hsm, hr, if_neg (by simp), if_neg (by simp), if_neg (by simp),
            if_neg (by simp)] at h
          injection h with h
          have hs : st' = st1 := by rw [← h]; simp [addLog]
          rw [hs, hst1]
          exact ⟨_, rfl⟩
      | none =>
        simp only [hman] at h
        injection h with h
        exact ⟨[], by rw [← h]; simp⟩

/-- When the parsed IPv6 state already matches, the IPv6 stage runs its
command (if any) but logs nothing. -/
theorem cfgStageIpv6_match {w : World} {cfg : InterfaceConfig} {svc : NetworkServiceInfo}
    {st st' : St} (hm : ipv6MatchB cfg svc = true)
    (h : cfgStageIpv6 w cfg svc st = .ok st') :
    extendsCmds st st' := by
  rw [ipv6MatchB] at hm
  rw [cfgStageIpv6] at h
  cases h6 : cfg.ipv6 with
  | none =>
    simp only [h6] at h
    injection h with h
    exact ⟨[], by rw [← h]; simp⟩
  | some v6 =>
    simp only [h6] at h hm
    by_cases hoff : truthyOB v6.off = true
    · rw [if_pos hoff, decide_eq_true_eq] at hm
      rw [if_pos hoff] at h
      cases hcmd : networksetup_cmd w st ("networksetup -setv6off \"" ++ svc.name ++ "\"") true with
      | error e =>
        simp only [hcmd] at h
        exact absurd h (by simp)
      | ok val =>
        obtain ⟨t, st1⟩ := val
        obtain ⟨-, hst1⟩ := networksetup_cmd_ok hcmd
        simp only [hcmd] at h
        rw [hm, if_neg (by simp)] at h
        injection h with h
        exact ⟨_, by rw [← h, hst1]⟩
    · rw [if_neg hoff] at h hm
      by_cases hauto : truthyOB v6.automatic = true
      · rw [if_pos hauto, decide_eq_true_eq] at hm
        rw [if_pos hauto] at h
        cases hcmd : networksetup_cmd w st
            ("networksetup -setv6automatic \"" ++ svc.name ++ "\"") true with
        | error e =>
        simp only [hcmd] at h
        exact absurd h (by simp)
        | ok val =>
          obtain ⟨t, st1⟩ := val
          obtain ⟨-, hst1⟩ := networksetup_cmd_ok hcmd
          simp only [hcmd] at h
          rw [hm, if_neg (by simp)] at h
          injection h with h
          exact ⟨_, by rw [← h, hst1]⟩
      · rw [if_neg hauto] at h hm
        by_cases hll : truthyOB v6.link_local = true
        · rw [if_pos hll, decide_eq_true_eq] at hm
          rw [if_pos hll] at h
          cases hcmd : networksetup_cmd w st
              ("networksetup -setv6LinkLocal \"" ++ svc.name ++ "\"") true with
          | error e =>
        simp only [hcmd] at h
        exact absurd h (by simp)
          | ok val =>
            obtain ⟨t, st1⟩ := val
            obtain ⟨-, hst1⟩ := networksetup_cmd_ok hcmd
            simp only [hcmd] at h
            rw [hm, if_neg (by simp)] at h
            injection h with h
            exact ⟨_, by rw [← h, hst1]⟩
        · rw [if_neg hll] at h hm
          cases h6m : v6.manual with
          | none =>
            simp only [h6m] at h
            injection h with h
            exact ⟨[], by rw [← h]; simp⟩
          | some m6 =>
            simp only [h6m] at h hm
            simp only [Bool.and_eq_true, decide_eq_true_eq] at hm
            obtain ⟨⟨ha, hr⟩, hp⟩ := hm
            cases hcmd : networksetup_cmd w st
                ("networksetup -setv6manual \"" ++ svc.name ++ "\" \"" ++ m6.address ++
                 "\" \"" ++ intRepr m6.prefix_length ++ "\" \"" ++
                 optStrRepr m6.router ++ "\"") true with
            | error e =>
        simp only [hcmd] at h
        exact absurd h (by simp)
            | ok val =>
              obtain ⟨t, st1⟩ := val
              obtain ⟨-, hst1⟩ := networksetup_cmd_ok hcmd
              simp only [hcmd] at h
              rw [ha, hr, hp, if_neg (by simp), if_neg (by simp), if_neg (by simp)] at h
              injection h with h
              have hs : st' = st1 := by rw [← h]; simp [addLog]
              rw [hs, hst1]
              exact ⟨_, rfl⟩

/-- When the current DNS servers already equal the desired list, the DNS
stage runs its command but logs nothing. -/
theorem cfgStageDns_match {w : World} {cfg : InterfaceConfig} {svc : NetworkServiceInfo}
    {st st' : St}
    (hm : (match cfg.dns_servers with
           | none => true
           | some l => decide (dnsOf w svc.name = l)) = true)
    (h : cfgStageDns w cfg svc st = .ok st') :
    extendsCmds st st' := by
  rw [cfgStageDns] at h
  cases hds : cfg.dns_servers with
  | none =>
    simp only [hds] at h
    injection h with h
    exact ⟨[], by rw [← h]; simp⟩
  | some l =>
    simp only [hds] at h hm
    rw [decide_eq_true_eq] at hm
    cases hg : get_network_service_dns_servers w st svc.name with
    | error e =>
      simp only [hg] at h
      exact absurd h (by simp)
    | ok val =>
      obtain ⟨existing, st1⟩ := val
      obtain ⟨hex, hext1⟩ := get_dns_obs hg
      simp only [hg] at h
      by_cases hl : l = []
      · rw [if_pos hl] at h
        cases hcmd : networksetup_cmd w st1
            ("networksetup -setdnsservers \"" ++ svc.name ++ "\" \"Empty\"") true with
        | error e =>
          simp only [hcmd] at h
          exact absurd h (by simp)
        | ok val2 =>
          obtain ⟨t, st2⟩ := val2
          obtain ⟨-, hst2⟩ := networksetup_cmd_ok hcmd
          simp only [hcmd] at h
          have hexnil : existing = [] := by rw [hex, hm, hl]
          rw [hexnil, if_neg (by simp)] at h
          injection h with h
          exact extendsCmds_trans hext1 ⟨_, by rw [← h, hst2]⟩
      · rw [if_neg hl] at h
        cases hcmd : networksetup_cmd w st1
            ("networksetup -setdnsservers \"" ++ svc.name ++ "\" " ++
             strJoinSep " " (l.map (fun s => "\"" ++ s ++ "\""))) true with
        | error e =>
          simp only [hcmd] at h
          exact absurd h (by simp)
        | ok val2 =>
          obtain ⟨t, st2⟩ := val2
          obtain ⟨-, hst2⟩ := networksetup_cmd_ok hcmd
          simp only [hcmd] at h
          have hany : (existing.any fun e => !l.contains e) = false := by
            rw [hex, hm, List.any_eq_false]
            intro x hx
            simp [hx]
          rw [hany, if_neg (by simp)] at h
          injection h with h
          exact extendsCmds_trans hext1 ⟨_, by rw [← h, hst2]⟩

/-- When the current search domains already equal the desired list, the
search-domains stage runs its command but logs nothing. -/
theorem cfgStageSearch_match {w : World} {cfg : InterfaceConfig} {svc : NetworkServiceInfo}
    {st st' : St}
    (hm : (match cfg.search_domains with
           | none => true
           | some l => decide (searchOf w svc.name = l)) = true)
    (h : cfgStageSearch w cfg svc st = .ok st') :
    extendsCmds st st' := by
  rw [cfgStageSearch] at h
  cases hds : cfg.search_domains with
  | none =>
    simp only [hds] at h
    injection h with h
    exact ⟨[], by rw [← h]; simp⟩
  | some l =>
    simp only [hds] at h hm
    rw [decide_eq_true_eq] at hm
    cases hg : get_network_service_search_domains w st svc.name with
    | error e =>
      simp only [hg] at h
      exact absurd h (by simp)
    | ok val =>
      obtain ⟨existing, st1⟩ := val
      obtain ⟨hex, hext1⟩ := get_search_obs hg
      simp only [hg] at h
      by_cases hl : l = []
      · rw [if_pos hl] at h
        cases hcmd : networksetup_cmd w st1
            ("networksetup -setsearchdomains \"" ++ svc.name ++ "\" \"Empty\"") true with
        | error e =>
          simp only [hcmd] at h
          exact absurd h (by simp)
        | ok val2 =>
          obtain ⟨t, st2⟩ := val2
          obtain ⟨-, hst2⟩ := networksetup_cmd_ok hcmd
          simp only [hcmd] at h
          have hexnil : existing = [] := by rw [hex, hm, hl]
          rw [hexnil, if_neg (by simp)] at h
          injection h with h
          exact extendsCmds_trans hext1 ⟨_, by rw [← h, hst2]⟩
      · rw [if_neg hl] at h
        cases hcmd : networksetup_cmd w st1
            ("networksetup -setsearchdomains \"" ++ svc.name ++ "\" " ++
             strJoinSep " " (l.map (fun s => "\"" ++ s ++ "\""))) true with
        | error e =>
          simp only [hcmd] at h
          exact absurd h (by simp)
        | ok val2 =>
          obtain ⟨t, st2⟩ := val2
          obtain ⟨-, hst2⟩ := networksetup_cmd_ok hcmd
          simp only [hcmd] at h
          have hany : (existing.any fun e => !l.contains e) = false := by
            rw [hex, hm, List.any_eq_false]
            intro x hx
            simp [hx]
          rw [hany, if_neg (by simp)] at h
          injection h with h
          exact extendsCmds_trans hext1 ⟨_, by rw [← h, hst2]⟩

/-- A successful `networksetup_cmd` after a pure command extension yields a
non-empty command extension. -/
theorem networksetup_cmd_trans_ne {w : World} {st0 st : St} {cmd : String}
    {check_rc : Bool} {t : ℤ × String × String} {st1 : St}
    (hext : extendsCmds st0 st)
    (h : networksetup_cmd w st cmd check_rc = .ok (t, st1)) :
    ∃ cmds, cmds ≠ [] ∧ st1 = { st0 with commands_run := st0.commands_run ++ cmds } := by
  obtain ⟨c, rfl⟩ := hext
  obtain ⟨-, hst1⟩ := networksetup_cmd_ok h
  exact ⟨c ++ [nsFull w cmd], by simp, by rw [hst1]; simp⟩

/-- When the current media already equals the desired configuration and the
speed is truthy, the media half runs its command but logs nothing. -/
theorem cfgHWMedia_match {w : World} {hw : HardwareConfig} {port : HardwarePortEntry}
    {media : CurrentHardwarePortMediaConfig} {st1 st2 : St}
    (hqt : truthyOI hw.speed = true)
    (hmcur : media.current = mediaCurrentDesired hw)
    (h : cfgHWMedia w hw port media st1 = .ok st2) :
    extendsCmds st1 st2 := by
  rw [cfgHWMedia, if_pos hqt] at h
  cases hsp : hw.speed with
  | none =>
    rw [hsp] at hqt
    exact absurd hqt (by simp [truthyOI])
  | some s =>
    simp only [hsp] at h
    have hdes : mediaCurrentDesired hw =
        .config ⟨s, duplexOf hw.duplex, hw.flow_control, hw.energy_efficient_ethernet⟩ := by
      rw [mediaCurrentDesired, if_pos hqt, hsp]
    rw [hdes] at hmcur
    cases hsm : speedMapping s with
    | none =>
      simp only [hsm] at h
      exact absurd h (by simp)
    | some spdStr =>
      simp only [hsm] at h
      split at h
      · exact absurd h (by simp)
      · rename_i t stB heq
        rw [hmcur, if_neg (by simp)] at h
        injection h with h
        obtain ⟨-, hstB⟩ := networksetup_cmd_ok heq
        exact ⟨_, by rw [← h, hstB]⟩

/-- When the current MTU already equals the desired value, the MTU half runs
its command but logs nothing; counting from a state the run extended, its
output extends the original state by a non-empty command list. -/
theorem cfgHWMtu_match {w : World} {hw : HardwareConfig} {port : HardwarePortEntry}
    {st0 st2 st' : St}
    (hmt : (match mtuOf w port.name with
            | some ex => decide (ex.current = mtuDesired hw)
            | none => false) = true)
    (hext : extendsCmds st0 st2)
    (h : cfgHWMtu w hw port st2 = .ok st') :
    ∃ cmds, cmds ≠ [] ∧ st' = { st0 with commands_run := st0.commands_run ++ cmds } := by
  rw [cfgHWMtu] at h
  split at h
  · exact absurd h (by simp)
  · rename_i ex st3 heq
    obtain ⟨hmo, hext3⟩ := get_mtu_obs heq
    rw [hmo] at hmt
    rw [decide_eq_true_eq] at hmt
    have hext03 := extendsCmds_trans hext hext3
    by_cases hti : truthyOI hw.mtu = true
    · rw [if_pos hti] at h
      cases hmt2 : hw.mtu with
      | none =>
        rw [hmt2] at hti
        exact absurd hti (by simp [truthyOI])
      | some mtu =>
        simp only [hmt2] at h
        have hdes : mtuDesired hw = mtu := by
          rw [mtuDesired, if_pos hti, hmt2]
          rfl
        split at h
        · exact absurd h (by simp)
        · rename_i t st4 heq2
          rw [hmt, hdes, if_neg (by simp)] at h
          injection h with h
          obtain ⟨cs, hne, hfin⟩ := networksetup_cmd_trans_ne hext03 heq2
          exact ⟨cs, hne, by rw [← h, hfin]⟩
    · rw [if_neg hti] at h
      have hdes : mtuDesired hw = 1500 := by rw [mtuDesired, if_neg hti]
      split at h
      · exact absurd h (by simp)
      · rename_i t st4 heq2
        rw [hmt, hdes, if_neg (by simp)] at h
        injection h with h
        obtain ⟨cs, hne, hfin⟩ := networksetup_cmd_trans_ne hext03 heq2
        exact ⟨cs, hne, by rw [← h, hfin]⟩

/-- When the current media and MTU already match the desired hardware state
(and the hardware-without-speed quirk does not apply), the hardware stage
runs its commands but logs nothing, and it always runs at least one
command. -/
theorem cfgStageHW_match {w : World} {cfg : InterfaceConfig} {port : HardwarePortEntry}
    {st st' : St}
    (hm : (match cfg.hardware with
           | none => decide (mediaCurrentOf w port.name = some .autoselect)
           | some hw =>
             decide (mediaCurrentOf w port.name = some (mediaCurrentDesired hw)) &&
             (match mtuOf w port.name with
              | some ex => decide (ex.current = mtuDesired hw)
              | none => false)) = true)
    (hq : hwNoSpeedQuirk cfg = false)
    (h : cfgStageHW w cfg port st = .ok st') :
    ∃ cmds, cmds ≠ [] ∧ st' = { st with commands_run := st.commands_run ++ cmds } := by
  rw [cfgStageHW] at h
  split at h
  · exact absurd h (by simp)
  · rename_i media st1 heq1
    obtain ⟨hmedia, hext1⟩ := get_media_obs heq1
    have hcur : mediaCurrentOf w port.name = some media.current := by
      rw [mediaCurrentOf, hmedia]
    cases hhw : cfg.hardware with
    | none =>
      simp only [hhw] at h hm
      rw [decide_eq_true_eq, hcur] at hm
      injection hm with hm
      split at h
      · exact absurd h (by simp)
      · rename_i t st2 heq2
        rw [hm, if_neg (by simp)] at h
        injection h with h
        obtain ⟨cs, hne, hfin⟩ := networksetup_cmd_trans_ne hext1 heq2
        exact ⟨cs, hne, by rw [← h, hfin]⟩
    | some hw =>
      have hqt : truthyOI hw.speed = true := by
        simp only [hwNoSpeedQuirk, hhw] at hq
        simpa using hq
      simp only [hhw] at h hm
      simp only [Bool.and_eq_true, decide_eq_true_eq] at hm
      obtain ⟨hmcur, hmtu⟩ := hm
      rw [hcur] at hmcur
      injection hmcur with hmcur
      split at h
      · exact absurd h (by simp)
      · rename_i st2 heq2
        have hext2 := cfgHWMedia_match hqt hmcur heq2
        exact cfgHWMtu_match hmtu (extendsCmds_trans hext1 hext2) h

/-- When the service name already matches (or no rename is requested), the
rename stage runs its command but logs nothing. -/
theorem cfgStageRename_match {w : World} {cfg : InterfaceConfig} {svc : NetworkServiceInfo}
    {st st' : St}
    (hm : (match cfg.name with
           | none => true
           | some n => if n.toList.isEmpty then true else decide (svc.name = n)) = true)
    (h : cfgStageRename w cfg svc st = .ok st') :
    extendsCmds st st' := by
  rw [cfgStageRename] at h
  cases hn : cfg.name with
  | none =>
    simp only [hn] at h
    injection h with h
    exact ⟨[], by rw [← h]; simp⟩
  | some nm =>
    simp only [hn] at h hm
    by_cases he : nm.toList.isEmpty = true
    · rw [if_pos he] at h
      injection h with h
      exact ⟨[], by rw [← h]; simp⟩
    · rw [if_neg he] at h
      rw [if_neg he, decide_eq_true_eq] at hm
      split at h
      · exact absurd h (by simp)
      · rename_i t st1 heq
        rw [hm, if_neg (by simp)] at h
        injection h with h
        obtain ⟨-, hst1⟩ := networksetup_cmd_ok heq
        exact ⟨_, by rw [← h, hst1]⟩

/-- **C1** (amended).  `configure_interface` is idempotent in its *report*,
not in its *commands*: when the parsed current state of the service and port
already equals the desired configuration (same mode, addresses, DNS servers,
search domains, media and MTU settings, and name) and the
hardware-without-speed quirk does not apply, a successful
`configure_interface` adds nothing to the changelog — but it still issues at
least one `networksetup` subcommand (the counterexample shows `-setdhcp`
running on an already-DHCP service), leaving every other result field
untouched. -/
theorem c1_configure_diff {w : World} {cfg : InterfaceConfig}
    {ports : List (String × HardwarePortEntry)} {svcs : List (String × NetworkServiceInfo)}
    {port : HardwarePortEntry} {svc : NetworkServiceInfo} {st st' : St}
    (hHW : st.cacheHW = some ports)
    (hSvc : st.cacheSvc = some svcs)
    (hport : dictLookup ports cfg.mac_address = some port)
    (hsvc : dictLookup svcs cfg.mac_address = some svc)
    (hmatch : desiredMatchesB w cfg svc port = true)
    (hq : hwNoSpeedQuirk cfg = false)
    (hok : configure_interface w cfg st = .ok st') :
    st'.changelog = st.changelog ∧
    ∃ cmds, cmds ≠ [] ∧ st' = { st with commands_run := st.commands_run ++ cmds } := by
  have hgh : get_hardware_ports_by_mac_address w st = .ok (ports, st) := by
    simp only [get_hardware_ports_by_mac_address, hHW]
  have hgs : get_network_services_by_mac_address w st = .ok (svcs, st) := by
    simp only [get_network_services_by_mac_address, hSvc]
  rw [configure_interface] at hok
  simp only [hgh, hport, hgs, hsvc] at hok
  have hm := hmatch
  rw [desiredMatchesB] at hm
  simp only [Bool.and_eq_true] at hm
  obtain ⟨⟨⟨⟨⟨h1, h2⟩, h3⟩, h4⟩, h5⟩, h6⟩ := hm
  cases hs3 : cfgStageMode w cfg svc st with
  | error e =>
    simp only [hs3] at hok
    exact absurd hok (by simp)
  | ok st3 =>
    simp only [hs3] at hok
    have e3 := cfgStageMode_match h1 hs3
    cases hs4 : cfgStageIpv6 w cfg svc st3 with
    | error e =>
      simp only [hs4] at hok
      exact absurd hok (by simp)
    | ok st4 =>
      simp only [hs4] at hok
      have e4 := cfgStageIpv6_match h2 hs4
      cases hs5 : cfgStageDns w cfg svc st4 with
      | error e =>
        simp only [hs5] at hok
        exact absurd hok (by simp)
      | ok st5 =>
        simp only [hs5] at hok
        have e5 := cfgStageDns_match h3 hs5
        cases hs6 : cfgStageSearch w cfg svc st5 with
        | error e =>
          simp only [hs6] at hok
          exact absurd hok (by simp)
        | ok st6 =>
          simp only [hs6] at hok
          have e6 := cfgStageSearch_match h4 hs6
          cases hs7 : cfgStageHW w cfg port st6 with
          | error e =>
            simp only [hs7] at hok
            exact absurd hok (by simp)
          | ok st7 =>
            simp only [hs7] at hok
            obtain ⟨ch, hchne, hch⟩ := cfgStageHW_match h5 hq hs7
            obtain ⟨c7, hc7⟩ := cfgStageRename_match h6 hok
            obtain ⟨cA, hcA⟩ :=
              extendsCmds_trans (extendsCmds_trans e3 e4) (extendsCmds_trans e5 e6)
            have hfin : st' =
                { st with commands_run := st.commands_run ++ (cA ++ ch ++ c7) } := by
              rw [hc7, hch, hcA]
              simp
            refine ⟨by rw [hfin], cA ++ ch ++ c7, ?_, hfin⟩
            intro hx
            rw [List.append_eq_nil] at hx
            obtain ⟨hx1, -⟩ := hx
            rw [List.append_eq_nil] at hx1
            exact hchne hx1.2

/-- Witness for C1 on the already-DHCP fixture: the interface is configured
without any changelog entry, yet at least one command was issued. -/
theorem c1_witness :
    stCached.cacheHW = some [(portEth.address, portEth)] ∧
    stCached.cacheSvc = some [(portEth.address, svcDhcp)] ∧
    desiredMatchesB wEthDhcp cfgDhcpOnly svcDhcp portEth = true ∧
    hwNoSpeedQuirk cfgDhcpOnly = false ∧
    (stC1After.changelog = stCached.changelog ∧
     ∃ cmds, cmds ≠ [] ∧ stC1After =
       { stCached with commands_run := stCached.commands_run ++ cmds }) :=
  ⟨rfl, rfl, by decide, by decide,
   c1_configure_diff
     (show stCached.cacheHW = some [(portEth.address, portEth)] from rfl)
     (show stCached.cacheSvc = some [(portEth.address, svcDhcp)] from rfl)
     (show dictLookup [(portEth.address, portEth)] cfgDhcpOnly.mac_address =
       some portEth from by decide)
     (show dictLookup [(portEth.address, svcDhcp)] cfgDhcpOnly.mac_address =
       some svcDhcp from by decide)
     (show desiredMatchesB wEthDhcp cfgDhcpOnly svcDhcp portEth = true from by decide)
     (by decide)
     (show configure_interface wEthDhcp cfgDhcpOnly stCached = .ok stC1After from by decide)⟩

end Dotfiles
